import Mathlib

/-
Verification of the text-transformation core of the render-api service
(apps/render-api/src/index.ts): CSS scoping, CSS-variable generation and
resolution, WeChat HTML structural fix-ups, page assembly, and the
request-handler validation logic.

The JavaScript string/regex operations are shallowly embedded over
`List Char`.  `String.prototype.replace` with a global literal pattern is
modelled as leftmost, non-overlapping textual replacement.  ECMAScript
performs `$`-substitution (`$&`, `$'` and friends) inside string
replacements, so literal replacement is faithful exactly when the
replacement string contains no `$`: the program's own replacement strings
never do, and every theorem that quantifies over user-configured option
values fed to `.replace` as replacement strings carries an explicit
`'$' ∉` hypothesis restricting it to that faithful domain.  The specific
regexes the source
uses are modelled by dedicated scanners that reproduce the leftmost-match,
greedy-with-backtracking semantics of each pattern.
-/

/-- JS whitespace as used by `\s` and `String.prototype.trim` (ASCII part;
the Unicode space classes never occur in the program's own text). -/
def isJsSpace (c : Char) : Bool :=
  c == ' ' || c == '\t' || c == '\n' || c == '\r' || c == '\x0b' || c == '\x0c'

/-- `String.prototype.trim`. -/
def jsTrim (l : List Char) : List Char :=
  ((l.dropWhile isJsSpace).reverse.dropWhile isJsSpace).reverse

/-- Whether `pat` occurs as a contiguous substring of `l`. -/
def occursL (pat : List Char) : List Char → Bool
  | [] => pat.isPrefixOf []
  | c :: cs => pat.isPrefixOf (c :: cs) || occursL pat cs

/-- The generic scan engine behind every `String.prototype.replace` with a
global pattern: at each position, `step` either produces the replacement text
of a leftmost match together with the text after the match, or fails, in
which case one character is emitted and scanning resumes at the next
position.  `fuel` makes the recursion structural (so concrete instances
reduce inside the kernel); every `step` used below consumes at least one
character per match, so the input length is always adequate fuel. -/
def scanG (step : List Char → Option (List Char × List Char)) :
    ℕ → List Char → List Char
  | _, [] => []
  | 0, l => l
  | fuel + 1, c :: cs =>
    match step (c :: cs) with
    | some (out, rest) => out ++ scanG step fuel rest
    | none => c :: scanG step fuel cs

/-- The scan engine with adequate fuel. -/
def scanL (step : List Char → Option (List Char × List Char)) (l : List Char) :
    List Char :=
  scanG step l.length l

/-- A step function is *consuming* when every match strictly shrinks the
text; all the regex steps below are. -/
def ConsumingStep (step : List Char → Option (List Char × List Char)) : Prop :=
  ∀ l out rest, step l = some (out, rest) → rest.length < l.length

/-- Match attempt of a literal pattern `pat` with replacement `repl`. -/
def replaceStep (pat repl : List Char) (l : List Char) :
    Option (List Char × List Char) :=
  if pat ≠ [] ∧ pat.isPrefixOf l then some (repl, l.drop pat.length) else none

/-- `s.replace(/pat/g, repl)` for a literal pattern: leftmost,
non-overlapping replacement of every occurrence. -/
def replaceAllL (pat repl l : List Char) : List Char :=
  scanL (replaceStep pat repl) l

/-- `s.replace(/pat/, repl)` for a literal pattern: replaces only the first
occurrence (used by the structural fixer's `match.replace(/style="/, …)`). -/
def replaceFirstL (pat repl : List Char) : List Char → List Char
  | [] => []
  | c :: cs =>
    if pat ≠ [] ∧ pat.isPrefixOf (c :: cs) then
      repl ++ (c :: cs).drop pat.length
    else
      c :: replaceFirstL pat repl cs

/-- Characters admitted by the selector group `[^{}@]` of the scoping regex. -/
def isSelChar (c : Char) : Bool :=
  !(c == '{' || c == '}' || c == '@')

/-- The callback of `wrapWithScope`, applied to the two capture groups:
trim the selector list; rules starting with `@` or `:root` are returned
verbatim; otherwise split on commas, trim, prefix with the scope and rejoin. -/
def scopeRuleCb (scope g1 g2 : List Char) : List Char :=
  let t := jsTrim g1
  if ("@".toList.isPrefixOf t) || (":root".toList.isPrefixOf t) then
    g1 ++ '{' :: (g2 ++ ['}'])
  else
    let wrapped := ((t.splitOn ',').map (fun sel =>
      let tr := jsTrim sel
      if tr = [] then [] else scope ++ ' ' :: tr)).filter (fun x => x ≠ [])
    (List.intercalate (", ".toList) wrapped) ++ (" \x7b ".toList ++ g2 ++ " \x7d".toList)

/-- Match attempt of `/([^{}@]+)\{([^}]*)\}/`: group 1 is the maximal
nonempty run of `[^{}@]` characters (greedy `+` followed by the literal `{`
forces maximality), group 2 the maximal run of non-`}` characters followed
by `}`. -/
def wrapScopeStep (scope : List Char) (l : List Char) :
    Option (List Char × List Char) :=
  let g1 := l.takeWhile isSelChar
  if g1 = [] then none
  else
    match l.drop g1.length with
    | '{' :: r =>
      let g2 := r.takeWhile (fun x => x ≠ '}')
      match r.drop g2.length with
      | '}' :: rest => some (scopeRuleCb scope g1 g2, rest)
      | _ => none
    | _ => none

/-- The scoping scan. -/
def wrapScopeL (scope l : List Char) : List Char :=
  scanL (wrapScopeStep scope) l

/-- `wrapWithScope(css, scope)` from apps/render-api/src/index.ts. -/
def wrapWithScope (css : String) (scope : String) : String :=
  String.mk (wrapScopeL scope.toList css.toList)

/-- The default value of `wrapWithScope`'s `scope` parameter. -/
def scopeDefault : String := ".md-container"

/-- The style options accepted by the service (string-valued fields are
`Option`al: `none` models a field that is absent/`undefined`, in which case
the destructuring defaults of the source apply). -/
structure StyleOptions where
  theme : Option String
  primaryColor : Option String
  fontSize : Option String
  fontFamily : Option String
  lineHeight : Option String
  codeTheme : Option String
  wechatCompatible : Bool
  inlineStyles : Bool

/-- Style options with every field absent (all destructuring defaults apply). -/
def StyleOptions.empty : StyleOptions :=
  ⟨none, none, none, none, none, none, false, false⟩

/-- `primaryColor` with the destructuring default of `generateCSSVariables`
and `replaceWechatVariables`. -/
def StyleOptions.pc (o : StyleOptions) : String :=
  o.primaryColor.getD "#1a73e8"

/-- `fontSize` with its destructuring default. -/
def StyleOptions.fs (o : StyleOptions) : String :=
  o.fontSize.getD "15px"

/-- `fontFamily` with the destructuring default of `generateCSSVariables`. -/
def StyleOptions.ffGen (o : StyleOptions) : String :=
  o.fontFamily.getD "-apple-system, BlinkMacSystemFont, \"Segoe UI\", Roboto, \"Helvetica Neue\", sans-serif"

/-- `fontFamily` with the (different) destructuring default of
`replaceWechatVariables`. -/
def StyleOptions.ffWechat (o : StyleOptions) : String :=
  o.fontFamily.getD "-apple-system, BlinkMacSystemFont, \"Segoe UI\", Roboto, sans-serif"

/-- `lineHeight` with its destructuring default. -/
def StyleOptions.lh (o : StyleOptions) : String :=
  o.lineHeight.getD "1.75"

/-- `generateCSSVariables(styleOptions)`: the `:root` custom-property block,
transcribed from the template literal of the source. -/
def generateCSSVariables (styleOptions : StyleOptions) : String :=
  "\n:root \x7b\n  --md-primary-color: " ++ styleOptions.pc ++
  ";\n  --md-font-size: " ++ styleOptions.fs ++
  ";\n  --md-font-family: " ++ styleOptions.ffGen ++
  ";\n  --md-line-height: " ++ styleOptions.lh ++
  ";\n  --foreground: 0 0% 25%;\n  --blockquote-background: #f7f7f7;\n\x7d\n"

/-- One decimal digit as a character. -/
def digitToChar (d : ℕ) : Char :=
  match d with
  | 0 => '0' | 1 => '1' | 2 => '2' | 3 => '3' | 4 => '4'
  | 5 => '5' | 6 => '6' | 7 => '7' | 8 => '8' | _ => '9'

/-- Decimal digit characters of a natural number (most significant first),
fuel-indexed; `n` itself is always adequate fuel. -/
def natDigitsF : ℕ → ℕ → List Char
  | 0, n => [digitToChar (n % 10)]
  | fuel + 1, n =>
    if n < 10 then [digitToChar n]
    else natDigitsF fuel (n / 10) ++ [digitToChar (n % 10)]

/-- Decimal digit characters of a natural number. -/
def natDigits (n : ℕ) : List Char := natDigitsF n n

/-- Numeric value of a digit character. -/
def charDigit (c : Char) : ℕ := c.toNat - 48

/-- Value of a list of decimal digit characters. -/
def natOfDigits (l : List Char) : ℕ := l.foldl (fun a c => 10 * a + charDigit c) 0

/-- Character class `[\d.]` of the `calc()` rewriting regex. -/
def isCalcDigit (c : Char) : Bool := c.isDigit || c == '.'

/-- A signed exact decimal `(-1)^neg * mant / 10^scale`: the value model for
the `calc()` arithmetic.  JS numbers there are IEEE-754 doubles; products of
short decimals are modelled exactly — a faithfulness caveat noted where
relevant. -/
structure JsDec where
  neg : Bool
  mant : ℕ
  scale : ℕ

/-- The optional sign at the head of a `parseFloat` input: the flag records a
leading `-`, the list is the text after the sign. -/
def jsSignSplit (l1 : List Char) : Bool × List Char :=
  match l1 with
  | '-' :: t => (true, t)
  | '+' :: t => (false, t)
  | _ => (false, l1)

/-- `Number.parseFloat`, modelled on the fragment the program can feed it:
optional leading whitespace, optional sign, digits, optional `.` and more
digits.  `none` models `NaN`; the exponent form (`1e3`) is not modelled — no
theorem below exercises an input where the difference is observable. -/
def jsParseFloat (l : List Char) : Option JsDec :=
  let sgn := jsSignSplit (l.dropWhile isJsSpace)
  let ip := sgn.2.takeWhile Char.isDigit
  let l3 := sgn.2.drop ip.length
  match l3 with
  | '.' :: t =>
    let fp := t.takeWhile Char.isDigit
    if ip = [] ∧ fp = [] then none
    else some ⟨sgn.1, natOfDigits ip * 10 ^ fp.length + natOfDigits fp, fp.length⟩
  | _ => if ip = [] then none else some ⟨sgn.1, natOfDigits ip, 0⟩

/-- Smallest exponent `k` with `den ∣ 10 ^ k` (the rationals this program
computes always have such a `k`, being products of parsed decimals). -/
def decPow (den : ℕ) : Option ℕ := (List.range 40).find? (fun k => den ∣ 10 ^ k)

/-- Fraction digits of `m`, left-padded with zeros to width `k`. -/
def padDigits (k m : ℕ) : List Char :=
  let ds := natDigits m
  List.replicate (k - ds.length) '0' ++ ds

/-- JS number-to-string for a finite-decimal rational (used only for JSON
number values reaching template interpolation, which no theorem evaluates). -/
def fmtQ (q : ℚ) : List Char :=
  let sign : List Char := if q < 0 then ['-'] else []
  let n : ℕ := q.num.natAbs
  match decPow q.den with
  | some k =>
    if k = 0 then sign ++ natDigits n
    else sign ++ natDigits (n * 10 ^ k / q.den / 10 ^ k) ++
      '.' :: padDigits k (n * 10 ^ k / q.den % 10 ^ k)
  | none => sign ++ "Inexact".toList

/-- Strip factors of ten shared by the mantissa and the scale, so the decimal
prints in the shortest form, as JS does for exactly representable values. -/
def stripZeros : ℕ → ℕ → ℕ × ℕ
  | n, 0 => (n, 0)
  | n, k + 1 => if n % 10 = 0 then stripZeros (n / 10) k else (n, k + 1)

/-- JS number-to-string for an exact decimal. -/
def fmtDec (d : JsDec) : List Char :=
  let p := stripZeros d.mant d.scale
  let sign : List Char := if d.neg ∧ p.1 ≠ 0 then ['-'] else []
  if p.2 = 0 then sign ++ natDigits p.1
  else sign ++ natDigits (p.1 / 10 ^ p.2) ++ '.' :: padDigits p.2 (p.1 % 10 ^ p.2)

/-- Template interpolation `${x}` of a JS number (`none` = `NaN`). -/
def jsNumToString (x : Option JsDec) : List Char :=
  match x with
  | none => "NaN".toList
  | some d => fmtDec d

/-- JS `*` on possibly-NaN numbers. -/
def jsMul (a b : Option JsDec) : Option JsDec :=
  match a, b with
  | some x, some y => some ⟨x.neg != y.neg, x.mant * y.mant, x.scale + y.scale⟩
  | _, _ => none

/-- Match attempt of `/:root\s*\{[^}]*\}/`: the literal `:root`, greedy
whitespace, `{`, a maximal run of non-`}` characters, `}`; every match is
deleted. -/
def rootStripStep (l : List Char) : Option (List Char × List Char) :=
  if ":root".toList.isPrefixOf l then
    let r1 := l.drop 5
    let ws := r1.takeWhile isJsSpace
    match r1.drop ws.length with
    | '{' :: r2 =>
      let g := r2.takeWhile (fun x => x ≠ '}')
      match r2.drop g.length with
      | '}' :: rest => some ([], rest)
      | _ => none
    | _ => none
  else none

/-- The `:root`-stripping scan. -/
def rootStripL (l : List Char) : List Char := scanL rootStripStep l

/-- The literal part of the pattern `/calc\(15px \* ([\d.]+)\)/g`. -/
def calcLit : List Char := "calc(15px * ".toList

/-- Match attempt of `/calc\(15px \* ([\d.]+)\)/`: on a match the multiplier
group is parsed and multiplied by the parsed configured font size, and the
match is replaced by the interpolated product followed by `px`. -/
def calcStep (fontSize : List Char) (l : List Char) :
    Option (List Char × List Char) :=
  if calcLit.isPrefixOf l then
    let r1 := l.drop calcLit.length
    let mult := r1.takeWhile isCalcDigit
    if mult = [] then none
    else
      match r1.drop mult.length with
      | ')' :: rest =>
        some (jsNumToString (jsMul (jsParseFloat fontSize) (jsParseFloat mult)) ++
          "px".toList, rest)
      | _ => none
  else none

/-- The `calc()` rewriting scan. -/
def calcPassL (fontSize l : List Char) : List Char := scanL (calcStep fontSize) l

/-- The eight ordered literal substitutions of `replaceWechatVariables`,
with the destructured (defaulted) `primaryColor`, `fontSize`, `fontFamily`. -/
def wechatPairs (P F FF : List Char) : List (List Char × List Char) :=
  [("var(--md-primary-color)".toList, P),
   ("var(--md-font-size)".toList, F),
   ("var(--md-font-family)".toList, FF),
   ("var(--md-line-height)".toList, "1.75".toList),
   ("var(--blockquote-background)".toList, "#f7f7f7".toList),
   ("var(--foreground)".toList, "0 0% 25%".toList),
   ("hsl(var(--foreground))".toList, "#3f3f3f".toList),
   ("hsl(0 0% 25%)".toList, "#3f3f3f".toList)]

/-- Apply a list of literal substitutions in order. -/
def foldReplace (prs : List (List Char × List Char)) (l : List Char) : List Char :=
  prs.foldl (fun acc pr => replaceAllL pr.1 pr.2 acc) l

/-- `replaceWechatVariables(html, styleOptions)`: the eight ordered literal
replacements, then the `:root` block removal, then the `calc()` rewrite. -/
def replaceWechatVariables (html : String) (styleOptions : StyleOptions) : String :=
  String.mk (calcPassL styleOptions.fs.toList (rootStripL
    (foldReplace
      (wechatPairs styleOptions.pc.toList styleOptions.fs.toList styleOptions.ffWechat.toList)
      html.toList)))

/-- Backtracking search of `([^>]*)\s<attr>="(\d+)"([^>]*)` inside a tag
segment: the greedy first group makes the regex pick the rightmost split
`seg = A ++ [w] ++ attr ++ '="' ++ D ++ '"' ++ B` with `w` whitespace and `D`
a maximal nonempty digit run; this function prefers the recursive (later)
split for exactly that reason. -/
def findAttrSplit (attrName : List Char) : List Char →
    Option (List Char × Char × List Char × List Char)
  | [] => none
  | c :: cs =>
    match findAttrSplit attrName cs with
    | some (A, w, D, B) => some (c :: A, w, D, B)
    | none =>
      if isJsSpace c && (attrName ++ "=\"".toList).isPrefixOf cs then
        let t := cs.drop (attrName.length + 2)
        let D := t.takeWhile Char.isDigit
        if D = [] then none
        else
          match t.drop D.length with
          | '"' :: B => some ([], c, D, B)
          | _ => none
      else none

/-- Match attempt of `/<img([^>]*)\swidth="(\d+)"([^>]*)>/` (and its `height`
twin) with the source's callback: if `/style="/.test(before + after)` the
first `style="` of the matched text is widened by the new rule, otherwise a
fresh `style` attribute replaces the size attribute. -/
def imgStyleStep (attrName : List Char) (l : List Char) :
    Option (List Char × List Char) :=
  if "<img".toList.isPrefixOf l then
    let r := l.drop 4
    let seg := r.takeWhile (fun x => x ≠ '>')
    match r.drop seg.length with
    | '>' :: rest =>
      match findAttrSplit attrName seg with
      | some (A, w, D, B) =>
        some ((if occursL ("style=\"".toList) (A ++ B) then
          replaceFirstL ("style=\"".toList)
            ("style=\"".toList ++ attrName ++ ": ".toList ++ D ++ "px; ".toList)
            ("<img".toList ++ A ++ w ::
              (attrName ++ "=\"".toList ++ D ++ '"' :: (B ++ ['>'])))
        else
          "<img".toList ++ A ++ " style=\"".toList ++ attrName ++ ": ".toList ++
            D ++ "px;\"".toList ++ B ++ ['>']), rest)
      | none => none
    | _ => none
  else none

/-- The size-to-style scan. -/
def imgStylePassL (attrName l : List Char) : List Char :=
  scanL (imgStyleStep attrName) l

/-- Match attempt of `/<img([^>]*)\swidth="\d+"([^>]*)>/`, replacement
`'<img$1$2>'` (and the `height` twin). -/
def imgDropStep (attrName : List Char) (l : List Char) :
    Option (List Char × List Char) :=
  if "<img".toList.isPrefixOf l then
    let r := l.drop 4
    let seg := r.takeWhile (fun x => x ≠ '>')
    match r.drop seg.length with
    | '>' :: rest =>
      match findAttrSplit attrName seg with
      | some (A, _, _, B) => some ("<img".toList ++ A ++ B ++ ['>'], rest)
      | none => none
    | _ => none
  else none

/-- The attribute-dropping scan. -/
def imgDropPassL (attrName l : List Char) : List Char :=
  scanL (imgDropStep attrName) l

/-- The fixed inline style appended to every `<tspan>` by the Mermaid
text-color fix-up. -/
def tspanStyle : List Char :=
  " style=\"fill: #333333 !important; color: #333333 !important; stroke: none !important;\">".toList

/-- Match attempt of `/<tspan([^>]*)>/`, replacement `'<tspan$1 style="…">'`. -/
def tspanStep (l : List Char) : Option (List Char × List Char) :=
  if "<tspan".toList.isPrefixOf l then
    let r := l.drop 6
    let seg := r.takeWhile (fun x => x ≠ '>')
    match r.drop seg.length with
    | '>' :: rest => some ("<tspan".toList ++ seg ++ tspanStyle, rest)
    | _ => none
  else none

/-- The `<tspan>` scan. -/
def tspanPassL (l : List Char) : List Char := scanL tspanStep l

/-- `modifyHtmlStructureForWechat(html)`: width pass, height pass, the two
attribute-dropping passes, then the `<tspan>` style pass, in source order. -/
def modifyHtmlStructureForWechat (html : String) : String :=
  String.mk (tspanPassL (imgDropPassL "height".toList (imgDropPassL "width".toList
    (imgStylePassL "height".toList (imgStylePassL "width".toList html.toList)))))

/-- The container rule block appended to `fullCSS` by `buildFullHTML`. -/
def containerCSS : String :=
  "\n.md-container \x7b\n  max-width: 750px;\n  margin: 0 auto;\n  padding: 20px;\n  font-family: var(--md-font-family);\n  font-size: var(--md-font-size);\n  line-height: var(--md-line-height);\n  color: hsl(var(--foreground));\n\x7d\n.md-container > section > :first-child \x7b\n  margin-top: 0 !important;\n\x7d\n"

/-- The fixed Highlight.js palette appended to `fullCSS` by `buildFullHTML`. -/
def hljsCSS : String :=
  "\n/* Highlight.js 基础样式 */\n" ++
  ".hljs \x7b background: #1e1e1e; color: #d4d4d4; \x7d\n" ++
  ".hljs-keyword \x7b color: #569cd6; \x7d\n" ++
  ".hljs-string \x7b color: #ce9178; \x7d\n" ++
  ".hljs-number \x7b color: #b5cea8; \x7d\n" ++
  ".hljs-comment \x7b color: #6a9955; \x7d\n" ++
  ".hljs-function \x7b color: #dcdcaa; \x7d\n" ++
  ".hljs-class \x7b color: #4ec9b0; \x7d\n" ++
  ".hljs-variable \x7b color: #9cdcfe; \x7d\n" ++
  ".hljs-operator \x7b color: #d4d4d4; \x7d\n" ++
  ".hljs-punctuation \x7b color: #d4d4d4; \x7d\n" ++
  ".hljs-property \x7b color: #9cdcfe; \x7d\n" ++
  ".hljs-attr \x7b color: #9cdcfe; \x7d\n" ++
  ".hljs-selector-class \x7b color: #d7ba7d; \x7d\n" ++
  ".hljs-selector-id \x7b color: #d7ba7d; \x7d\n" ++
  ".hljs-tag \x7b color: #569cd6; \x7d\n" ++
  ".hljs-name \x7b color: #569cd6; \x7d\n" ++
  ".hljs-attribute \x7b color: #9cdcfe; \x7d\n" ++
  ".hljs-built_in \x7b color: #4ec9b0; \x7d\n" ++
  ".hljs-type \x7b color: #4ec9b0; \x7d\n" ++
  ".hljs-params \x7b color: #9cdcfe; \x7d\n" ++
  ".hljs-title \x7b color: #dcdcaa; \x7d\n" ++
  ".hljs-title.function_ \x7b color: #dcdcaa; \x7d\n" ++
  ".hljs-title.class_ \x7b color: #4ec9b0; \x7d\n" ++
  ".hljs-meta \x7b color: #c586c0; \x7d\n" ++
  ".hljs-literal \x7b color: #569cd6; \x7d\n" ++
  ".hljs-symbol \x7b color: #b5cea8; \x7d\n" ++
  ".hljs-regexp \x7b color: #d16969; \x7d\n" ++
  ".hljs-deletion \x7b color: #ce9178; background: rgba(206, 145, 120, 0.1); \x7d\n" ++
  ".hljs-addition \x7b color: #b5cea8; background: rgba(181, 206, 168, 0.1); \x7d\n"

/-- The document shell of `buildFullHTML` up to the scoped CSS. -/
def docShellPre : String :=
  "<!DOCTYPE html>\n<html lang=\"zh-CN\">\n<head>\n  <meta charset=\"UTF-8\">\n  <meta name=\"viewport\" content=\"width=device-width, initial-scale=1.0\">\n  <title>Markdown Preview</title>\n  <style>\n"

/-- The document shell between the scoped CSS and the content. -/
def docShellMid : String :=
  "\n  </style>\n</head>\n<body>\n  <div class=\"md-container\">\n    "

/-- The document shell after the content. -/
def docShellPost : String := "\n  </div>\n</body>\n</html>"

/-- `buildFullHTML(content, styleOptions, includeStyles)`.  The theme-CSS
loader (disk I/O behind a cache) and the `juice` inliner are external
collaborators of this core and enter as opaque function parameters. -/
def buildFullHTML (loadCSS : String → String) (juiceFn : String → String)
    (content : String) (styleOptions : StyleOptions) (includeStyles : Bool) : String :=
  if includeStyles = false then content
  else
    let theme := styleOptions.theme.getD "default"
    let baseCSS := loadCSS "base.css"
    let themeCSS := loadCSS (theme ++ ".css")
    let cssVariables := generateCSSVariables styleOptions
    let fullCSS := cssVariables ++ "\n" ++ baseCSS ++ "\n" ++ themeCSS ++ containerCSS ++ hljsCSS
    let scopedCSS := wrapWithScope fullCSS scopeDefault
    let html0 := docShellPre ++ scopedCSS ++ docShellMid ++ content ++ docShellPost
    let html1 := if styleOptions.wechatCompatible then
        replaceWechatVariables html0 styleOptions
      else html0
    if styleOptions.inlineStyles then
      let html2 := modifyHtmlStructureForWechat (juiceFn html1)
      if styleOptions.wechatCompatible then replaceWechatVariables html2 styleOptions
      else html2
    else html1

/-- JSON values as produced by `JSON.parse`. -/
inductive Json where
  | null
  | bool (b : Bool)
  | num (q : ℚ)
  | str (s : String)
  | arr (elts : List Json)
  | obj (fields : List (String × Json))

/-- JS truthiness of a parsed JSON value. -/
def jsTruthy : Json → Bool
  | Json.null => false
  | Json.bool b => b
  | Json.num q => decide (q ≠ 0)
  | Json.str s => decide (s ≠ "")
  | Json.arr _ => true
  | Json.obj _ => true

/-- JS string conversion as used by template interpolation.  Arrays join
their converted elements with commas (`null` elements, which JS renders
empty inside a join, are approximated by their top-level form; no theorem
exercises this corner). -/
def jsToStr : Json → String
  | Json.null => "null"
  | Json.bool true => "true"
  | Json.bool false => "false"
  | Json.num q => String.mk (fmtQ q)
  | Json.str s => s
  | Json.arr elts => String.intercalate "," (elts.attach.map (fun e => jsToStr e.1))
  | Json.obj _ => "[object Object]"
  decreasing_by
    have h := List.sizeOf_lt_of_mem e.2
    simp only [ Json.arr.sizeOf_spec]
    omega

/-- Property access on a parsed JSON value: objects look keys up (later
duplicates from `JSON.parse` win), primitives and arrays have none of the
request fields, so access yields `undefined` (`none`). -/
def jsonField (j : Json) (name : String) : Option Json :=
  match j with
  | Json.obj fields => fields.reverse.lookup name
  | _ => none

/-- The destructuring
`const { markdown, options, includeStyles = false, styleOptions = {} } = …`:
destructuring `null` throws a `TypeError` (caught by the handler's
catch-all); every other value yields its four fields. -/
def jsDestructure (j : Json) :
    Except Unit (Option Json × Option Json × Option Json × Option Json) :=
  match j with
  | Json.null => Except.error ()
  | _ => Except.ok
      (jsonField j "markdown", jsonField j "options",
       jsonField j "includeStyles", jsonField j "styleOptions")

/-- The `StyleOptions` record observed by `buildFullHTML` and its helpers
when the request's `styleOptions` value is `v` (absent fields are `none`,
present fields convert by template/string interpolation at their use sites). -/
def styleOptionsOfJson (v : Option Json) : StyleOptions :=
  match v with
  | none => StyleOptions.empty
  | some j =>
    { theme := (jsonField j "theme").map jsToStr
      primaryColor := (jsonField j "primaryColor").map jsToStr
      fontSize := (jsonField j "fontSize").map jsToStr
      fontFamily := (jsonField j "fontFamily").map jsToStr
      lineHeight := (jsonField j "lineHeight").map jsToStr
      codeTheme := (jsonField j "codeTheme").map jsToStr
      wechatCompatible := ((jsonField j "wechatCompatible").map jsTruthy).getD false
      inlineStyles := ((jsonField j "inlineStyles").map jsTruthy).getD false }

/-- Failure modes of `readJson`. -/
inductive RdErr where
  | tooLarge
  | badJson
deriving DecidableEq

/-- `readJson(req)`: the accumulated body, size-capped; an empty body
resolves to the empty object without consulting `JSON.parse`; otherwise
`JSON.parse` (an external black box, passed as `parse`) decides between a
value and the `Invalid JSON` rejection. -/
def readJson (maxBodyBytes : ℕ) (parse : String → Option Json) (body : String) :
    Except RdErr Json :=
  if maxBodyBytes < body.utf8ByteSize then Except.error RdErr.tooLarge
  else if body = "" then Except.ok (Json.obj [])
  else
    match parse body with
    | some j => Except.ok j
    | none => Except.error RdErr.badJson

/-- An HTTP response: status, content type, body. -/
structure Resp where
  status : ℕ
  contentType : String
  body : String
deriving DecidableEq

/-- Minimal `JSON.stringify` escaping for the string values this service
emits. -/
def jsonEscape (s : String) : String :=
  String.mk (s.toList.foldr (fun c acc =>
    if c = '"' then '\\' :: '"' :: acc
    else if c = '\\' then '\\' :: '\\' :: acc
    else if c = '\n' then '\\' :: 'n' :: acc
    else if c = '\r' then '\\' :: 'r' :: acc
    else if c = '\t' then '\\' :: 't' :: acc
    else c :: acc) [])

/-- `sendJson(res, 400, { error: message })`. -/
def jsonError (msg : String) : Resp :=
  ⟨400, "application/json; charset=utf-8", "\x7b\"error\":\"" ++ jsonEscape msg ++ "\"\x7d"⟩

/-- `sendJson(res, 200, { html })`. -/
def jsonOk (html : String) : Resp :=
  ⟨200, "application/json; charset=utf-8", "\x7b\"html\":\"" ++ jsonEscape html ++ "\"\x7d"⟩

/-- `sendHtml(res, 200, html)`. -/
def htmlResp (html : String) : Resp :=
  ⟨200, "text/html; charset=utf-8", html⟩

/-- The `POST /render` branch of the request handler.  The Markdown renderer
(`renderer.reset(options)` followed by `modifyHtmlContent(markdown, renderer)`)
is an external collaborator and enters as the opaque `render` parameter;
likewise the CSS loader and the `juice` inliner.  `body` is the outcome of
`readJson`; `accept` is the request's `Accept` header. -/
def renderPost (render : Json → String → String) (loadCSS juiceFn : String → String)
    (accept : String) (body : Except RdErr Json) : Resp :=
  match body with
  | Except.error RdErr.tooLarge => jsonError "request body exceeds limit"
  | Except.error RdErr.badJson => jsonError "invalid JSON payload"
  | Except.ok j =>
    match jsDestructure j with
    | Except.error _ => jsonError "failed to render markdown"
    | Except.ok (mdv, optv, incv, stylev) =>
      match mdv with
      | some (Json.str markdown) =>
        let renderOptions : Json := match optv with
          | some (Json.obj fields) => Json.obj fields
          | some (Json.arr elts) => Json.arr elts
          | _ => Json.obj []
        let includeStyles : Bool := (incv.map jsTruthy).getD false
        let content := render renderOptions markdown
        match stylev with
        | some Json.null =>
          -- `buildFullHTML` destructures `styleOptions` only after its
          -- `includeStyles` early return, so a null `styleOptions` throws
          -- (→ catch-all) exactly when styles were requested.
          if includeStyles then jsonError "failed to render markdown"
          else jsonOk content
        | _ =>
          let styleOptions := styleOptionsOfJson stylev
          let html := buildFullHTML loadCSS juiceFn content styleOptions includeStyles
          if includeStyles && occursL "text/html".toList accept.toList then htmlResp html
          else jsonOk html
      | _ => jsonError "markdown must be a string"

/-- `occursL` lifted to `String`. -/
def occursS (pat s : String) : Bool := occursL pat.toList s.toList

/-- The style options of the `C4` counterexample: a configured primary color
whose text contains a `\x7d` followed by an unknown `var(--md-…)` token. -/
def c4Opts : StyleOptions :=
  { StyleOptions.empty with primaryColor := some "\x7dvar(--md-oops)" }

/-- A carrier text assembled from context segments separated by copies of a
payload `mid`: `interE mid [s0, s1, …, sn] = s0 ++ mid ++ s1 ++ mid ++ … ++ sn`
(one payload occurrence between consecutive segments). -/
def interE (mid : List Char) : List (List Char) → List Char
  | [] => []
  | [s] => s
  | s :: rest => s ++ (mid ++ interE mid rest)

theorem scanG_nil (step : List Char → Option (List Char × List Char)) :
    ∀ f, scanG step f [] = [] := by
  intro f
  cases f <;> rfl

theorem scanG_fuel_eq (step : List Char → Option (List Char × List Char))
    (hs : ConsumingStep step) :
    ∀ f1 f2 l, l.length ≤ f1 → l.length ≤ f2 → scanG step f1 l = scanG step f2 l := by
  intro f1
  induction f1 with
  | zero =>
    intro f2 l h1 _
    have hl : l = [] := List.eq_nil_of_length_eq_zero (by omega)
    subst hl
    rw [scanG_nil, scanG_nil]
  | succ n ih =>
    intro f2 l h1 h2
    match l with
    | [] => rw [scanG_nil, scanG_nil]
    | c :: cs =>
      match f2 with
      | 0 => simp at h2
      | m + 1 =>
        simp only [scanG]
        cases hstep : step (c :: cs) with
        | some pr =>
          obtain ⟨out, rest⟩ := pr
          have hlt := hs _ _ _ hstep
          simp only [List.length_cons] at h1 h2 hlt
          exact congrArg (out ++ ·) (ih m rest (by omega) (by omega))
        | none =>
          simp only [List.length_cons] at h1 h2
          exact congrArg (c :: ·) (ih m cs (by omega) (by omega))

theorem scanL_cons (step : List Char → Option (List Char × List Char))
    (hs : ConsumingStep step) (c : Char) (cs : List Char) :
    scanL step (c :: cs) =
      match step (c :: cs) with
      | some (out, rest) => out ++ scanL step rest
      | none => c :: scanL step cs := by
  show scanG step (c :: cs).length (c :: cs) = _
  simp only [List.length_cons, scanG]
  cases hstep : step (c :: cs) with
  | some pr =>
    obtain ⟨out, rest⟩ := pr
    have hlt := hs _ _ _ hstep
    simp only [List.length_cons] at hlt
    exact congrArg (out ++ ·) (scanG_fuel_eq step hs _ _ rest (by omega) le_rfl)
  | none => rfl

theorem scanL_nil (step : List Char → Option (List Char × List Char)) :
    scanL step [] = [] := rfl

theorem replaceStep_consuming (pat repl : List Char) :
    ConsumingStep (replaceStep pat repl) := by
  intro l out rest h
  simp only [replaceStep] at h
  split at h
  case isTrue hc =>
    obtain ⟨h1, h2⟩ := Prod.mk.injEq .. ▸ Option.some.injEq .. ▸ h
    subst h2
    have hp : 0 < pat.length := List.length_pos.mpr hc.1
    have hle : pat.length ≤ l.length :=
      (List.isPrefixOf_iff_prefix.mp hc.2).length_le
    simp only [List.length_drop]
    omega
  case isFalse => exact absurd h (by simp)

theorem wrapScopeStep_consuming (scope : List Char) :
    ConsumingStep (wrapScopeStep scope) := by
  intro l out rest h
  simp only [wrapScopeStep] at h
  split at h
  · exact absurd h (by simp)
  · split at h
    case h_1 r heq =>
      split at h
      case h_1 rest2 heq2 =>
        obtain ⟨h1, h2⟩ := Prod.mk.injEq .. ▸ Option.some.injEq .. ▸ h
        subst h2
        have e1 := congrArg List.length heq
        have e2 := congrArg List.length heq2
        simp only [List.length_drop, List.length_cons] at e1 e2
        omega
      case h_2 => exact absurd h (by simp)
    case h_2 => exact absurd h (by simp)

theorem rootStripStep_consuming : ConsumingStep rootStripStep := by
  intro l out rest h
  simp only [rootStripStep] at h
  split at h
  case isTrue =>
    split at h
    case h_1 r2 heq =>
      split at h
      case h_1 rest2 heq2 =>
        obtain ⟨h1, h2⟩ := Prod.mk.injEq .. ▸ Option.some.injEq .. ▸ h
        subst h2
        have e1 := congrArg List.length heq
        have e2 := congrArg List.length heq2
        simp only [List.length_drop, List.length_cons] at e1 e2
        omega
      case h_2 => exact absurd h (by simp)
    case h_2 => exact absurd h (by simp)
  case isFalse => exact absurd h (by simp)

theorem calcStep_consuming (fontSize : List Char) :
    ConsumingStep (calcStep fontSize) := by
  intro l out rest h
  simp only [calcStep] at h
  split at h
  case isTrue =>
    split at h
    case isTrue => exact absurd h (by simp)
    case isFalse =>
      split at h
      case h_1 rest2 heq =>
        obtain ⟨h1, h2⟩ := Prod.mk.injEq .. ▸ Option.some.injEq .. ▸ h
        subst h2
        have e1 := congrArg List.length heq
        simp only [List.length_drop, List.length_cons] at e1
        omega
      case h_2 => exact absurd h (by simp)
  case isFalse => exact absurd h (by simp)

theorem imgStyleStep_consuming (attrName : List Char) :
    ConsumingStep (imgStyleStep attrName) := by
  intro l out rest h
  simp only [imgStyleStep] at h
  split at h
  case isTrue =>
    split at h
    case h_1 rest2 heq =>
      split at h
      case h_1 =>
        obtain ⟨h1, h2⟩ := Prod.mk.injEq .. ▸ Option.some.injEq .. ▸ h
        subst h2
        have e1 := congrArg List.length heq
        simp only [List.length_drop, List.length_cons] at e1
        omega
      case h_2 => exact absurd h (by simp)
    case h_2 => exact absurd h (by simp)
  case isFalse => exact absurd h (by simp)

theorem imgDropStep_consuming (attrName : List Char) :
    ConsumingStep (imgDropStep attrName) := by
  intro l out rest h
  simp only [imgDropStep] at h
  split at h
  case isTrue =>
    split at h
    case h_1 rest2 heq =>
      split at h
      case h_1 =>
        obtain ⟨h1, h2⟩ := Prod.mk.injEq .. ▸ Option.some.injEq .. ▸ h
        subst h2
        have e1 := congrArg List.length heq
        simp only [List.length_drop, List.length_cons] at e1
        omega
      case h_2 => exact absurd h (by simp)
    case h_2 => exact absurd h (by simp)
  case isFalse => exact absurd h (by simp)

theorem tspanStep_consuming : ConsumingStep tspanStep := by
  intro l out rest h
  simp only [tspanStep] at h
  split at h
  case isTrue =>
    split at h
    case h_1 rest2 heq =>
      obtain ⟨h1, h2⟩ := Prod.mk.injEq .. ▸ Option.some.injEq .. ▸ h
      subst h2
      have e1 := congrArg List.length heq
      simp only [List.length_drop, List.length_cons] at e1
      omega
    case h_2 => exact absurd h (by simp)
  case isFalse => exact absurd h (by simp)

theorem occursL_iff_infix (pat l : List Char) : occursL pat l = true ↔ pat <:+: l := by
  induction l with
  | nil => simp [occursL, List.isPrefixOf_iff_prefix, List.prefix_nil, List.infix_nil]
  | cons c cs ih =>
    simp [occursL, List.isPrefixOf_iff_prefix, List.infix_cons_iff, ih]

theorem occursL_eq_false_iff (pat l : List Char) :
    occursL pat l = false ↔ ¬ pat <:+: l := by
  rw [← occursL_iff_infix]
  cases occursL pat l <;> simp

theorem occursL_eq_false_of_lacks {pat l : List Char} {c : Char}
    (hc : c ∈ pat) (hl : c ∉ l) : occursL pat l = false := by
  rw [occursL_eq_false_iff]
  intro h
  exact hl (h.subset hc)

theorem pfx_append_sep {pat x y : List Char} {b : Char} (hb : b ∉ pat) :
    pat <+: x ++ b :: y ↔ pat <+: x := by
  constructor
  · intro h
    rcases le_or_lt pat.length x.length with hle | hlt
    · have := List.prefix_iff_eq_take.mp h
      rw [List.take_append_of_le_length hle] at this
      exact this ▸ List.take_prefix pat.length x
    · have hxb : x ++ [b] <+: x ++ b :: y := ⟨y, by simp⟩
      have : x ++ [b] <+: pat :=
        List.prefix_of_prefix_length_le hxb h (by simp; omega)
      exact absurd (this.subset (by simp)) hb
  · intro h
    exact h.trans (List.prefix_append x (b :: y))

theorem replaceAllL_cons (pat repl : List Char) (c : Char) (cs : List Char) :
    replaceAllL pat repl (c :: cs) =
      if pat ≠ [] ∧ pat.isPrefixOf (c :: cs) then
        repl ++ replaceAllL pat repl ((c :: cs).drop pat.length)
      else c :: replaceAllL pat repl cs := by
  show scanL (replaceStep pat repl) (c :: cs) = _
  rw [scanL_cons _ (replaceStep_consuming pat repl)]
  by_cases hc : pat ≠ [] ∧ pat.isPrefixOf (c :: cs)
  · rw [if_pos hc]
    simp only [replaceStep, if_pos hc]
    rfl
  · rw [if_neg hc]
    simp only [replaceStep, if_neg hc]
    rfl

theorem replaceAllL_nil (pat repl : List Char) : replaceAllL pat repl [] = [] := rfl

theorem replaceAllL_of_not_occurs (pat repl : List Char) :
    ∀ l, occursL pat l = false → replaceAllL pat repl l = l := by
  intro l
  induction l with
  | nil => intro _; rfl
  | cons c cs ih =>
    intro h
    simp only [occursL, Bool.or_eq_false_iff] at h
    rw [replaceAllL_cons, if_neg, ih h.2]
    rintro ⟨-, hpre⟩
    exact absurd hpre (by simp [h.1])

theorem replaceAll_sep_aux (pat repl : List Char) (b : Char) (hpat : pat ≠ [])
    (hb : b ∉ pat) :
    ∀ fuel A C, (A ++ b :: C).length ≤ fuel →
      scanG (replaceStep pat repl) fuel (A ++ b :: C) =
        replaceAllL pat repl A ++ b :: replaceAllL pat repl C := by
  intro fuel
  induction fuel with
  | zero =>
    intro A C h
    exfalso
    simp only [List.length_append, List.length_cons] at h
    omega
  | succ n ih =>
    intro A C h
    match A with
    | [] =>
      simp only [List.nil_append, replaceAllL_nil]
      have hstep : replaceStep pat repl (b :: C) = none := by
        simp only [replaceStep]
        rw [if_neg]
        rintro ⟨hne, hpre⟩
        have hp := List.isPrefixOf_iff_prefix.mp hpre
        match pat, hne, hp with
        | p :: ps, _, hp =>
          rw [List.cons_prefix_cons] at hp
          exact hb (hp.1 ▸ List.mem_cons_self p ps)
      simp only [scanG, hstep]
      refine congrArg (b :: ·) ?_
      exact scanG_fuel_eq _ (replaceStep_consuming pat repl) n C.length C
        (by simp only [List.nil_append, List.length_cons] at h; omega) le_rfl
    | a :: A' =>
      rw [List.cons_append]
      have hiff : pat.isPrefixOf (a :: (A' ++ b :: C)) = pat.isPrefixOf (a :: A') := by
        rcases hpre : pat.isPrefixOf (a :: A') with _ | _
        · rcases hpre2 : pat.isPrefixOf (a :: (A' ++ b :: C)) with _ | _
          · rfl
          · have h2 := List.isPrefixOf_iff_prefix.mp hpre2
            have h3 : pat <+: (a :: A') ++ b :: C := by simpa using h2
            have h4 := (pfx_append_sep hb).mp h3
            rw [← List.isPrefixOf_iff_prefix] at h4
            rw [hpre] at h4
            exact absurd h4 (by simp)
        · have h2 := List.isPrefixOf_iff_prefix.mp hpre
          have h3 := (pfx_append_sep (x := a :: A') (y := C) hb).mpr h2
          rw [← List.cons_append]
          rw [← List.isPrefixOf_iff_prefix] at h3
          rw [h3]
      by_cases hc : pat ≠ [] ∧ pat.isPrefixOf (a :: (A' ++ b :: C))
      · have hc' : pat ≠ [] ∧ pat.isPrefixOf (a :: A') := ⟨hc.1, hiff ▸ hc.2⟩
        have hstep : replaceStep pat repl (a :: (A' ++ b :: C)) =
            some (repl, (a :: (A' ++ b :: C)).drop pat.length) := by
          simp only [replaceStep, if_pos hc]
        simp only [scanG, hstep]
        have hple : pat.length ≤ (a :: A').length :=
          (List.isPrefixOf_iff_prefix.mp hc'.2).length_le
        have hdrop : (a :: (A' ++ b :: C)).drop pat.length =
            ((a :: A').drop pat.length) ++ b :: C := by
          rw [← List.cons_append, List.drop_append_eq_append_drop,
            Nat.sub_eq_zero_of_le hple, List.drop_zero]
        rw [hdrop, ih ((a :: A').drop pat.length) C (by
          have := congrArg List.length hdrop
          simp only [List.length_append, List.length_cons, List.length_drop] at h this ⊢
          have hp : 0 < pat.length := List.length_pos.mpr hc.1
          omega)]
        rw [replaceAllL_cons, if_pos hc']
        simp [List.append_assoc]
      · have hc' : ¬ (pat ≠ [] ∧ pat.isPrefixOf (a :: A')) := by
          rw [← hiff]; exact hc
        have hstep : replaceStep pat repl (a :: (A' ++ b :: C)) = none := by
          simp only [replaceStep, if_neg hc]
        simp only [scanG, hstep]
        rw [ih A' C (by simp only [List.length_append, List.length_cons] at h ⊢; omega)]
        rw [replaceAllL_cons, if_neg hc']
        simp

theorem replaceAllL_append_sep (pat repl A C : List Char) (b : Char)
    (hpat : pat ≠ []) (hb : b ∉ pat) :
    replaceAllL pat repl (A ++ b :: C) =
      replaceAllL pat repl A ++ b :: replaceAllL pat repl C :=
  replaceAll_sep_aux pat repl b hpat hb _ A C le_rfl

theorem replaceAll_head_aux (pat repl : List Char) (p : Char) (ps : List Char)
    (hp : pat = p :: ps) :
    ∀ fuel P B, (∀ c ∈ P, c ≠ p) → (P ++ B).length ≤ fuel →
      scanG (replaceStep pat repl) fuel (P ++ B) = P ++ replaceAllL pat repl B := by
  intro fuel
  induction fuel with
  | zero =>
    intro P B hP h
    simp only [List.length_append] at h
    have hPn : P = [] := List.eq_nil_of_length_eq_zero (by omega)
    have hBn : B = [] := List.eq_nil_of_length_eq_zero (by omega)
    subst hPn; subst hBn
    simp only [List.nil_append]
    rw [scanG_nil]; rfl
  | succ n ih =>
    intro P B hP h
    match P with
    | [] =>
      simp only [List.nil_append]
      exact scanG_fuel_eq _ (replaceStep_consuming _ _) (n + 1) B.length B
        (by simpa using h) le_rfl
    | q :: P' =>
      rw [List.cons_append]
      have hstep : replaceStep pat repl (q :: (P' ++ B)) = none := by
        simp only [replaceStep]
        rw [if_neg]
        rintro ⟨-, hpre⟩
        have hpp := List.isPrefixOf_iff_prefix.mp hpre
        rw [hp, List.cons_prefix_cons] at hpp
        exact (hP q (List.mem_cons_self q P')) hpp.1.symm
      simp only [scanG, hstep]
      exact congrArg (q :: ·) (ih P' B (fun c hc => hP c (List.mem_cons_of_mem q hc))
        (by simp only [List.length_append, List.length_cons] at h ⊢; omega))

theorem replaceAllL_append_head (pat repl P B : List Char) (p : Char) (ps : List Char)
    (hp : pat = p :: ps) (hP : ∀ c ∈ P, c ≠ p) :
    replaceAllL pat repl (P ++ B) = P ++ replaceAllL pat repl B :=
  replaceAll_head_aux pat repl p ps hp _ P B hP le_rfl

theorem replaceStep_some (pat repl l out rest : List Char)
    (h : replaceStep pat repl l = some (out, rest)) :
    out = repl ∧ rest = l.drop pat.length ∧ pat ≠ [] ∧ pat.isPrefixOf l := by
  simp only [replaceStep] at h
  split at h
  case isTrue hc =>
    obtain ⟨h1, h2⟩ := Prod.mk.injEq .. ▸ Option.some.injEq .. ▸ h
    exact ⟨h1.symm, h2.symm, hc.1, hc.2⟩
  case isFalse => exact absurd h (by simp)

theorem mem_replaceAll_aux (pat repl : List Char) :
    ∀ fuel l x, x ∈ scanG (replaceStep pat repl) fuel l → x ∈ l ∨ x ∈ repl := by
  intro fuel
  induction fuel with
  | zero =>
    intro l x hx
    cases l with
    | nil => rw [scanG_nil] at hx; exact absurd hx (List.not_mem_nil x)
    | cons c cs => exact Or.inl hx
  | succ n ih =>
    intro l x hx
    cases l with
    | nil => rw [scanG_nil] at hx; exact absurd hx (List.not_mem_nil x)
    | cons c cs =>
      simp only [scanG] at hx
      cases hstep : replaceStep pat repl (c :: cs) with
      | some pr =>
        obtain ⟨out, rest⟩ := pr
        rw [hstep] at hx
        obtain ⟨ho, hr, -, -⟩ := replaceStep_some pat repl _ _ _ hstep
        subst ho
        rcases List.mem_append.mp hx with h1 | h2
        · exact Or.inr h1
        · rcases ih rest x h2 with h3 | h3
          · exact Or.inl (List.drop_subset pat.length (c :: cs) (hr ▸ h3))
          · exact Or.inr h3
      | none =>
        rw [hstep] at hx
        rcases List.mem_cons.mp hx with h1 | h2
        · exact Or.inl (h1 ▸ List.mem_cons_self c cs)
        · rcases ih cs x h2 with h3 | h3
          · exact Or.inl (List.mem_cons_of_mem c h3)
          · exact Or.inr h3

theorem not_mem_replaceAllL (pat repl l : List Char) (x : Char)
    (hl : x ∉ l) (hr : x ∉ repl) : x ∉ replaceAllL pat repl l := by
  intro hx
  rcases mem_replaceAll_aux pat repl l.length l x hx with h | h
  · exact hl h
  · exact hr h

theorem occursL_append_disjoint (pat x t : List Char) (hpat : pat ≠ [])
    (hx : ∀ c ∈ x, c ∉ pat) : occursL pat (x ++ t) = occursL pat t := by
  induction x with
  | nil => rfl
  | cons a x' ih =>
    rw [List.cons_append]
    simp only [occursL]
    rw [ih (fun c hc => hx c (List.mem_cons_of_mem a hc))]
    have hpp : pat.isPrefixOf (a :: (x' ++ t)) = false := by
      rcases hq : pat.isPrefixOf (a :: (x' ++ t)) with _ | _
      · rfl
      · exfalso
        have hpre := List.isPrefixOf_iff_prefix.mp hq
        match pat, hpat with
        | p :: ps, _ =>
          rw [List.cons_prefix_cons] at hpre
          exact (hx a (List.mem_cons_self a x')) (hpre.1 ▸ List.mem_cons_self p ps)
    rw [hpp]
    simp

theorem sfx_pfx_transfer (pat repl : List Char) (hrepl : repl ≠ [])
    (hdisj : ∀ c ∈ repl, c ∉ pat) :
    ∀ fuel l u, u ≠ [] → u <:+ pat →
      u <+: scanG (replaceStep pat repl) fuel l → u <+: l := by
  intro fuel
  induction fuel with
  | zero =>
    intro l u _ _ hpre
    cases l with
    | nil => rw [scanG_nil] at hpre; exact hpre
    | cons c cs => exact hpre
  | succ n ih =>
    intro l u hu hsu hpre
    cases l with
    | nil => rw [scanG_nil] at hpre; exact hpre
    | cons c cs =>
      simp only [scanG] at hpre
      cases hstep : replaceStep pat repl (c :: cs) with
      | some pr =>
        obtain ⟨out, rest⟩ := pr
        simp only [hstep] at hpre
        obtain ⟨ho, -, -, -⟩ := replaceStep_some pat repl _ _ _ hstep
        subst ho
        exfalso
        obtain ⟨q, qs, hu2⟩ := List.exists_cons_of_ne_nil hu
        obtain ⟨r, rs, hr⟩ := List.exists_cons_of_ne_nil hrepl
        rw [hu2, hr, List.cons_append, List.cons_prefix_cons] at hpre
        have hq_mem : q ∈ pat := hsu.subset (by rw [hu2]; exact List.mem_cons_self q qs)
        exact (hdisj r (by rw [hr]; exact List.mem_cons_self r rs)) (hpre.1 ▸ hq_mem)
      | none =>
        simp only [hstep] at hpre
        obtain ⟨q, qs, hu2⟩ := List.exists_cons_of_ne_nil hu
        rw [hu2] at hpre ⊢
        rw [List.cons_prefix_cons] at hpre
        obtain ⟨rfl, hqs⟩ := hpre
        by_cases hqs0 : qs = []
        · subst hqs0
          exact List.cons_prefix_cons.mpr ⟨rfl, List.nil_prefix⟩
        · have hsfx : qs <:+ pat := (List.suffix_cons q qs).trans (hu2 ▸ hsu)
          exact List.cons_prefix_cons.mpr ⟨rfl, ih cs qs hqs0 hsfx hqs⟩

theorem occurs_scan_replace_self (pat repl : List Char) (hpat : pat ≠ [])
    (hrepl : repl ≠ []) (hdisj : ∀ c ∈ repl, c ∉ pat) :
    ∀ fuel l, l.length ≤ fuel →
      occursL pat (scanG (replaceStep pat repl) fuel l) = false := by
  intro fuel
  induction fuel with
  | zero =>
    intro l h
    have hl : l = [] := List.eq_nil_of_length_eq_zero (by omega)
    subst hl
    rw [scanG_nil]
    obtain ⟨p, ps, hp⟩ := List.exists_cons_of_ne_nil hpat
    rw [hp]; rfl
  | succ n ih =>
    intro l h
    cases l with
    | nil =>
      rw [scanG_nil]
      obtain ⟨p, ps, hp⟩ := List.exists_cons_of_ne_nil hpat
      rw [hp]; rfl
    | cons c cs =>
      simp only [scanG]
      cases hstep : replaceStep pat repl (c :: cs) with
      | some pr =>
        obtain ⟨out, rest⟩ := pr
        obtain ⟨ho, -, -, -⟩ := replaceStep_some pat repl _ _ _ hstep
        rw [ho, occursL_append_disjoint pat repl _ hpat hdisj]
        have hlt := replaceStep_consuming pat repl _ _ _ hstep
        simp only [List.length_cons] at hlt h
        exact ih rest (by omega)
      | none =>
        simp only [occursL]
        rw [Bool.or_eq_false_iff]
        refine ⟨?_, ih cs (by simp only [List.length_cons] at h; omega)⟩
        rcases hq : pat.isPrefixOf (c :: scanG (replaceStep pat repl) n cs) with _ | _
        · rfl
        · exfalso
          have hp2 := List.isPrefixOf_iff_prefix.mp hq
          have heq : scanG (replaceStep pat repl) (n + 1) (c :: cs) =
              c :: scanG (replaceStep pat repl) n cs := by
            simp only [scanG, hstep]
          have hp3 := sfx_pfx_transfer pat repl hrepl hdisj (n + 1) (c :: cs) pat
            hpat List.suffix_rfl (heq ▸ hp2)
          simp only [replaceStep] at hstep
          rw [if_pos ⟨hpat, List.isPrefixOf_iff_prefix.mpr hp3⟩] at hstep
          cases hstep

theorem occursL_replaceAllL_self (pat repl l : List Char) (hpat : pat ≠ [])
    (hrepl : repl ≠ []) (hdisj : ∀ c ∈ repl, c ∉ pat) :
    occursL pat (replaceAllL pat repl l) = false :=
  occurs_scan_replace_self pat repl hpat hrepl hdisj l.length l le_rfl

theorem scanG_id_of_none (step : List Char → Option (List Char × List Char))
    (trigger : List Char)
    (htrig : ∀ l, trigger.isPrefixOf l = false → step l = none) :
    ∀ fuel l, occursL trigger l = false → scanG step fuel l = l := by
  intro fuel
  induction fuel with
  | zero => intro l _; cases l <;> rfl
  | succ n ih =>
    intro l h
    cases l with
    | nil => rfl
    | cons c cs =>
      simp only [occursL, Bool.or_eq_false_iff] at h
      simp only [scanG, htrig (c :: cs) h.1]
      exact congrArg (c :: ·) (ih cs h.2)

theorem scanL_id_of_none (step : List Char → Option (List Char × List Char))
    (trigger : List Char)
    (htrig : ∀ l, trigger.isPrefixOf l = false → step l = none)
    (l : List Char) (h : occursL trigger l = false) : scanL step l = l :=
  scanG_id_of_none step trigger htrig l.length l h

theorem calcStep_none (fontSize l : List Char)
    (h : calcLit.isPrefixOf l = false) : calcStep fontSize l = none := by
  simp only [calcStep]
  rw [if_neg (fun hc => by rw [h] at hc; exact Bool.noConfusion hc)]

theorem rootStripStep_none (l : List Char)
    (h : ":root".toList.isPrefixOf l = false) : rootStripStep l = none := by
  simp only [rootStripStep]
  rw [if_neg (fun hc => by rw [h] at hc; exact Bool.noConfusion hc)]

theorem imgStyleStep_none (attrName l : List Char)
    (h : "<img".toList.isPrefixOf l = false) : imgStyleStep attrName l = none := by
  simp only [imgStyleStep]
  rw [if_neg (fun hc => by rw [h] at hc; exact Bool.noConfusion hc)]

theorem imgDropStep_none (attrName l : List Char)
    (h : "<img".toList.isPrefixOf l = false) : imgDropStep attrName l = none := by
  simp only [imgDropStep]
  rw [if_neg (fun hc => by rw [h] at hc; exact Bool.noConfusion hc)]

theorem tspanStep_none (l : List Char)
    (h : "<tspan".toList.isPrefixOf l = false) : tspanStep l = none := by
  simp only [tspanStep]
  rw [if_neg (fun hc => by rw [h] at hc; exact Bool.noConfusion hc)]

theorem calcPassL_id (fontSize l : List Char) (h : occursL calcLit l = false) :
    calcPassL fontSize l = l :=
  scanL_id_of_none _ calcLit (calcStep_none fontSize) l h

theorem rootStripL_id (l : List Char) (h : occursL ":root".toList l = false) :
    rootStripL l = l :=
  scanL_id_of_none _ ":root".toList rootStripStep_none l h

/-! ### The claims -/

/-- C6: with `includeStyles = false` the page assembler is the identity on
the rendered content, for every style options value and any loader/inliner
environment. -/
theorem C6_buildFullHTML_identity (loadCSS juiceFn : String → String)
    (content : String) (styleOptions : StyleOptions) :
    buildFullHTML loadCSS juiceFn content styleOptions false = content := rfl

/-- C9: a `POST /render` body whose `markdown` field is present but not a
string is answered 400 with `{"error":"markdown must be a string"}`, whatever
renderer, CSS loader, inliner or `Accept` header are in play — in particular
the response does not depend on the renderer or the assembler environment,
which is the formal content of "neither is invoked". -/
theorem C9_markdown_not_string (render : Json → String → String)
    (loadCSS juiceFn : String → String) (accept : String) (v : Json)
    (hv : ∀ s, v ≠ Json.str s) :
    renderPost render loadCSS juiceFn accept
        (Except.ok (Json.obj [("markdown", v)])) =
      jsonError "markdown must be a string" ∧
    (jsonError "markdown must be a string").status = 400 ∧
    (jsonError "markdown must be a string").body =
      "\x7b\"error\":\"markdown must be a string\"\x7d" := by
  refine ⟨?_, rfl, by decide⟩
  cases v with
  | null => rfl
  | bool b => rfl
  | num q => rfl
  | str s => exact absurd rfl (hv s)
  | arr elts => rfl
  | obj fields => rfl

/-- C9 witness: the spec's own example `{"markdown": 42}`. -/
theorem C9_markdown_not_string_witness :
    renderPost (fun _ s => s) (fun _ => "") (fun s => s) ""
        (Except.ok (Json.obj [("markdown", Json.num 42)])) =
      jsonError "markdown must be a string" ∧
    (jsonError "markdown must be a string").status = 400 ∧
    (jsonError "markdown must be a string").body =
      "\x7b\"error\":\"markdown must be a string\"\x7d" :=
  C9_markdown_not_string (fun _ s => s) (fun _ => "") (fun s => s) ""
    (Json.num 42) (fun s h => Json.noConfusion h)

/-- C10: an entirely empty `POST /render` body is resolved by `readJson` to
the empty object (not an `invalid JSON payload` rejection), so the handler
answers with the missing-`markdown` 400, whatever `JSON.parse` would do. -/
theorem C10_empty_body (maxBodyBytes : ℕ) (parse : String → Option Json)
    (render : Json → String → String) (loadCSS juiceFn : String → String)
    (accept : String) :
    readJson maxBodyBytes parse "" = Except.ok (Json.obj []) ∧
    renderPost render loadCSS juiceFn accept (readJson maxBodyBytes parse "") =
      jsonError "markdown must be a string" ∧
    jsonError "markdown must be a string" ≠ jsonError "invalid JSON payload" := by
  have h0 : readJson maxBodyBytes parse "" = Except.ok (Json.obj []) := by
    unfold readJson
    rw [if_neg (by simp [String.utf8ByteSize]), if_pos rfl]
  refine ⟨h0, ?_, by decide⟩
  rw [h0]
  rfl

/-- C1 (code bug): the failing input.  `wrapWithScope` garbles at-rules: the
selector character class `[^{}@]` excludes `@`, so a match starts just after
the `@`, the interior of the at-rule is matched as one bogus rule (its inner
`\x7b` swallowed by `[^}]*`), its prelude gets the scope prefix, and the dead
`startsWith('@')` guard (the code comment says at-rules are skipped) never
fires.  The at-rule text is not byte-identical before and after scoping. -/
theorem C1_atrule_rewritten :
    wrapWithScope "@media x\x7ba\x7bb\x7d\x7d" scopeDefault =
      "@.md-container media x \x7b a\x7bb \x7d\x7d" ∧
    wrapWithScope "@media x\x7ba\x7bb\x7d\x7d" scopeDefault ≠
      "@media x\x7ba\x7bb\x7d\x7d" := ⟨by decide, by decide⟩

/-- C2: the WeChat variable resolver hardcodes the line height.  First
conjunct: the resolver's output never depends on the configured `lineHeight`
field (only `primaryColor`, `fontSize` and `fontFamily` are consulted).
Second conjunct: an occurrence of `var(--md-line-height)` resolves to the
literal `1.75` for every style options value, whatever `lineHeight` holds. -/
theorem C2_lineHeight_hardcoded (o o' : StyleOptions) (s : String)
    (h1 : o.primaryColor = o'.primaryColor) (h2 : o.fontSize = o'.fontSize)
    (h3 : o.fontFamily = o'.fontFamily) :
    replaceWechatVariables s o = replaceWechatVariables s o' ∧
    replaceWechatVariables "x var(--md-line-height) y" o = "x 1.75 y" := by
  constructor
  · unfold replaceWechatVariables
    rw [show o.pc = o'.pc from by simp [ StyleOptions.pc, h1],
        show o.fs = o'.fs from by simp [ StyleOptions.fs, h2],
        show o.ffWechat = o'.ffWechat from by simp [ StyleOptions.ffWechat, h3]]
  · have e1 : replaceAllL "var(--md-primary-color)".toList o.pc.toList
        "x var(--md-line-height) y".toList = "x var(--md-line-height) y".toList :=
      replaceAllL_of_not_occurs _ _ _ (by decide)
    have e2 : replaceAllL "var(--md-font-size)".toList o.fs.toList
        "x var(--md-line-height) y".toList = "x var(--md-line-height) y".toList :=
      replaceAllL_of_not_occurs _ _ _ (by decide)
    have e3 : replaceAllL "var(--md-font-family)".toList o.ffWechat.toList
        "x var(--md-line-height) y".toList = "x var(--md-line-height) y".toList :=
      replaceAllL_of_not_occurs _ _ _ (by decide)
    have e4 : replaceAllL "var(--md-line-height)".toList "1.75".toList
        "x var(--md-line-height) y".toList = "x 1.75 y".toList := by decide
    have e5 : replaceAllL "var(--blockquote-background)".toList "#f7f7f7".toList
        "x 1.75 y".toList = "x 1.75 y".toList := by decide
    have e6 : replaceAllL "var(--foreground)".toList "0 0% 25%".toList
        "x 1.75 y".toList = "x 1.75 y".toList := by decide
    have e7 : replaceAllL "hsl(var(--foreground))".toList "#3f3f3f".toList
        "x 1.75 y".toList = "x 1.75 y".toList := by decide
    have e8 : replaceAllL "hsl(0 0% 25%)".toList "#3f3f3f".toList
        "x 1.75 y".toList = "x 1.75 y".toList := by decide
    have e9 : rootStripL "x 1.75 y".toList = "x 1.75 y".toList := by decide
    have e10 : calcPassL o.fs.toList "x 1.75 y".toList = "x 1.75 y".toList :=
      calcPassL_id _ _ (by decide)
    show String.mk _ = _
    simp only [wechatPairs, foldReplace, List.foldl]
    rw [e1, e2, e3, e4, e5, e6, e7, e8, e9, e10]
    rfl

/-- C2 witness: two option records differing only in `lineHeight`. -/
theorem C2_lineHeight_hardcoded_witness :
    replaceWechatVariables "q" { StyleOptions.empty with lineHeight := some "3" } =
      replaceWechatVariables "q" { StyleOptions.empty with lineHeight := some "9" } ∧
    replaceWechatVariables "x var(--md-line-height) y"
        { StyleOptions.empty with lineHeight := some "3" } = "x 1.75 y" :=
  C2_lineHeight_hardcoded _ _ "q" rfl rfl rfl

theorem takeWhile_append_stop (p : Char → Bool) (X : List Char) (y : Char)
    (Z : List Char) (hX : ∀ c ∈ X, p c = true) (hy : p y = false) :
    (X ++ y :: Z).takeWhile p = X := by
  induction X with
  | nil => simp [List.takeWhile_cons, hy]
  | cons a X' ih =>
    rw [List.cons_append]
    simp [List.takeWhile_cons, hX a (List.mem_cons_self a X'),
      ih (fun c hc => hX c (List.mem_cons_of_mem a hc))]

theorem mem_jsTrim {l : List Char} {c : Char} (h : c ∈ jsTrim l) : c ∈ l := by
  unfold jsTrim at h
  rw [List.mem_reverse] at h
  have h2 : c ∈ (l.dropWhile isJsSpace).reverse :=
    (List.dropWhile_sublist isJsSpace).subset h
  rw [List.mem_reverse] at h2
  exact (List.dropWhile_sublist isJsSpace).subset h2

/-- C3 (counterexample): the scope wrapper does not reproduce the declaration
block byte-identically: the single rule `a\x7bb\x7d` is emitted with one space
inserted after the opening brace and one before the closing brace (`\x7b b \x7d`),
so the text between the braces is ` b `, not the original `b`. -/
theorem C3_spaces_inserted :
    wrapWithScope "a\x7bb\x7d" scopeDefault = ".md-container a \x7b b \x7d" ∧
    wrapWithScope "a\x7bb\x7d" scopeDefault ≠ ".md-container a \x7bb\x7d" :=
  ⟨by decide, by decide⟩

/-- C3 (amended): on any single well-formed rule `sel \x7b props \x7d` that the
wrapper rewrites, the selector list is transformed (split on commas, trimmed,
scope-prefixed, rejoined) and the property text `props` is inserted verbatim,
but the block is emitted as `\x7b ` … ` \x7d` — the declaration text is preserved
up to exactly one added space inside each brace, not byte-identically. -/
theorem C3_props_verbatim_with_spaces (scope sel props : List Char)
    (hsel : sel ≠ []) (hselc : ∀ c ∈ sel, isSelChar c = true)
    (hprops : ∀ c ∈ props, c ≠ '}')
    (hroot : ":root".toList.isPrefixOf (jsTrim sel) = false) :
    wrapScopeL scope (sel ++ '{' :: (props ++ ['}'])) =
      (List.intercalate (", ".toList)
        ((((jsTrim sel).splitOn ',').map (fun s2 =>
          let tr := jsTrim s2
          if tr = [] then [] else scope ++ ' ' :: tr)).filter (fun x => x ≠ []))) ++
        (" \x7b ".toList ++ props ++ " \x7d".toList) := by
  obtain ⟨s0, sel', hsel2⟩ := List.exists_cons_of_ne_nil hsel
  have hL : sel ++ '{' :: (props ++ ['}']) = s0 :: (sel' ++ '{' :: (props ++ ['}'])) := by
    rw [hsel2]; rfl
  have hg1 : (s0 :: (sel' ++ '{' :: (props ++ ['}']))).takeWhile isSelChar = sel := by
    rw [← List.cons_append, ← hsel2]
    exact takeWhile_append_stop _ _ _ _ hselc (by decide)
  have hdrop1 : (s0 :: (sel' ++ '{' :: (props ++ ['}']))).drop sel.length =
      '{' :: (props ++ ['}']) := by
    rw [← List.cons_append, ← hsel2, List.drop_left]
  have hg2 : (props ++ ['}']).takeWhile (fun x => x ≠ '}') = props := by
    have := takeWhile_append_stop (fun x => decide (x ≠ '}')) props '}' []
      (fun c hc => by simp [hprops c hc]) (by decide)
    simpa using this
  have hdrop2 : (props ++ ['}']).drop props.length = ['}'] := List.drop_left props ['}']
  have hstep : wrapScopeStep scope (s0 :: (sel' ++ '{' :: (props ++ ['}']))) =
      some (scopeRuleCb scope sel props, []) := by
    simp only [wrapScopeStep, hg1, hdrop1, hg2, hdrop2]
    rw [if_neg hsel]
  have hat : "@".toList.isPrefixOf (jsTrim sel) = false := by
    rcases hq : "@".toList.isPrefixOf (jsTrim sel) with _ | _
    · rfl
    · exfalso
      have hpre := List.isPrefixOf_iff_prefix.mp hq
      have hmem : '@' ∈ jsTrim sel := hpre.subset (List.mem_cons_self '@' [])
      have := hselc '@' (mem_jsTrim hmem)
      simp [isSelChar] at this
  rw [hL]
  unfold wrapScopeL
  rw [scanL_cons _ (wrapScopeStep_consuming scope), hstep]
  show scopeRuleCb scope sel props ++ [] = _
  rw [List.append_nil]
  simp only [scopeRuleCb, hat, hroot]
  rfl

/-- C3 witness: a two-selector rule. -/
theorem C3_props_verbatim_with_spaces_witness :
    wrapScopeL ".md-container".toList
        ("h1, h2".toList ++ '{' :: ("color:red".toList ++ ['}'])) =
      ".md-container h1, .md-container h2 \x7b color:red \x7d".toList :=
  (C3_props_verbatim_with_spaces ".md-container".toList "h1, h2".toList
    "color:red".toList (by decide) (by decide) (by decide) (by decide)).trans
    (by decide)

theorem sandwich_pass (pat repl B : List Char) (p : Char) (ps : List Char)
    (hp : pat = p :: ps)
    (hhdr : ∀ c ∈ "\n:root \x7b".toList, c ≠ p)
    (hbpat : '}' ∉ pat) (hB : '}' ∉ B) (hrepl : '}' ∉ repl)
    (hnl : occursL pat ['\n'] = false) :
    replaceAllL pat repl ("\n:root \x7b".toList ++ B ++ '}' :: ['\n']) =
      "\n:root \x7b".toList ++ replaceAllL pat repl B ++ '}' :: ['\n'] ∧
    '}' ∉ replaceAllL pat repl B := by
  have hpat : pat ≠ [] := by rw [hp]; exact List.cons_ne_nil p ps
  constructor
  · rw [List.append_assoc,
      replaceAllL_append_head pat repl _ _ p ps hp hhdr,
      replaceAllL_append_sep pat repl B ['\n'] '}' hpat hbpat,
      replaceAllL_of_not_occurs pat repl ['\n'] hnl,
      List.append_assoc]
  · exact not_mem_replaceAllL pat repl B '}' hB hrepl

theorem rootStrip_charwise (B : List Char) (hB : '}' ∉ B) :
    rootStripL ('\n' :: ':' :: 'r' :: 'o' :: 'o' :: 't' :: ' ' :: '{' ::
      (B ++ '}' :: ['\n'])) = ['\n', '\n'] := by
  have hstep1 : rootStripStep ('\n' :: ':' :: 'r' :: 'o' :: 'o' :: 't' :: ' ' :: '{' ::
      (B ++ '}' :: ['\n'])) = none := by
    simp [rootStripStep, List.isPrefixOf]
  have hg : (B ++ '}' :: ['\n']).takeWhile (fun x => x ≠ '}') = B := by
    have := takeWhile_append_stop (fun x => decide (x ≠ '}')) B '}' ['\n']
      (fun c hc => by simp; rintro rfl; exact hB hc) (by decide)
    simpa using this
  have hdropB : (B ++ '}' :: ['\n']).drop B.length = '}' :: ['\n'] :=
    List.drop_left B ('}' :: ['\n'])
  have hstep2 : rootStripStep (':' :: 'r' :: 'o' :: 'o' :: 't' :: ' ' :: '{' ::
      (B ++ '}' :: ['\n'])) = some ([], ['\n']) := by
    simp only [rootStripStep]
    rw [if_pos (by simp [List.isPrefixOf])]
    simp only [List.drop_succ_cons, List.drop_zero]
    rw [show (' ' :: '{' :: (B ++ '}' :: ['\n'])).takeWhile isJsSpace = [' '] from by
      simp [List.takeWhile_cons, isJsSpace]]
    simp only [List.length_cons, List.length_nil, List.drop_succ_cons, List.drop_zero]
    rw [hg, hdropB]
    rfl
  unfold rootStripL
  rw [scanL_cons _ rootStripStep_consuming, hstep1,
    scanL_cons _ rootStripStep_consuming, hstep2]
  rfl

set_option maxRecDepth 100000

/-- C4 (counterexample): with an adversarial configured value containing a
`\x7d`, the `:root`-strip regex `[^}]*` stops at that brace and the resolver
leaves a `var(--md-…)` token behind in the generator's output. -/
theorem C4_adversarial_value :
    occursS "var(--md-"
      (replaceWechatVariables (generateCSSVariables c4Opts) c4Opts) = true := by
  decide

theorem toList_mk (l : List Char) : (String.mk l).toList = l := rfl

theorem toList_append (s t : String) : (s ++ t).toList = s.toList ++ t.toList := rfl

/-- C4 (amended): for every style options value none of whose configured
fields contains a `\x7d` character, and whose primaryColor, fontSize and
fontFamily — the values the resolver feeds to `.replace` as replacement
strings, where ECMAScript would expand `$`-forms — contain no `$`, resolving
the generator's output leaves no `var(--md-` token: the eight substitutions
keep the `:root` block's body free of `\x7d`, so the `:root`-strip deletes
the whole block and the result is the two newlines surrounding it. -/
theorem C4_no_md_vars (o : StyleOptions)
    (hpc : '}' ∉ o.pc.toList) (hfs : '}' ∉ o.fs.toList)
    (hffg : '}' ∉ o.ffGen.toList) (hffw : '}' ∉ o.ffWechat.toList)
    (hlh : '}' ∉ o.lh.toList)
    (hdpc : '$' ∉ o.pc.toList) (hdfs : '$' ∉ o.fs.toList)
    (hdffw : '$' ∉ o.ffWechat.toList) :
    occursS "var(--md-"
      (replaceWechatVariables (generateCSSVariables o) o) = false := by
  set B0 : List Char := "\n  --md-primary-color: ".toList ++ (o.pc.toList ++
      (";\n  --md-font-size: ".toList ++ (o.fs.toList ++
      (";\n  --md-font-family: ".toList ++ (o.ffGen.toList ++
      (";\n  --md-line-height: ".toList ++ (o.lh.toList ++
      ";\n  --foreground: 0 0% 25%;\n  --blockquote-background: #f7f7f7;\n".toList)))))))
    with hB0def
  have hB0 : '}' ∉ B0 := by
    rw [hB0def]
    simp only [List.mem_append, not_or]
    exact ⟨by decide, hpc, by decide, hfs, by decide, hffg, by decide, hlh, by decide⟩
  have hsplit : (generateCSSVariables o).toList =
      "\n:root \x7b".toList ++ B0 ++ '}' :: ['\n'] := by
    rw [hB0def]
    simp only [generateCSSVariables, toList_append]
    rw [show "\n:root \x7b\n  --md-primary-color: ".toList =
      "\n:root \x7b".toList ++ "\n  --md-primary-color: ".toList from by decide]
    rw [show ";\n  --foreground: 0 0% 25%;\n  --blockquote-background: #f7f7f7;\n\x7d\n".toList =
      ";\n  --foreground: 0 0% 25%;\n  --blockquote-background: #f7f7f7;\n".toList ++
        '}' :: ['\n'] from by decide]
    simp [ StyleOptions.pc, StyleOptions.fs, StyleOptions.ffGen, StyleOptions.lh,
      List.append_assoc]
  have p1 := sandwich_pass "var(--md-primary-color)".toList o.pc.toList B0
    'v' "ar(--md-primary-color)".toList (by decide) (by decide) (by decide) hB0 hpc
    (by decide)
  have p2 := sandwich_pass "var(--md-font-size)".toList o.fs.toList
    (replaceAllL "var(--md-primary-color)".toList o.pc.toList B0)
    'v' "ar(--md-font-size)".toList (by decide) (by decide) (by decide) p1.2 hfs
    (by decide)
  have p3 := sandwich_pass "var(--md-font-family)".toList o.ffWechat.toList
    (replaceAllL "var(--md-font-size)".toList o.fs.toList
      (replaceAllL "var(--md-primary-color)".toList o.pc.toList B0))
    'v' "ar(--md-font-family)".toList (by decide) (by decide) (by decide) p2.2 hffw
    (by decide)
  have p4 := sandwich_pass "var(--md-line-height)".toList "1.75".toList
    (replaceAllL "var(--md-font-family)".toList o.ffWechat.toList
      (replaceAllL "var(--md-font-size)".toList o.fs.toList
        (replaceAllL "var(--md-primary-color)".toList o.pc.toList B0)))
    'v' "ar(--md-line-height)".toList (by decide) (by decide) (by decide) p3.2
    (by decide) (by decide)
  have p5 := sandwich_pass "var(--blockquote-background)".toList "#f7f7f7".toList
    (replaceAllL "var(--md-line-height)".toList "1.75".toList
      (replaceAllL "var(--md-font-family)".toList o.ffWechat.toList
        (replaceAllL "var(--md-font-size)".toList o.fs.toList
          (replaceAllL "var(--md-primary-color)".toList o.pc.toList B0))))
    'v' "ar(--blockquote-background)".toList (by decide) (by decide) (by decide) p4.2
    (by decide) (by decide)
  have p6 := sandwich_pass "var(--foreground)".toList "0 0% 25%".toList
    (replaceAllL "var(--blockquote-background)".toList "#f7f7f7".toList
      (replaceAllL "var(--md-line-height)".toList "1.75".toList
        (replaceAllL "var(--md-font-family)".toList o.ffWechat.toList
          (replaceAllL "var(--md-font-size)".toList o.fs.toList
            (replaceAllL "var(--md-primary-color)".toList o.pc.toList B0)))))
    'v' "ar(--foreground)".toList (by decide) (by decide) (by decide) p5.2
    (by decide) (by decide)
  have p7 := sandwich_pass "hsl(var(--foreground))".toList "#3f3f3f".toList
    (replaceAllL "var(--foreground)".toList "0 0% 25%".toList
      (replaceAllL "var(--blockquote-background)".toList "#f7f7f7".toList
        (replaceAllL "var(--md-line-height)".toList "1.75".toList
          (replaceAllL "var(--md-font-family)".toList o.ffWechat.toList
            (replaceAllL "var(--md-font-size)".toList o.fs.toList
              (replaceAllL "var(--md-primary-color)".toList o.pc.toList B0))))))
    'h' "sl(var(--foreground))".toList (by decide) (by decide) (by decide) p6.2
    (by decide) (by decide)
  have p8 := sandwich_pass "hsl(0 0% 25%)".toList "#3f3f3f".toList
    (replaceAllL "hsl(var(--foreground))".toList "#3f3f3f".toList
      (replaceAllL "var(--foreground)".toList "0 0% 25%".toList
        (replaceAllL "var(--blockquote-background)".toList "#f7f7f7".toList
          (replaceAllL "var(--md-line-height)".toList "1.75".toList
            (replaceAllL "var(--md-font-family)".toList o.ffWechat.toList
              (replaceAllL "var(--md-font-size)".toList o.fs.toList
                (replaceAllL "var(--md-primary-color)".toList o.pc.toList B0)))))))
    'h' "sl(0 0% 25%)".toList (by decide) (by decide) (by decide) p7.2
    (by decide) (by decide)
  have hs8 : ∀ X : List Char,
      "\n:root \x7b".toList ++ X ++ '}' :: ['\n'] =
        '\n' :: ':' :: 'r' :: 'o' :: 'o' :: 't' :: ' ' :: '{' ::
          (X ++ '}' :: ['\n']) := by
    intro X
    rw [List.append_assoc]
    rfl
  unfold occursS replaceWechatVariables
  rw [toList_mk]
  simp only [wechatPairs, foldReplace, List.foldl]
  rw [hsplit, p1.1, p2.1, p3.1, p4.1, p5.1, p6.1, p7.1, p8.1, hs8,
    rootStrip_charwise _ p8.2, calcPassL_id _ _ (by decide)]
  decide

/-- C4 witness: the default style options. -/
theorem C4_no_md_vars_witness :
    occursS "var(--md-"
      (replaceWechatVariables (generateCSSVariables StyleOptions.empty)
        StyleOptions.empty) = false :=
  C4_no_md_vars StyleOptions.empty (by decide) (by decide) (by decide) (by decide)
    (by decide) (by decide) (by decide) (by decide)

theorem natDigitsF_ne_nil (fuel n : ℕ) : natDigitsF fuel n ≠ [] := by
  cases fuel with
  | zero => simp [natDigitsF]
  | succ f =>
    simp only [natDigitsF]
    split
    · simp
    · simp

theorem natDigits_ne_nil (n : ℕ) : natDigits n ≠ [] := natDigitsF_ne_nil n n

theorem digitToChar_isDigit (d : ℕ) : (digitToChar d).isDigit = true := by
  unfold digitToChar
  split <;> decide

theorem natDigitsF_digits (fuel : ℕ) :
    ∀ n c, c ∈ natDigitsF fuel n → c.isDigit = true := by
  induction fuel with
  | zero =>
    intro n c hc
    simp only [natDigitsF, List.mem_singleton] at hc
    exact hc ▸ digitToChar_isDigit (n % 10)
  | succ f ih =>
    intro n c hc
    simp only [natDigitsF] at hc
    split at hc
    · simp only [List.mem_singleton] at hc
      exact hc ▸ digitToChar_isDigit n
    · rcases List.mem_append.mp hc with h1 | h2
      · exact ih (n / 10) c h1
      · simp only [List.mem_singleton] at h2
        exact h2 ▸ digitToChar_isDigit (n % 10)

theorem natDigits_digits (n : ℕ) : ∀ c ∈ natDigits n, c.isDigit = true :=
  fun c hc => natDigitsF_digits n n c hc

theorem charDigit_digitToChar (d : ℕ) (h : d < 10) :
    charDigit (digitToChar d) = d := by
  interval_cases d <;> decide

theorem natOfDigits_append_one (X : List Char) (c : Char) :
    natOfDigits (X ++ [c]) = 10 * natOfDigits X + charDigit c := by
  simp [natOfDigits, List.foldl_append]

theorem natOfDigits_natDigitsF (fuel : ℕ) :
    ∀ n, n ≤ fuel → natOfDigits (natDigitsF fuel n) = n := by
  induction fuel with
  | zero =>
    intro n h
    have : n = 0 := by omega
    subst this
    decide
  | succ f ih =>
    intro n h
    by_cases hn : n < 10
    · simp only [natDigitsF, if_pos hn]
      show 10 * 0 + charDigit (digitToChar n) = n
      rw [charDigit_digitToChar n hn]
      omega
    · simp only [natDigitsF, if_neg hn]
      rw [natOfDigits_append_one, ih (n / 10) (by omega),
        charDigit_digitToChar (n % 10) (Nat.mod_lt n (by omega))]
      omega

theorem natOfDigits_natDigits (n : ℕ) : natOfDigits (natDigits n) = n :=
  natOfDigits_natDigitsF n n le_rfl

theorem isDigit_not_space {c : Char} (h : c.isDigit = true) : isJsSpace c = false := by
  rcases hq : isJsSpace c with _ | _
  · rfl
  · exfalso
    simp only [isJsSpace, Bool.or_eq_true, beq_iff_eq] at hq
    rcases hq with ((((rfl | rfl) | rfl) | rfl) | rfl) | rfl <;> exact absurd h (by decide)

theorem takeWhile_eq_self_of_all (p : Char → Bool) (l : List Char)
    (h : ∀ c ∈ l, p c = true) : l.takeWhile p = l := by
  induction l with
  | nil => rfl
  | cons a t ih =>
    simp [List.takeWhile_cons, h a (List.mem_cons_self a t),
      ih (fun c hc => h c (List.mem_cons_of_mem a hc))]

theorem jsSignSplit_digit (d0 : Char) (ds : List Char) (hd0 : d0.isDigit = true) :
    jsSignSplit (d0 :: ds) = (false, d0 :: ds) := by
  unfold jsSignSplit
  split
  case h_1 t heq => exfalso; cases heq; exact absurd hd0 (by decide)
  case h_2 t heq => exfalso; cases heq; exact absurd hd0 (by decide)
  case h_3 => rfl

theorem dropWhile_digit_lead (d0 : Char) (ds : List Char) (hd0 : d0.isDigit = true) :
    (d0 :: ds).dropWhile isJsSpace = d0 :: ds := by
  rw [List.dropWhile_cons, isDigit_not_space hd0]
  simp

theorem jsParseFloat_digits (D : List Char) (hD : D ≠ [])
    (hDd : ∀ c ∈ D, c.isDigit = true) :
    jsParseFloat D = some ⟨false, natOfDigits D, 0⟩ := by
  obtain ⟨d0, ds, hcons⟩ := List.exists_cons_of_ne_nil hD
  have hd0 : d0.isDigit = true := hDd d0 (by rw [hcons]; exact List.mem_cons_self d0 ds)
  unfold jsParseFloat
  rw [hcons, dropWhile_digit_lead d0 ds hd0, jsSignSplit_digit d0 ds hd0]
  simp only []
  rw [takeWhile_eq_self_of_all Char.isDigit (d0 :: ds) (hcons ▸ hDd),
    List.drop_length]
  rw [if_neg (by simp), ← hcons]

theorem jsParseFloat_digits_px (D : List Char) (hD : D ≠ [])
    (hDd : ∀ c ∈ D, c.isDigit = true) :
    jsParseFloat (D ++ "px".toList) = some ⟨false, natOfDigits D, 0⟩ := by
  obtain ⟨d0, ds, hcons⟩ := List.exists_cons_of_ne_nil hD
  have hd0 : d0.isDigit = true := hDd d0 (by rw [hcons]; exact List.mem_cons_self d0 ds)
  have hform : D ++ "px".toList = d0 :: (ds ++ "px".toList) := by rw [hcons]; rfl
  unfold jsParseFloat
  rw [hform, dropWhile_digit_lead d0 _ hd0, jsSignSplit_digit d0 _ hd0]
  simp only []
  rw [← hform, show "px".toList = 'p' :: ['x'] from rfl,
    takeWhile_append_stop Char.isDigit D 'p' ['x'] hDd (by decide),
    List.drop_left]
  rw [if_neg hD]
  rfl

theorem fmtDec_nat (k : ℕ) : fmtDec ⟨false, k, 0⟩ = natDigits k := by
  simp [fmtDec, stripZeros]

theorem isCalcDigit_of_digit {c : Char} (h : c.isDigit = true) :
    isCalcDigit c = true := by
  simp [isCalcDigit, h]

/-- C8: the `calc(15px * m)` rewrite evaluates the product of the configured
font size's numeric prefix and the multiplier.  The embedding computes with
exact decimals; the bounds keep the quantified instances inside the range
where IEEE-754 doubles (what JS actually computes with) are exact on these
products, so the modelled and real arithmetic agree.  In particular
`calc(15px * 2)` against `fontSize = "20px"` yields `40px` (the witness). -/
theorem C8_calc_rewrite (B m : ℕ) (o : StyleOptions)
    (hB : B ≤ 2 ^ 26) (hm : m ≤ 2 ^ 26)
    (hfs : o.fontSize = some (String.mk (natDigits B ++ "px".toList))) :
    replaceWechatVariables
        (String.mk ("calc(15px * ".toList ++ (natDigits m ++ [')']))) o =
      String.mk (natDigits (B * m) ++ "px".toList) := by
  have hfs2 : o.fs.toList = natDigits B ++ "px".toList := by
    simp [ StyleOptions.fs, hfs, toList_mk]
  have hv : ('v' : Char) ∉ ("calc(15px * ".toList ++ (natDigits m ++ [')'])) := by
    intro hmem
    rcases List.mem_append.mp hmem with h1 | h2
    · exact absurd h1 (by decide)
    · rcases List.mem_append.mp h2 with h3 | h4
      · exact absurd (natDigits_digits m 'v' h3) (by decide)
      · exact absurd h4 (by decide)
  have hh : ('h' : Char) ∉ ("calc(15px * ".toList ++ (natDigits m ++ [')'])) := by
    intro hmem
    rcases List.mem_append.mp hmem with h1 | h2
    · exact absurd h1 (by decide)
    · rcases List.mem_append.mp h2 with h3 | h4
      · exact absurd (natDigits_digits m 'h' h3) (by decide)
      · exact absurd h4 (by decide)
  have hcolon : (':' : Char) ∉ ("calc(15px * ".toList ++ (natDigits m ++ [')'])) := by
    intro hmem
    rcases List.mem_append.mp hmem with h1 | h2
    · exact absurd h1 (by decide)
    · rcases List.mem_append.mp h2 with h3 | h4
      · exact absurd (natDigits_digits m ':' h3) (by decide)
      · exact absurd h4 (by decide)
  have main : calcPassL o.fs.toList
      (rootStripL
        (foldReplace (wechatPairs o.pc.toList o.fs.toList o.ffWechat.toList)
          ("calc(15px * ".toList ++ (natDigits m ++ [')'])))) =
      natDigits (B * m) ++ "px".toList := by
    simp only [wechatPairs, foldReplace, List.foldl]
    rw [replaceAllL_of_not_occurs _ _ _ (occursL_eq_false_of_lacks (by decide : ('v' : Char) ∈ "var(--md-primary-color)".toList) hv),
    replaceAllL_of_not_occurs _ _ _ (occursL_eq_false_of_lacks (by decide : ('v' : Char) ∈ "var(--md-font-size)".toList) hv),
    replaceAllL_of_not_occurs _ _ _ (occursL_eq_false_of_lacks (by decide : ('v' : Char) ∈ "var(--md-font-family)".toList) hv),
    replaceAllL_of_not_occurs _ _ _ (occursL_eq_false_of_lacks (by decide : ('v' : Char) ∈ "var(--md-line-height)".toList) hv),
    replaceAllL_of_not_occurs _ _ _ (occursL_eq_false_of_lacks (by decide : ('v' : Char) ∈ "var(--blockquote-background)".toList) hv),
    replaceAllL_of_not_occurs _ _ _ (occursL_eq_false_of_lacks (by decide : ('v' : Char) ∈ "var(--foreground)".toList) hv),
    replaceAllL_of_not_occurs _ _ _ (occursL_eq_false_of_lacks (by decide : ('v' : Char) ∈ "hsl(var(--foreground))".toList) hv),
    replaceAllL_of_not_occurs _ _ _ (occursL_eq_false_of_lacks (by decide : ('h' : Char) ∈ "hsl(0 0% 25%)".toList) hh),
    rootStripL_id _ (occursL_eq_false_of_lacks (by decide : (':' : Char) ∈ ":root".toList) hcolon)]
    have hstep : calcStep o.fs.toList
        ('c' :: ("alc(15px * ".toList ++ (natDigits m ++ [')']))) =
        some (natDigits (B * m) ++ "px".toList, []) := by
      simp only [calcStep]
      rw [show 'c' :: ("alc(15px * ".toList ++ (natDigits m ++ [')'])) =
        calcLit ++ (natDigits m ++ [')']) from rfl]
      rw [if_pos (List.isPrefixOf_iff_prefix.mpr (List.prefix_append _ _))]
      rw [List.drop_left]
      rw [show natDigits m ++ [')'] = natDigits m ++ ')' :: [] from rfl,
        takeWhile_append_stop isCalcDigit (natDigits m) ')' []
          (fun c hc => isCalcDigit_of_digit (natDigits_digits m c hc)) (by decide)]
      rw [if_neg (natDigits_ne_nil m)]
      rw [List.drop_left]
      rw [hfs2, jsParseFloat_digits_px _ (natDigits_ne_nil B) (natDigits_digits B),
        jsParseFloat_digits _ (natDigits_ne_nil m) (natDigits_digits m)]
      simp only [jsMul, jsNumToString]
      rw [natOfDigits_natDigits, natOfDigits_natDigits]
      simp only [bne_self_eq_false, Nat.add_zero]
      rw [fmtDec_nat]
    unfold calcPassL
    rw [show "calc(15px * ".toList ++ (natDigits m ++ [')']) =
      'c' :: ("alc(15px * ".toList ++ (natDigits m ++ [')'])) from rfl]
    rw [scanL_cons _ (calcStep_consuming _), hstep]
    show (natDigits (B * m) ++ "px".toList) ++ scanL _ [] = _
    rw [scanL_nil, List.append_nil]
  exact congrArg String.mk main

/-- C8 witness: the spec's instance, `calc(15px * 2)` with `fontSize "20px"`. -/
theorem C8_calc_rewrite_witness :
    replaceWechatVariables "calc(15px * 2)"
        { StyleOptions.empty with fontSize := some "20px" } = "40px" := by
  have h := C8_calc_rewrite 20 2
    { StyleOptions.empty with fontSize := some "20px" }
    (by decide) (by decide) (by decide)
  rw [show String.mk ("calc(15px * ".toList ++ (natDigits 2 ++ [')'])) =
    "calc(15px * 2)" from by decide] at h
  rw [show String.mk (natDigits (20 * 2) ++ "px".toList) = "40px" from by decide] at h
  exact h

theorem isPrefixOf_occursL {p l : List Char} (h : p.isPrefixOf l = true) :
    occursL p l = true := by
  cases l with
  | nil => exact h
  | cons c cs => simp only [occursL, h, Bool.true_or]

/-- No occurrence of `p` in `X ++ Y` when `p` occurs in neither part and no
junction split of `p` straddles the seam. -/
theorem occursL_append_nj (p X Y : List Char)
    (hX : occursL p X = false) (hY : occursL p Y = false)
    (hj : ∀ k, k < p.length → 0 < k → ¬(p.take k <:+ X ∧ p.drop k <+: Y)) :
    occursL p (X ++ Y) = false := by
  induction X with
  | nil => simpa using hY
  | cons a X' ih =>
    rw [List.cons_append]
    simp only [occursL, Bool.or_eq_false_iff]
    have hX' : occursL p X' = false := by
      simp only [occursL, Bool.or_eq_false_iff] at hX
      exact hX.2
    refine ⟨?_, ih hX' (fun k hk hk0 hand =>
      hj k hk hk0 ⟨hand.1.trans (List.suffix_cons a X'), hand.2⟩)⟩
    rcases hq : p.isPrefixOf (a :: (X' ++ Y)) with _ | _
    · rfl
    · exfalso
      have hpre : p <+: (a :: X') ++ Y := by
        rw [List.cons_append]
        exact List.isPrefixOf_iff_prefix.mp hq
      rcases le_or_lt p.length (a :: X').length with hle | hlt
      · have hpX : p <+: a :: X' :=
          List.prefix_of_prefix_length_le hpre (List.prefix_append _ _) hle
        have hocc : occursL p (a :: X') = true :=
          isPrefixOf_occursL (List.isPrefixOf_iff_prefix.mpr hpX)
        rw [hX] at hocc
        exact Bool.noConfusion hocc
      · have hXp : (a :: X') <+: p :=
          List.prefix_of_prefix_length_le (List.prefix_append _ _) hpre (le_of_lt hlt)
        have htake : p.take (a :: X').length = a :: X' :=
          (List.prefix_iff_eq_take.mp hXp).symm
        obtain ⟨t, ht⟩ := hpre
        have hdrop : p.drop (a :: X').length <+: Y := by
          refine ⟨t, ?_⟩
          have h2 : p.take (a :: X').length ++ (p.drop (a :: X').length ++ t) =
              (a :: X') ++ Y := by
            rw [← List.append_assoc, List.take_append_drop]
            exact ht
          rw [htake] at h2
          exact List.append_cancel_left h2
        exact hj (a :: X').length hlt (by simp)
          ⟨by rw [htake], hdrop⟩

theorem getLastD_of_ne_nil {l : List Char} (h : l ≠ []) :
    l.getLast? = some (l.getLastD 'a') := by
  rw [List.getLastD_eq_getLast?]
  cases hgl : l.getLast? with
  | none => exact absurd (by simpa using hgl) h
  | some b => rfl

theorem headD_of_ne_nil {l : List Char} (h : l ≠ []) :
    l.head? = some (l.headD 'a') := by
  rw [List.headD_eq_head?]
  cases hgl : l.head? with
  | none => exact absurd (by simpa using hgl) h
  | some b => rfl

/-- Junction-free append lemma in a decidable form: `qL` over-approximates the
last character of `X`, `qR` the first character of `Y`, and every proper split
of `p` fails one of the two tests. -/
theorem occursL_append_split (p X Y : List Char) (qL qR : Char → Bool)
    (hX : occursL p X = false) (hY : occursL p Y = false)
    (hXl : ∀ a, X.getLast? = some a → qL a = true)
    (hYh : ∀ a, Y.head? = some a → qR a = true)
    (hpk : ∀ k, k < p.length → 0 < k →
      qL ((p.take k).getLastD 'a') = false ∨ qR ((p.drop k).headD 'a') = false) :
    occursL p (X ++ Y) = false := by
  refine occursL_append_nj p X Y hX hY ?_
  intro k hk hk0 hand
  obtain ⟨hs, hp⟩ := hand
  have htk : p.take k ≠ [] := by
    intro hnil
    have hlen : (p.take k).length = 0 := by rw [hnil]; rfl
    rw [List.length_take] at hlen
    omega
  have hdk : p.drop k ≠ [] := by
    intro hnil
    have hlen : (p.drop k).length = 0 := by rw [hnil]; rfl
    rw [List.length_drop] at hlen
    omega
  rcases hpk k hk hk0 with hL | hR
  · obtain ⟨t, ht⟩ := hs
    have hXlast : X.getLast? = some ((p.take k).getLastD 'a') := by
      rw [← ht, List.getLast?_append_of_ne_nil _ htk]
      exact getLastD_of_ne_nil htk
    have hq := hXl _ hXlast
    rw [hL] at hq
    exact Bool.noConfusion hq
  · obtain ⟨u, hu⟩ := hp
    have hYhead : Y.head? = some ((p.drop k).headD 'a') := by
      rw [← hu, List.head?_append_of_ne_nil _ hdk]
      exact headD_of_ne_nil hdk
    have hq := hYh _ hYhead
    rw [hR] at hq
    exact Bool.noConfusion hq

theorem take_not_suffix_last (p P : List Char) (x : Char)
    (hP : P.getLast? = some x)
    (h : ∀ k, k < p.length → 0 < k → ¬ (p.take k).getLastD 'a' = x) :
    ∀ k, k < p.length → 0 < k → ¬ p.take k <:+ P := by
  intro k hk hk0 hs
  have htk : p.take k ≠ [] := by
    intro hnil
    have hlen : (p.take k).length = 0 := by rw [hnil]; rfl
    rw [List.length_take] at hlen
    omega
  obtain ⟨t, ht⟩ := hs
  have hPlast : P.getLast? = some ((p.take k).getLastD 'a') := by
    rw [← ht, List.getLast?_append_of_ne_nil _ htk]
    exact getLastD_of_ne_nil htk
  rw [hP] at hPlast
  exact h k hk hk0 (Option.some.inj hPlast).symm

theorem ne_of_digits {D : List Char} (hdig : ∀ c ∈ D, c.isDigit = true)
    {x : Char} (hx : x.isDigit = false) : ∀ c ∈ D, c ≠ x := by
  intro c hc hce
  have hd := hdig c hc
  rw [hce, hx] at hd
  exact Bool.noConfusion hd

theorem not_mem_of_digits {D : List Char} (hdig : ∀ c ∈ D, c.isDigit = true)
    {x : Char} (hx : x.isDigit = false) : x ∉ D := by
  intro hm
  have hd := hdig x hm
  rw [hx] at hd
  exact Bool.noConfusion hd

theorem findAttrSplit_none_of_no_space (attrName l : List Char)
    (h : ∀ c ∈ l, isJsSpace c = false) :
    findAttrSplit attrName l = none := by
  induction l with
  | nil => rfl
  | cons c cs ih =>
    have h1 : ∀ a ∈ cs, isJsSpace a = false := fun a ha => h a (List.mem_cons_of_mem c ha)
    simp [findAttrSplit, ih h1, h c (List.mem_cons_self c cs)]

theorem findAttrSplit_none_of_not_occurs (attrName l : List Char)
    (h : occursL (attrName ++ "=\"".toList) l = false) :
    findAttrSplit attrName l = none := by
  induction l with
  | nil => rfl
  | cons c cs ih =>
    simp only [occursL, Bool.or_eq_false_iff] at h
    have hpre : (attrName ++ "=\"".toList).isPrefixOf cs = false := by
      rcases hq : (attrName ++ "=\"".toList).isPrefixOf cs with _ | _
      · rfl
      · have hocc := isPrefixOf_occursL hq
        rw [h.2] at hocc
        exact Bool.noConfusion hocc
    have hcf : ¬(isJsSpace c && (attrName ++ "=\"".toList).isPrefixOf cs) = true := by
      intro hcond
      rw [Bool.and_eq_true] at hcond
      rw [hpre] at hcond
      exact Bool.noConfusion hcond.2
    simp only [findAttrSplit, ih h.2]
    rw [if_neg hcf]

/-- The greedy group `([^>]*)` backtracks to the rightmost valid split, so a
size attribute sitting at the end of the tag segment is always the one
matched, whatever precedes it. -/
theorem findAttrSplit_found (attrName X D : List Char) (w : Char)
    (hw : isJsSpace w = true)
    (hattr : ∀ c ∈ attrName, isJsSpace c = false)
    (hD : D ≠ []) (hdig : ∀ c ∈ D, c.isDigit = true) :
    findAttrSplit attrName (X ++ w :: (attrName ++ "=\"".toList ++ (D ++ ['"']))) =
      some (X, w, D, []) := by
  induction X with
  | nil =>
    rw [List.nil_append]
    have hnone : findAttrSplit attrName (attrName ++ "=\"".toList ++ (D ++ ['"'])) =
        none := by
      apply findAttrSplit_none_of_no_space
      intro c hc
      rcases List.mem_append.mp hc with hc1 | hc2
      · rcases List.mem_append.mp hc1 with hca | hcp
        · exact hattr c hca
        · exact (by decide : ∀ x ∈ "=\"".toList, isJsSpace x = false) c hcp
      · rcases List.mem_append.mp hc2 with hcd | hcq
        · exact isDigit_not_space (hdig c hcd)
        · exact (by decide : ∀ x ∈ ['"'], isJsSpace x = false) c hcq
    have hpre : (attrName ++ "=\"".toList).isPrefixOf
        (attrName ++ "=\"".toList ++ (D ++ ['"'])) = true := by
      rw [ List.isPrefixOf_iff_prefix]
      exact List.prefix_append _ _
    simp only [findAttrSplit, hnone, hw, hpre, Bool.and_self, if_true]
    have ht : (attrName ++ "=\"".toList ++ (D ++ ['"'])).drop (attrName.length + 2) =
        D ++ ['"'] := by
      have hlen : attrName.length + 2 = (attrName ++ "=\"".toList).length := by
        simp
      rw [hlen, List.drop_left]
    rw [ht, takeWhile_append_stop Char.isDigit D '"' [] hdig (by decide),
      if_neg hD, List.drop_left]
    rfl
  | cons a X' ih =>
    rw [List.cons_append]
    simp only [findAttrSplit, ih]

/-- `imgStyleStep` on a well-formed single tag reduces to its attribute
split. -/
theorem imgStyleStep_tag (attrName seg rest : List Char)
    (hseg : ∀ c ∈ seg, c ≠ '>') :
    imgStyleStep attrName ("<img".toList ++ (seg ++ '>' :: rest)) =
      match findAttrSplit attrName seg with
      | some (A, w, D, B) =>
        some ((if occursL ("style=\"".toList) (A ++ B) then
          replaceFirstL ("style=\"".toList)
            ("style=\"".toList ++ attrName ++ ": ".toList ++ D ++ "px; ".toList)
            ("<img".toList ++ A ++ w ::
              (attrName ++ "=\"".toList ++ D ++ '"' :: (B ++ ['>'])))
        else
          "<img".toList ++ A ++ " style=\"".toList ++ attrName ++ ": ".toList ++
            D ++ "px;\"".toList ++ B ++ ['>']), rest)
      | none => none := by
  have hpre : "<img".toList.isPrefixOf ("<img".toList ++ (seg ++ '>' :: rest)) = true := by
    rw [ List.isPrefixOf_iff_prefix]
    exact List.prefix_append _ _
  have hdrop4 : ("<img".toList ++ (seg ++ '>' :: rest)).drop 4 = seg ++ '>' :: rest := rfl
  have htw : (seg ++ '>' :: rest).takeWhile (fun x => x ≠ '>') = seg :=
    takeWhile_append_stop _ seg '>' rest (fun c hc => decide_eq_true (hseg c hc)) (by decide)
  simp only [imgStyleStep, hpre, eq_self_iff_true, if_true]
  rw [hdrop4, htw, List.drop_left]
  rfl

/-- `imgDropStep` on a well-formed single tag reduces to its attribute
split. -/
theorem imgDropStep_tag (attrName seg rest : List Char)
    (hseg : ∀ c ∈ seg, c ≠ '>') :
    imgDropStep attrName ("<img".toList ++ (seg ++ '>' :: rest)) =
      match findAttrSplit attrName seg with
      | some (A, _, _, B) => some ("<img".toList ++ A ++ B ++ ['>'], rest)
      | none => none := by
  have hpre : "<img".toList.isPrefixOf ("<img".toList ++ (seg ++ '>' :: rest)) = true := by
    rw [ List.isPrefixOf_iff_prefix]
    exact List.prefix_append _ _
  have hdrop4 : ("<img".toList ++ (seg ++ '>' :: rest)).drop 4 = seg ++ '>' :: rest := rfl
  have htw : (seg ++ '>' :: rest).takeWhile (fun x => x ≠ '>') = seg :=
    takeWhile_append_stop _ seg '>' rest (fun c hc => decide_eq_true (hseg c hc)) (by decide)
  simp only [imgDropStep, hpre, eq_self_iff_true, if_true]
  rw [hdrop4, htw, List.drop_left]
  rfl

/-- A scan whose first step consumes the whole text returns that step's
output. -/
theorem scanL_match_all (step : List Char → Option (List Char × List Char))
    (hs : ConsumingStep step) (c : Char) (cs out : List Char)
    (h : step (c :: cs) = some (out, [])) :
    scanL step (c :: cs) = out := by
  rw [scanL_cons step hs]
  simp only [h, scanL_nil, List.append_nil]

/-- A scan whose step fails at the head and whose trigger never occurs in the
tail is the identity. -/
theorem scanL_id_head (step : List Char → Option (List Char × List Char))
    (trigger : List Char)
    (htrig : ∀ l, trigger.isPrefixOf l = false → step l = none)
    (c : Char) (cs : List Char) (h0 : step (c :: cs) = none)
    (hcs : occursL trigger cs = false) :
    scanL step (c :: cs) = c :: cs := by
  show scanG step (c :: cs).length (c :: cs) = c :: cs
  simp only [List.length_cons, scanG, h0]
  exact congrArg (c :: ·) (scanG_id_of_none step trigger htrig cs.length cs hcs)

/-- `match.replace(/style="/, …)` replaces exactly the canonical occurrence
when nothing earlier matches and no tail of the preceding text starts the
pattern. -/
theorem replaceFirstL_exact (pat repl P R : List Char) (hpat : pat ≠ [])
    (hP : occursL pat P = false)
    (hnj : ∀ k, k < pat.length → 0 < k → ¬ pat.take k <:+ P) :
    replaceFirstL pat repl (P ++ (pat ++ R)) = P ++ (repl ++ R) := by
  induction P with
  | nil =>
    rw [List.nil_append, List.nil_append]
    obtain ⟨q, qs, hq⟩ := List.exists_cons_of_ne_nil hpat
    rw [hq, List.cons_append]
    simp only [replaceFirstL]
    rw [if_pos ⟨List.cons_ne_nil q qs, List.isPrefixOf_iff_prefix.mpr
      (by rw [← List.cons_append]; exact List.prefix_append _ _)⟩]
    rw [← List.cons_append, List.drop_left]
  | cons b P' ih =>
    rw [List.cons_append]
    have hP' : occursL pat P' = false := by
      simp only [occursL, Bool.or_eq_false_iff] at hP
      exact hP.2
    have hnj' : ∀ k, k < pat.length → 0 < k → ¬ pat.take k <:+ P' :=
      fun k hk hk0 hs => hnj k hk hk0 (hs.trans (List.suffix_cons b P'))
    have hcond : ¬(pat ≠ [] ∧ pat.isPrefixOf (b :: (P' ++ (pat ++ R))) = true) := by
      rintro ⟨-, hq⟩
      have hpre : pat <+: (b :: P') ++ (pat ++ R) := by
        rw [List.cons_append]
        exact List.isPrefixOf_iff_prefix.mp hq
      rcases le_or_lt pat.length (b :: P').length with hle | hlt
      · have hpX : pat <+: b :: P' :=
          List.prefix_of_prefix_length_le hpre (List.prefix_append _ _) hle
        have hocc : occursL pat (b :: P') = true :=
          isPrefixOf_occursL (List.isPrefixOf_iff_prefix.mpr hpX)
        rw [hP] at hocc
        exact Bool.noConfusion hocc
      · have hXp : (b :: P') <+: pat :=
          List.prefix_of_prefix_length_le (List.prefix_append _ _) hpre (le_of_lt hlt)
        have htake : pat.take (b :: P').length = b :: P' :=
          (List.prefix_iff_eq_take.mp hXp).symm
        exact hnj (b :: P').length hlt (by simp) (by rw [htake])
    simp only [replaceFirstL]
    rw [if_neg hcond, ih hP' hnj', List.cons_append]

theorem head_digit_append {D : List Char} (Z : List Char) (hD : D ≠ [])
    (hdig : ∀ c ∈ D, c.isDigit = true) :
    ∀ a, (D ++ Z).head? = some a → Char.isDigit a = true := by
  intro a ha
  obtain ⟨d0, D', hDd⟩ := List.exists_cons_of_ne_nil hD
  rw [hDd, List.cons_append, List.head?_cons] at ha
  rw [← Option.some.inj ha]
  exact hdig d0 (by rw [hDd]; exact List.mem_cons_self d0 D')

theorem head_eq_char {Y : List Char} {y : Char} (hY : Y.head? = some y) :
    ∀ a, Y.head? = some a → (a == y) = true := by
  intro a ha
  rw [hY] at ha
  rw [← Option.some.inj ha]
  exact beq_self_eq_true y

theorem last_eq_char {X : List Char} {x : Char} (hX : X.getLast? = some x) :
    ∀ a, X.getLast? = some a → (a == x) = true := by
  intro a ha
  rw [hX] at ha
  rw [← Option.some.inj ha]
  exact beq_self_eq_true x

theorem last_not_mem {X : List Char} {x : Char} (hx : x ∉ X) :
    ∀ a, X.getLast? = some a → (!(a == x)) = true := by
  intro a ha
  have hm : a ∈ X := List.mem_of_mem_getLast? (by simp [ha])
  have hne : a ≠ x := fun hce => hx (hce ▸ hm)
  simp [hne]

theorem last_digit {D : List Char} (hdig : ∀ c ∈ D, c.isDigit = true) :
    ∀ a, D.getLast? = some a → Char.isDigit a = true := by
  intro a ha
  exact hdig a (List.mem_of_mem_getLast? (by simp [ha]))

/-- Pipeline of `modifyHtmlStructureForWechat` on a single `<img>` tag with a
trailing `width` attribute and no `style` attribute. -/
theorem c5_width_nostyle (A D : List Char)
    (hltA : '<' ∉ A) (hgtA : '>' ∉ A)
    (hstyA : occursL "style=\"".toList A = false)
    (hwA : occursL "width=\"".toList A = false)
    (hhA : occursL "height=\"".toList A = false)
    (hD : D ≠ []) (hdig : ∀ c ∈ D, c.isDigit = true) :
    tspanPassL (imgDropPassL "height".toList (imgDropPassL "width".toList
      (imgStylePassL "height".toList (imgStylePassL "width".toList
        ("<img".toList ++ A ++ " width=\"".toList ++ D ++ "\">".toList))))) =
    "<img".toList ++ A ++ " style=\"width: ".toList ++ D ++ "px;\">".toList := by
  have hDgt : ∀ c ∈ D, c ≠ '>' := ne_of_digits hdig (by decide)
  have hDlt : '<' ∉ D := not_mem_of_digits hdig (by decide)
  have hseg1 : ∀ c ∈ A ++ ' ' :: ("width".toList ++ "=\"".toList ++ (D ++ ['"'])),
      c ≠ '>' := by
    intro c hc
    rcases List.mem_append.mp hc with h | h
    · exact fun hce => hgtA (hce ▸ h)
    · rcases List.mem_cons.mp h with h | h
      · subst h; decide
      · rcases List.mem_append.mp h with h | h
        · exact (by decide : ∀ x ∈ "width".toList ++ "=\"".toList, x ≠ '>') c h
        · rcases List.mem_append.mp h with h | h
          · exact hDgt c h
          · exact (by decide : ∀ x ∈ ['"'], x ≠ '>') c h
  have hfind1 : findAttrSplit "width".toList
      (A ++ ' ' :: ("width".toList ++ "=\"".toList ++ (D ++ ['"']))) =
      some (A, ' ', D, []) :=
    findAttrSplit_found "width".toList A D ' ' (by decide) (by decide) hD hdig
  have hstep1 : imgStyleStep "width".toList
      ("<img".toList ++ ((A ++ ' ' :: ("width".toList ++ "=\"".toList ++ (D ++ ['"']))) ++
        '>' :: [])) =
      some ("<img".toList ++ A ++ " style=\"".toList ++ "width".toList ++ ": ".toList ++
        D ++ "px;\"".toList ++ [] ++ ['>'], []) := by
    rw [imgStyleStep_tag _ _ _ hseg1]
    simp only [hfind1]
    rw [if_neg (fun hcon => by
      rw [List.append_nil, hstyA] at hcon
      exact Bool.noConfusion hcon)]
  have hpass1 : imgStylePassL "width".toList
      ("<img".toList ++ A ++ " width=\"".toList ++ D ++ "\">".toList) =
      '<' :: ("img".toList ++
        ((A ++ (" style=\"width: ".toList ++ (D ++ "px;\"".toList))) ++ '>' :: [])) := by
    have hshape : "<img".toList ++ A ++ " width=\"".toList ++ D ++ "\">".toList =
        '<' :: ("img".toList ++
          ((A ++ ' ' :: ("width".toList ++ "=\"".toList ++ (D ++ ['"']))) ++ '>' :: [])) := by
      simp only [List.append_assoc, List.cons_append]
      rfl
    have hout1 : "<img".toList ++ A ++ " style=\"".toList ++ "width".toList ++
        ": ".toList ++ D ++ "px;\"".toList ++ [] ++ ['>'] =
        '<' :: ("img".toList ++
          ((A ++ (" style=\"width: ".toList ++ (D ++ "px;\"".toList))) ++ '>' :: [])) := by
      simp only [List.append_assoc, List.cons_append, List.append_nil]
      rfl
    rw [hshape]
    exact (scanL_match_all _ (imgStyleStep_consuming "width".toList) _ _ _ hstep1).trans hout1
  have hsegN1 : ∀ c ∈ A ++ (" style=\"width: ".toList ++ (D ++ "px;\"".toList)),
      c ≠ '>' := by
    intro c hc
    rcases List.mem_append.mp hc with h | h
    · exact fun hce => hgtA (hce ▸ h)
    · rcases List.mem_append.mp h with h | h
      · exact (by decide : ∀ x ∈ " style=\"width: ".toList, x ≠ '>') c h
      · rcases List.mem_append.mp h with h | h
        · exact hDgt c h
        · exact (by decide : ∀ x ∈ "px;\"".toList, x ≠ '>') c h
  have hltTail1 : '<' ∉ "img".toList ++
      ((A ++ (" style=\"width: ".toList ++ (D ++ "px;\"".toList))) ++ '>' :: []) := by
    intro hm
    rcases List.mem_append.mp hm with h | h
    · exact absurd h (by decide)
    · rcases List.mem_append.mp h with h | h
      · rcases List.mem_append.mp h with h | h
        · exact hltA h
        · rcases List.mem_append.mp h with h | h
          · exact absurd h (by decide)
          · rcases List.mem_append.mp h with h | h
            · exact hDlt h
            · exact absurd h (by decide)
      · rcases List.mem_cons.mp h with h | h
        · exact absurd h (by decide)
        · exact absurd h (by decide)
  have hoccImg1 : occursL "<img".toList ("img".toList ++
      ((A ++ (" style=\"width: ".toList ++ (D ++ "px;\"".toList))) ++ '>' :: [])) = false :=
    occursL_eq_false_of_lacks (show ('<' : Char) ∈ "<img".toList by decide) hltTail1
  have hoccTsp1 : occursL "<tspan".toList ("img".toList ++
      ((A ++ (" style=\"width: ".toList ++ (D ++ "px;\"".toList))) ++ '>' :: [])) = false :=
    occursL_eq_false_of_lacks (show ('<' : Char) ∈ "<tspan".toList by decide) hltTail1
  have hoccH : occursL "height=\"".toList
      (A ++ (" style=\"width: ".toList ++ (D ++ "px;\"".toList))) = false := by
    have h1 : occursL "height=\"".toList (D ++ "px;\"".toList) = false := by
      refine occursL_eq_false_of_lacks (show ('h' : Char) ∈ "height=\"".toList by decide) ?_
      intro hm
      rcases List.mem_append.mp hm with hm | hm
      · exact absurd (hdig _ hm) (by decide)
      · exact absurd hm (by decide)
    have h2 : occursL "height=\"".toList
        (" style=\"width: ".toList ++ (D ++ "px;\"".toList)) = false :=
      occursL_append_split _ _ _ (fun _ => true) Char.isDigit (by decide) h1
        (fun _ _ => rfl) (head_digit_append _ hD hdig) (by decide)
    exact occursL_append_split _ _ _ (fun _ => true) (fun a => a == ' ') hhA h2
      (fun _ _ => rfl) (head_eq_char rfl) (by decide)
  have hoccW : occursL "width=\"".toList
      (A ++ (" style=\"width: ".toList ++ (D ++ "px;\"".toList))) = false := by
    have h1 : occursL "width=\"".toList (D ++ "px;\"".toList) = false := by
      refine occursL_eq_false_of_lacks (show ('w' : Char) ∈ "width=\"".toList by decide) ?_
      intro hm
      rcases List.mem_append.mp hm with hm | hm
      · exact absurd (hdig _ hm) (by decide)
      · exact absurd hm (by decide)
    have h2 : occursL "width=\"".toList
        (" style=\"width: ".toList ++ (D ++ "px;\"".toList)) = false :=
      occursL_append_split _ _ _ (fun _ => true) Char.isDigit (by decide) h1
        (fun _ _ => rfl) (head_digit_append _ hD hdig) (by decide)
    exact occursL_append_split _ _ _ (fun _ => true) (fun a => a == ' ') hwA h2
      (fun _ _ => rfl) (head_eq_char rfl) (by decide)
  have hfindH : findAttrSplit "height".toList
      (A ++ (" style=\"width: ".toList ++ (D ++ "px;\"".toList))) = none :=
    findAttrSplit_none_of_not_occurs _ _ hoccH
  have hfindW : findAttrSplit "width".toList
      (A ++ (" style=\"width: ".toList ++ (D ++ "px;\"".toList))) = none :=
    findAttrSplit_none_of_not_occurs _ _ hoccW
  have hstep2 : imgStyleStep "height".toList ('<' :: ("img".toList ++
      ((A ++ (" style=\"width: ".toList ++ (D ++ "px;\"".toList))) ++ '>' :: []))) = none := by
    have h := imgStyleStep_tag "height".toList
      (A ++ (" style=\"width: ".toList ++ (D ++ "px;\"".toList))) [] hsegN1
    simp only [hfindH] at h
    exact h
  have hstep3 : imgDropStep "width".toList ('<' :: ("img".toList ++
      ((A ++ (" style=\"width: ".toList ++ (D ++ "px;\"".toList))) ++ '>' :: []))) = none := by
    have h := imgDropStep_tag "width".toList
      (A ++ (" style=\"width: ".toList ++ (D ++ "px;\"".toList))) [] hsegN1
    simp only [hfindW] at h
    exact h
  have hstep4 : imgDropStep "height".toList ('<' :: ("img".toList ++
      ((A ++ (" style=\"width: ".toList ++ (D ++ "px;\"".toList))) ++ '>' :: []))) = none := by
    have h := imgDropStep_tag "height".toList
      (A ++ (" style=\"width: ".toList ++ (D ++ "px;\"".toList))) [] hsegN1
    simp only [hfindH] at h
    exact h
  have hstep5 : tspanStep ('<' :: ("img".toList ++
      ((A ++ (" style=\"width: ".toList ++ (D ++ "px;\"".toList))) ++ '>' :: []))) = none :=
    tspanStep_none _ rfl
  have hpass2 : imgStylePassL "height".toList ('<' :: ("img".toList ++
      ((A ++ (" style=\"width: ".toList ++ (D ++ "px;\"".toList))) ++ '>' :: []))) =
      '<' :: ("img".toList ++
        ((A ++ (" style=\"width: ".toList ++ (D ++ "px;\"".toList))) ++ '>' :: [])) :=
    scanL_id_head _ _ (imgStyleStep_none "height".toList) '<' _ hstep2 hoccImg1
  have hpass3 : imgDropPassL "width".toList ('<' :: ("img".toList ++
      ((A ++ (" style=\"width: ".toList ++ (D ++ "px;\"".toList))) ++ '>' :: []))) =
      '<' :: ("img".toList ++
        ((A ++ (" style=\"width: ".toList ++ (D ++ "px;\"".toList))) ++ '>' :: [])) :=
    scanL_id_head _ _ (imgDropStep_none "width".toList) '<' _ hstep3 hoccImg1
  have hpass4 : imgDropPassL "height".toList ('<' :: ("img".toList ++
      ((A ++ (" style=\"width: ".toList ++ (D ++ "px;\"".toList))) ++ '>' :: []))) =
      '<' :: ("img".toList ++
        ((A ++ (" style=\"width: ".toList ++ (D ++ "px;\"".toList))) ++ '>' :: [])) :=
    scanL_id_head _ _ (imgDropStep_none "height".toList) '<' _ hstep4 hoccImg1
  have hpass5 : tspanPassL ('<' :: ("img".toList ++
      ((A ++ (" style=\"width: ".toList ++ (D ++ "px;\"".toList))) ++ '>' :: []))) =
      '<' :: ("img".toList ++
        ((A ++ (" style=\"width: ".toList ++ (D ++ "px;\"".toList))) ++ '>' :: [])) :=
    scanL_id_head _ _ tspanStep_none '<' _ hstep5 hoccTsp1
  rw [hpass1, hpass2, hpass3, hpass4, hpass5]
  simp only [List.append_assoc, List.cons_append]
  rfl

/-- Pipeline of `modifyHtmlStructureForWechat` on a single `<img>` tag with a
trailing `height` attribute and no `style` attribute. -/
theorem c5_height_nostyle (A D : List Char)
    (hltA : '<' ∉ A) (hgtA : '>' ∉ A)
    (hstyA : occursL "style=\"".toList A = false)
    (hwA : occursL "width=\"".toList A = false)
    (hhA : occursL "height=\"".toList A = false)
    (hD : D ≠ []) (hdig : ∀ c ∈ D, c.isDigit = true) :
    tspanPassL (imgDropPassL "height".toList (imgDropPassL "width".toList
      (imgStylePassL "height".toList (imgStylePassL "width".toList
        ("<img".toList ++ A ++ " height=\"".toList ++ D ++ "\">".toList))))) =
    "<img".toList ++ A ++ " style=\"height: ".toList ++ D ++ "px;\">".toList := by
  have hDgt : ∀ c ∈ D, c ≠ '>' := ne_of_digits hdig (by decide)
  have hDlt : '<' ∉ D := not_mem_of_digits hdig (by decide)
  have hseg0 : ∀ c ∈ A ++ ' ' :: ("height".toList ++ "=\"".toList ++ (D ++ ['"'])),
      c ≠ '>' := by
    intro c hc
    rcases List.mem_append.mp hc with h | h
    · exact fun hce => hgtA (hce ▸ h)
    · rcases List.mem_cons.mp h with h | h
      · subst h; decide
      · rcases List.mem_append.mp h with h | h
        · exact (by decide : ∀ x ∈ "height".toList ++ "=\"".toList, x ≠ '>') c h
        · rcases List.mem_append.mp h with h | h
          · exact hDgt c h
          · exact (by decide : ∀ x ∈ ['"'], x ≠ '>') c h
  have hltTail0 : '<' ∉ "img".toList ++
      ((A ++ ' ' :: ("height".toList ++ "=\"".toList ++ (D ++ ['"']))) ++ '>' :: []) := by
    intro hm
    rcases List.mem_append.mp hm with h | h
    · exact absurd h (by decide)
    · rcases List.mem_append.mp h with h | h
      · rcases List.mem_append.mp h with h | h
        · exact hltA h
        · rcases List.mem_cons.mp h with h | h
          · exact absurd h (by decide)
          · rcases List.mem_append.mp h with h | h
            · exact absurd h (by decide)
            · rcases List.mem_append.mp h with h | h
              · exact hDlt h
              · exact absurd h (by decide)
      · rcases List.mem_cons.mp h with h | h
        · exact absurd h (by decide)
        · exact absurd h (by decide)
  have hoccImg0 : occursL "<img".toList ("img".toList ++
      ((A ++ ' ' :: ("height".toList ++ "=\"".toList ++ (D ++ ['"']))) ++ '>' :: [])) =
      false :=
    occursL_eq_false_of_lacks (show ('<' : Char) ∈ "<img".toList by decide) hltTail0
  have hoccW0 : occursL "width=\"".toList
      (A ++ ' ' :: ("height".toList ++ "=\"".toList ++ (D ++ ['"']))) = false := by
    have h1 : occursL "width=\"".toList (D ++ ['"']) = false := by
      refine occursL_eq_false_of_lacks (show ('w' : Char) ∈ "width=\"".toList by decide) ?_
      intro hm
      rcases List.mem_append.mp hm with hm | hm
      · exact absurd (hdig _ hm) (by decide)
      · exact absurd hm (by decide)
    have h2 : occursL "width=\"".toList
        ("height".toList ++ "=\"".toList ++ (D ++ ['"'])) = false :=
      occursL_append_split _ _ _ (fun _ => true) Char.isDigit (by decide) h1
        (fun _ _ => rfl) (head_digit_append _ hD hdig) (by decide)
    have h3 : occursL "width=\"".toList
        ([' '] ++ ("height".toList ++ "=\"".toList ++ (D ++ ['"']))) = false :=
      occursL_append_split _ _ _ (fun a => a == ' ') (fun _ => true) (by decide) h2
        (last_eq_char rfl) (fun _ _ => rfl) (by decide)
    exact occursL_append_split _ _ _ (fun _ => true) (fun a => a == ' ') hwA h3
      (fun _ _ => rfl) (head_eq_char rfl) (by decide)
  have hfindW0 : findAttrSplit "width".toList
      (A ++ ' ' :: ("height".toList ++ "=\"".toList ++ (D ++ ['"']))) = none :=
    findAttrSplit_none_of_not_occurs _ _ hoccW0
  have hstep01 : imgStyleStep "width".toList ('<' :: ("img".toList ++
      ((A ++ ' ' :: ("height".toList ++ "=\"".toList ++ (D ++ ['"']))) ++ '>' :: []))) =
      none := by
    have h := imgStyleStep_tag "width".toList
      (A ++ ' ' :: ("height".toList ++ "=\"".toList ++ (D ++ ['"']))) [] hseg0
    simp only [hfindW0] at h
    exact h
  have hpass01 : imgStylePassL "width".toList ('<' :: ("img".toList ++
      ((A ++ ' ' :: ("height".toList ++ "=\"".toList ++ (D ++ ['"']))) ++ '>' :: []))) =
      '<' :: ("img".toList ++
        ((A ++ ' ' :: ("height".toList ++ "=\"".toList ++ (D ++ ['"']))) ++ '>' :: [])) :=
    scanL_id_head _ _ (imgStyleStep_none "width".toList) '<' _ hstep01 hoccImg0
  have hfind2 : findAttrSplit "height".toList
      (A ++ ' ' :: ("height".toList ++ "=\"".toList ++ (D ++ ['"']))) =
      some (A, ' ', D, []) :=
    findAttrSplit_found "height".toList A D ' ' (by decide) (by decide) hD hdig
  have hstep02 : imgStyleStep "height".toList
      ("<img".toList ++ ((A ++ ' ' :: ("height".toList ++ "=\"".toList ++ (D ++ ['"']))) ++
        '>' :: [])) =
      some ("<img".toList ++ A ++ " style=\"".toList ++ "height".toList ++ ": ".toList ++
        D ++ "px;\"".toList ++ [] ++ ['>'], []) := by
    rw [imgStyleStep_tag _ _ _ hseg0]
    simp only [hfind2]
    rw [if_neg (fun hcon => by
      rw [List.append_nil, hstyA] at hcon
      exact Bool.noConfusion hcon)]
  have hpass02 : imgStylePassL "height".toList ('<' :: ("img".toList ++
      ((A ++ ' ' :: ("height".toList ++ "=\"".toList ++ (D ++ ['"']))) ++ '>' :: []))) =
      '<' :: ("img".toList ++
        ((A ++ (" style=\"height: ".toList ++ (D ++ "px;\"".toList))) ++ '>' :: [])) := by
    have hout2 : "<img".toList ++ A ++ " style=\"".toList ++ "height".toList ++
        ": ".toList ++ D ++ "px;\"".toList ++ [] ++ ['>'] =
        '<' :: ("img".toList ++
          ((A ++ (" style=\"height: ".toList ++ (D ++ "px;\"".toList))) ++ '>' :: [])) := by
      simp only [List.append_assoc, List.cons_append, List.append_nil]
      rfl
    exact (scanL_match_all _ (imgStyleStep_consuming "height".toList) _ _ _ hstep02).trans hout2
  have hsegN2 : ∀ c ∈ A ++ (" style=\"height: ".toList ++ (D ++ "px;\"".toList)),
      c ≠ '>' := by
    intro c hc
    rcases List.mem_append.mp hc with h | h
    · exact fun hce => hgtA (hce ▸ h)
    · rcases List.mem_append.mp h with h | h
      · exact (by decide : ∀ x ∈ " style=\"height: ".toList, x ≠ '>') c h
      · rcases List.mem_append.mp h with h | h
        · exact hDgt c h
        · exact (by decide : ∀ x ∈ "px;\"".toList, x ≠ '>') c h
  have hltTail2 : '<' ∉ "img".toList ++
      ((A ++ (" style=\"height: ".toList ++ (D ++ "px;\"".toList))) ++ '>' :: []) := by
    intro hm
    rcases List.mem_append.mp hm with h | h
    · exact absurd h (by decide)
    · rcases List.mem_append.mp h with h | h
      · rcases List.mem_append.mp h with h | h
        · exact hltA h
        · rcases List.mem_append.mp h with h | h
          · exact absurd h (by decide)
          · rcases List.mem_append.mp h with h | h
            · exact hDlt h
            · exact absurd h (by decide)
      · rcases List.mem_cons.mp h with h | h
        · exact absurd h (by decide)
        · exact absurd h (by decide)
  have hoccImg2 : occursL "<img".toList ("img".toList ++
      ((A ++ (" style=\"height: ".toList ++ (D ++ "px;\"".toList))) ++ '>' :: [])) = false :=
    occursL_eq_false_of_lacks (show ('<' : Char) ∈ "<img".toList by decide) hltTail2
  have hoccTsp2 : occursL "<tspan".toList ("img".toList ++
      ((A ++ (" style=\"height: ".toList ++ (D ++ "px;\"".toList))) ++ '>' :: [])) = false :=
    occursL_eq_false_of_lacks (show ('<' : Char) ∈ "<tspan".toList by decide) hltTail2
  have hoccH2 : occursL "height=\"".toList
      (A ++ (" style=\"height: ".toList ++ (D ++ "px;\"".toList))) = false := by
    have h1 : occursL "height=\"".toList (D ++ "px;\"".toList) = false := by
      refine occursL_eq_false_of_lacks (show ('h' : Char) ∈ "height=\"".toList by decide) ?_
      intro hm
      rcases List.mem_append.mp hm with hm | hm
      · exact absurd (hdig _ hm) (by decide)
      · exact absurd hm (by decide)
    have h2 : occursL "height=\"".toList
        (" style=\"height: ".toList ++ (D ++ "px;\"".toList)) = false :=
      occursL_append_split _ _ _ (fun _ => true) Char.isDigit (by decide) h1
        (fun _ _ => rfl) (head_digit_append _ hD hdig) (by decide)
    exact occursL_append_split _ _ _ (fun _ => true) (fun a => a == ' ') hhA h2
      (fun _ _ => rfl) (head_eq_char rfl) (by decide)
  have hoccW2 : occursL "width=\"".toList
      (A ++ (" style=\"height: ".toList ++ (D ++ "px;\"".toList))) = false := by
    have h1 : occursL "width=\"".toList (D ++ "px;\"".toList) = false := by
      refine occursL_eq_false_of_lacks (show ('w' : Char) ∈ "width=\"".toList by decide) ?_
      intro hm
      rcases List.mem_append.mp hm with hm | hm
      · exact absurd (hdig _ hm) (by decide)
      · exact absurd hm (by decide)
    have h2 : occursL "width=\"".toList
        (" style=\"height: ".toList ++ (D ++ "px;\"".toList)) = false :=
      occursL_append_split _ _ _ (fun _ => true) Char.isDigit (by decide) h1
        (fun _ _ => rfl) (head_digit_append _ hD hdig) (by decide)
    exact occursL_append_split _ _ _ (fun _ => true) (fun a => a == ' ') hwA h2
      (fun _ _ => rfl) (head_eq_char rfl) (by decide)
  have hfindH2 : findAttrSplit "height".toList
      (A ++ (" style=\"height: ".toList ++ (D ++ "px;\"".toList))) = none :=
    findAttrSplit_none_of_not_occurs _ _ hoccH2
  have hfindW2 : findAttrSplit "width".toList
      (A ++ (" style=\"height: ".toList ++ (D ++ "px;\"".toList))) = none :=
    findAttrSplit_none_of_not_occurs _ _ hoccW2
  have hstep23 : imgDropStep "width".toList ('<' :: ("img".toList ++
      ((A ++ (" style=\"height: ".toList ++ (D ++ "px;\"".toList))) ++ '>' :: []))) = none := by
    have h := imgDropStep_tag "width".toList
      (A ++ (" style=\"height: ".toList ++ (D ++ "px;\"".toList))) [] hsegN2
    simp only [hfindW2] at h
    exact h
  have hstep24 : imgDropStep "height".toList ('<' :: ("img".toList ++
      ((A ++ (" style=\"height: ".toList ++ (D ++ "px;\"".toList))) ++ '>' :: []))) = none := by
    have h := imgDropStep_tag "height".toList
      (A ++ (" style=\"height: ".toList ++ (D ++ "px;\"".toList))) [] hsegN2
    simp only [hfindH2] at h
    exact h
  have hstep25 : tspanStep ('<' :: ("img".toList ++
      ((A ++ (" style=\"height: ".toList ++ (D ++ "px;\"".toList))) ++ '>' :: []))) = none :=
    tspanStep_none _ rfl
  have hpass23 : imgDropPassL "width".toList ('<' :: ("img".toList ++
      ((A ++ (" style=\"height: ".toList ++ (D ++ "px;\"".toList))) ++ '>' :: []))) =
      '<' :: ("img".toList ++
        ((A ++ (" style=\"height: ".toList ++ (D ++ "px;\"".toList))) ++ '>' :: [])) :=
    scanL_id_head _ _ (imgDropStep_none "width".toList) '<' _ hstep23 hoccImg2
  have hpass24 : imgDropPassL "height".toList ('<' :: ("img".toList ++
      ((A ++ (" style=\"height: ".toList ++ (D ++ "px;\"".toList))) ++ '>' :: []))) =
      '<' :: ("img".toList ++
        ((A ++ (" style=\"height: ".toList ++ (D ++ "px;\"".toList))) ++ '>' :: [])) :=
    scanL_id_head _ _ (imgDropStep_none "height".toList) '<' _ hstep24 hoccImg2
  have hpass25 : tspanPassL ('<' :: ("img".toList ++
      ((A ++ (" style=\"height: ".toList ++ (D ++ "px;\"".toList))) ++ '>' :: []))) =
      '<' :: ("img".toList ++
        ((A ++ (" style=\"height: ".toList ++ (D ++ "px;\"".toList))) ++ '>' :: [])) :=
    scanL_id_head _ _ tspanStep_none '<' _ hstep25 hoccTsp2
  have hshape0 : "<img".toList ++ A ++ " height=\"".toList ++ D ++ "\">".toList =
      '<' :: ("img".toList ++
        ((A ++ ' ' :: ("height".toList ++ "=\"".toList ++ (D ++ ['"']))) ++ '>' :: [])) := by
    simp only [List.append_assoc, List.cons_append]
    rfl
  rw [hshape0, hpass01, hpass02, hpass23, hpass24, hpass25]
  simp only [List.append_assoc, List.cons_append]
  rfl

/-- Pipeline of `modifyHtmlStructureForWechat` on a single `<img>` tag with an
existing `style` attribute followed by a `width` attribute: the width rule is
prepended to the existing declarations and the attribute is dropped. -/
theorem c5_width_style (A S D : List Char)
    (hltA : '<' ∉ A) (hgtA : '>' ∉ A)
    (hstyA : occursL "style=\"".toList A = false)
    (hwA : occursL "width=\"".toList A = false)
    (hhA : occursL "height=\"".toList A = false)
    (hltS : '<' ∉ S) (hgtS : '>' ∉ S) (hqS : '"' ∉ S) (heS : '=' ∉ S)
    (hD : D ≠ []) (hdig : ∀ c ∈ D, c.isDigit = true) :
    tspanPassL (imgDropPassL "height".toList (imgDropPassL "width".toList
      (imgStylePassL "height".toList (imgStylePassL "width".toList
        ("<img".toList ++ A ++ " style=\"".toList ++ S ++ "\" width=\"".toList ++
          D ++ "\">".toList))))) =
    "<img".toList ++ A ++ " style=\"width: ".toList ++ D ++ "px; ".toList ++ S ++
      "\">".toList := by
  have hDgt : ∀ c ∈ D, c ≠ '>' := ne_of_digits hdig (by decide)
  have hDlt : '<' ∉ D := not_mem_of_digits hdig (by decide)
  have hseg3 : ∀ c ∈ (A ++ (" style=\"".toList ++ (S ++ ['"']))) ++
      ' ' :: ("width".toList ++ "=\"".toList ++ (D ++ ['"'])), c ≠ '>' := by
    intro c hc
    rcases List.mem_append.mp hc with h | h
    · rcases List.mem_append.mp h with h | h
      · exact fun hce => hgtA (hce ▸ h)
      · rcases List.mem_append.mp h with h | h
        · exact (by decide : ∀ x ∈ " style=\"".toList, x ≠ '>') c h
        · rcases List.mem_append.mp h with h | h
          · exact fun hce => hgtS (hce ▸ h)
          · exact (by decide : ∀ x ∈ ['"'], x ≠ '>') c h
    · rcases List.mem_cons.mp h with h | h
      · subst h; decide
      · rcases List.mem_append.mp h with h | h
        · exact (by decide : ∀ x ∈ "width".toList ++ "=\"".toList, x ≠ '>') c h
        · rcases List.mem_append.mp h with h | h
          · exact hDgt c h
          · exact (by decide : ∀ x ∈ ['"'], x ≠ '>') c h
  have hfind3 : findAttrSplit "width".toList
      ((A ++ (" style=\"".toList ++ (S ++ ['"']))) ++
        ' ' :: ("width".toList ++ "=\"".toList ++ (D ++ ['"']))) =
      some (A ++ (" style=\"".toList ++ (S ++ ['"'])), ' ', D, []) :=
    findAttrSplit_found "width".toList (A ++ (" style=\"".toList ++ (S ++ ['"']))) D ' '
      (by decide) (by decide) hD hdig
  have hasSty : occursL "style=\"".toList
      ((A ++ (" style=\"".toList ++ (S ++ ['"']))) ++ []) = true := by
    rw [List.append_nil, occursL_iff_infix]
    exact ⟨A ++ [' '], S ++ ['"'], by simp only [List.append_assoc, List.cons_append]; rfl⟩
  have hPocc : occursL "style=\"".toList ("<img".toList ++ (A ++ [' '])) = false := by
    have p1 : occursL "style=\"".toList (A ++ [' ']) = false :=
      occursL_append_split _ A [' '] (fun _ => true) (fun a => a == ' ') hstyA (by decide)
        (fun _ _ => rfl) (head_eq_char rfl) (by decide)
    exact occursL_append_split _ "<img".toList (A ++ [' ']) (fun a => a == 'g')
      (fun _ => true) (by decide) p1 (last_eq_char rfl) (fun _ _ => rfl) (by decide)
  have hPlast : ("<img".toList ++ (A ++ [' '])).getLast? = some ' ' := by
    rw [List.getLast?_append_of_ne_nil _ (by simp : A ++ [' '] ≠ [])]
    exact List.getLast?_concat A
  have hnjP : ∀ k, k < ("style=\"".toList).length → 0 < k →
      ¬ ("style=\"".toList).take k <:+ ("<img".toList ++ (A ++ [' '])) :=
    take_not_suffix_last _ _ ' ' hPlast (by decide)
  have hMshape : "<img".toList ++ (A ++ (" style=\"".toList ++ (S ++ ['"']))) ++
      ' ' :: ("width".toList ++ "=\"".toList ++ D ++ '"' :: ([] ++ ['>'])) =
      ("<img".toList ++ (A ++ [' '])) ++ ("style=\"".toList ++
        (S ++ ('"' :: (' ' :: ("width".toList ++ ("=\"".toList ++ (D ++ ('"' :: ['>'])))))))) := by
    simp only [List.append_assoc, List.cons_append, List.nil_append]
    rfl
  have hrepl : replaceFirstL "style=\"".toList
      ("style=\"".toList ++ "width".toList ++ ": ".toList ++ D ++ "px; ".toList)
      ("<img".toList ++ (A ++ (" style=\"".toList ++ (S ++ ['"']))) ++
        ' ' :: ("width".toList ++ "=\"".toList ++ D ++ '"' :: ([] ++ ['>']))) =
      ("<img".toList ++ (A ++ [' '])) ++
        (("style=\"".toList ++ "width".toList ++ ": ".toList ++ D ++ "px; ".toList) ++
          (S ++ ('"' :: (' ' :: ("width".toList ++ ("=\"".toList ++ (D ++ ('"' :: ['>'])))))))) := by
    rw [hMshape]
    exact replaceFirstL_exact _ _ _ _ (by decide) hPocc hnjP
  have hstep31 : imgStyleStep "width".toList
      ("<img".toList ++ (((A ++ (" style=\"".toList ++ (S ++ ['"']))) ++
        ' ' :: ("width".toList ++ "=\"".toList ++ (D ++ ['"']))) ++ '>' :: [])) =
      some (("<img".toList ++ (A ++ [' '])) ++
        (("style=\"".toList ++ "width".toList ++ ": ".toList ++ D ++ "px; ".toList) ++
          (S ++ ('"' :: (' ' :: ("width".toList ++ ("=\"".toList ++ (D ++ ('"' :: ['>'])))))))),
        []) := by
    rw [imgStyleStep_tag _ _ _ hseg3]
    simp only [hfind3]
    rw [if_pos hasSty, hrepl]
  have hM1conv : ("<img".toList ++ (A ++ [' '])) ++
      (("style=\"".toList ++ "width".toList ++ ": ".toList ++ D ++ "px; ".toList) ++
        (S ++ ('"' :: (' ' :: ("width".toList ++ ("=\"".toList ++ (D ++ ('"' :: ['>'])))))))) =
      '<' :: ("img".toList ++ ((A ++ (" style=\"width: ".toList ++ (D ++ ("px; ".toList ++
        (S ++ ("\" width=\"".toList ++ (D ++ ['"']))))))) ++ '>' :: [])) := by
    simp only [List.append_assoc, List.cons_append]
    rfl
  have hshape3 : "<img".toList ++ A ++ " style=\"".toList ++ S ++ "\" width=\"".toList ++
      D ++ "\">".toList =
      '<' :: ("img".toList ++ (((A ++ (" style=\"".toList ++ (S ++ ['"']))) ++
        ' ' :: ("width".toList ++ "=\"".toList ++ (D ++ ['"']))) ++ '>' :: [])) := by
    simp only [List.append_assoc, List.cons_append]
    rfl
  have hpass31 : imgStylePassL "width".toList
      ("<img".toList ++ A ++ " style=\"".toList ++ S ++ "\" width=\"".toList ++
        D ++ "\">".toList) =
      '<' :: ("img".toList ++ ((A ++ (" style=\"width: ".toList ++ (D ++ ("px; ".toList ++
        (S ++ ("\" width=\"".toList ++ (D ++ ['"']))))))) ++ '>' :: [])) := by
    rw [hshape3]
    exact (scanL_match_all _ (imgStyleStep_consuming "width".toList) _ _ _ hstep31).trans
      hM1conv
  have hc2 : occursL "height=\"".toList ("\" width=\"".toList ++ (D ++ ['"'])) = false := by
    have hc1 : occursL "height=\"".toList (D ++ ['"']) = false := by
      refine occursL_eq_false_of_lacks (show ('h' : Char) ∈ "height=\"".toList by decide) ?_
      intro hm
      rcases List.mem_append.mp hm with hm | hm
      · exact absurd (hdig _ hm) (by decide)
      · exact absurd hm (by decide)
    exact occursL_append_split _ _ _ (fun _ => true) Char.isDigit (by decide) hc1
      (fun _ _ => rfl) (head_digit_append _ hD hdig) (by decide)
  have hc3 : occursL "height=\"".toList
      (S ++ ("\" width=\"".toList ++ (D ++ ['"']))) = false :=
    occursL_append_split _ _ _ (fun a => !(a == '=')) (fun a => a == '"')
      (occursL_eq_false_of_lacks (show ('"' : Char) ∈ "height=\"".toList by decide) hqS)
      hc2 (last_not_mem heS) (head_eq_char rfl) (by decide)
  have hc4 : occursL "height=\"".toList
      ("px; ".toList ++ (S ++ ("\" width=\"".toList ++ (D ++ ['"'])))) = false :=
    occursL_append_split _ _ _ (fun a => a == ' ') (fun _ => true) (by decide) hc3
      (last_eq_char rfl) (fun _ _ => rfl) (by decide)
  have hc5 : occursL "height=\"".toList
      (D ++ ("px; ".toList ++ (S ++ ("\" width=\"".toList ++ (D ++ ['"']))))) = false := by
    refine occursL_append_split _ _ _ Char.isDigit (fun _ => true) ?_ hc4
      (last_digit hdig) (fun _ _ => rfl) (by decide)
    refine occursL_eq_false_of_lacks (show ('h' : Char) ∈ "height=\"".toList by decide) ?_
    exact not_mem_of_digits hdig (by decide)
  have hc6 : occursL "height=\"".toList
      (" style=\"width: ".toList ++ (D ++ ("px; ".toList ++
        (S ++ ("\" width=\"".toList ++ (D ++ ['"'])))))) = false :=
    occursL_append_split _ _ _ (fun _ => true) Char.isDigit (by decide) hc5
      (fun _ _ => rfl) (head_digit_append _ hD hdig) (by decide)
  have hoccH3 : occursL "height=\"".toList
      (A ++ (" style=\"width: ".toList ++ (D ++ ("px; ".toList ++
        (S ++ ("\" width=\"".toList ++ (D ++ ['"']))))))) = false :=
    occursL_append_split _ _ _ (fun _ => true) (fun a => a == ' ') hhA hc6
      (fun _ _ => rfl) (head_eq_char rfl) (by decide)
  have hfindH3 : findAttrSplit "height".toList
      (A ++ (" style=\"width: ".toList ++ (D ++ ("px; ".toList ++
        (S ++ ("\" width=\"".toList ++ (D ++ ['"']))))))) = none :=
    findAttrSplit_none_of_not_occurs _ _ hoccH3
  have hseg3' : ∀ c ∈ A ++ (" style=\"width: ".toList ++ (D ++ ("px; ".toList ++
      (S ++ ("\" width=\"".toList ++ (D ++ ['"'])))))), c ≠ '>' := by
    intro c hc
    rcases List.mem_append.mp hc with h | h
    · exact fun hce => hgtA (hce ▸ h)
    · rcases List.mem_append.mp h with h | h
      · exact (by decide : ∀ x ∈ " style=\"width: ".toList, x ≠ '>') c h
      · rcases List.mem_append.mp h with h | h
        · exact hDgt c h
        · rcases List.mem_append.mp h with h | h
          · exact (by decide : ∀ x ∈ "px; ".toList, x ≠ '>') c h
          · rcases List.mem_append.mp h with h | h
            · exact fun hce => hgtS (hce ▸ h)
            · rcases List.mem_append.mp h with h | h
              · exact (by decide : ∀ x ∈ "\" width=\"".toList, x ≠ '>') c h
              · rcases List.mem_append.mp h with h | h
                · exact hDgt c h
                · exact (by decide : ∀ x ∈ ['"'], x ≠ '>') c h
  have hltTail3 : '<' ∉ "img".toList ++ ((A ++ (" style=\"width: ".toList ++
      (D ++ ("px; ".toList ++ (S ++ ("\" width=\"".toList ++ (D ++ ['"']))))))) ++
      '>' :: []) := by
    intro hm
    rcases List.mem_append.mp hm with h | h
    · exact absurd h (by decide)
    · rcases List.mem_append.mp h with h | h
      · rcases List.mem_append.mp h with h | h
        · exact hltA h
        · rcases List.mem_append.mp h with h | h
          · exact absurd h (by decide)
          · rcases List.mem_append.mp h with h | h
            · exact hDlt h
            · rcases List.mem_append.mp h with h | h
              · exact absurd h (by decide)
              · rcases List.mem_append.mp h with h | h
                · exact hltS h
                · rcases List.mem_append.mp h with h | h
                  · exact absurd h (by decide)
                  · rcases List.mem_append.mp h with h | h
                    · exact hDlt h
                    · exact absurd h (by decide)
      · rcases List.mem_cons.mp h with h | h
        · exact absurd h (by decide)
        · exact absurd h (by decide)
  have hoccImg3 : occursL "<img".toList ("img".toList ++ ((A ++ (" style=\"width: ".toList ++
      (D ++ ("px; ".toList ++ (S ++ ("\" width=\"".toList ++ (D ++ ['"']))))))) ++
      '>' :: [])) = false :=
    occursL_eq_false_of_lacks (show ('<' : Char) ∈ "<img".toList by decide) hltTail3
  have hstep32 : imgStyleStep "height".toList ('<' :: ("img".toList ++
      ((A ++ (" style=\"width: ".toList ++ (D ++ ("px; ".toList ++
        (S ++ ("\" width=\"".toList ++ (D ++ ['"']))))))) ++ '>' :: []))) = none := by
    have h := imgStyleStep_tag "height".toList
      (A ++ (" style=\"width: ".toList ++ (D ++ ("px; ".toList ++
        (S ++ ("\" width=\"".toList ++ (D ++ ['"']))))))) [] hseg3'
    simp only [hfindH3] at h
    exact h
  have hpass32 : imgStylePassL "height".toList ('<' :: ("img".toList ++
      ((A ++ (" style=\"width: ".toList ++ (D ++ ("px; ".toList ++
        (S ++ ("\" width=\"".toList ++ (D ++ ['"']))))))) ++ '>' :: []))) =
      '<' :: ("img".toList ++ ((A ++ (" style=\"width: ".toList ++ (D ++ ("px; ".toList ++
        (S ++ ("\" width=\"".toList ++ (D ++ ['"']))))))) ++ '>' :: [])) :=
    scanL_id_head _ _ (imgStyleStep_none "height".toList) '<' _ hstep32 hoccImg3
  have hconvB : A ++ (" style=\"width: ".toList ++ (D ++ ("px; ".toList ++
      (S ++ ("\" width=\"".toList ++ (D ++ ['"'])))))) =
      (A ++ (" style=\"width: ".toList ++ (D ++ ("px; ".toList ++ (S ++ ['"']))))) ++
        ' ' :: ("width".toList ++ "=\"".toList ++ (D ++ ['"'])) := by
    simp only [List.append_assoc, List.cons_append]
    rfl
  have hsegB : ∀ c ∈ (A ++ (" style=\"width: ".toList ++ (D ++ ("px; ".toList ++
      (S ++ ['"']))))) ++ ' ' :: ("width".toList ++ "=\"".toList ++ (D ++ ['"'])),
      c ≠ '>' := hconvB ▸ hseg3'
  have hfind3B : findAttrSplit "width".toList
      ((A ++ (" style=\"width: ".toList ++ (D ++ ("px; ".toList ++ (S ++ ['"']))))) ++
        ' ' :: ("width".toList ++ "=\"".toList ++ (D ++ ['"']))) =
      some (A ++ (" style=\"width: ".toList ++ (D ++ ("px; ".toList ++ (S ++ ['"'])))),
        ' ', D, []) :=
    findAttrSplit_found "width".toList
      (A ++ (" style=\"width: ".toList ++ (D ++ ("px; ".toList ++ (S ++ ['"']))))) D ' '
      (by decide) (by decide) hD hdig
  have hstep33 : imgDropStep "width".toList
      ("<img".toList ++ (((A ++ (" style=\"width: ".toList ++ (D ++ ("px; ".toList ++
        (S ++ ['"']))))) ++ ' ' :: ("width".toList ++ "=\"".toList ++ (D ++ ['"']))) ++
        '>' :: [])) =
      some ("<img".toList ++
        (A ++ (" style=\"width: ".toList ++ (D ++ ("px; ".toList ++ (S ++ ['"']))))) ++
        [] ++ ['>'], []) := by
    rw [imgDropStep_tag _ _ _ hsegB]
    simp only [hfind3B]
  have hN3conv : "<img".toList ++
      (A ++ (" style=\"width: ".toList ++ (D ++ ("px; ".toList ++ (S ++ ['"']))))) ++
      [] ++ ['>'] =
      '<' :: ("img".toList ++ ((A ++ (" style=\"width: ".toList ++ (D ++ ("px; ".toList ++
        (S ++ ['"']))))) ++ '>' :: [])) := by
    simp only [List.append_assoc, List.cons_append, List.append_nil]
    rfl
  have hpass33 : imgDropPassL "width".toList ('<' :: ("img".toList ++
      ((A ++ (" style=\"width: ".toList ++ (D ++ ("px; ".toList ++
        (S ++ ("\" width=\"".toList ++ (D ++ ['"']))))))) ++ '>' :: []))) =
      '<' :: ("img".toList ++ ((A ++ (" style=\"width: ".toList ++ (D ++ ("px; ".toList ++
        (S ++ ['"']))))) ++ '>' :: [])) := by
    rw [show '<' :: ("img".toList ++ ((A ++ (" style=\"width: ".toList ++ (D ++
        ("px; ".toList ++ (S ++ ("\" width=\"".toList ++ (D ++ ['"']))))))) ++ '>' :: [])) =
      '<' :: ("img".toList ++ (((A ++ (" style=\"width: ".toList ++ (D ++ ("px; ".toList ++
        (S ++ ['"']))))) ++ ' ' :: ("width".toList ++ "=\"".toList ++ (D ++ ['"']))) ++
        '>' :: [])) from by rw [hconvB]]
    exact (scanL_match_all _ (imgDropStep_consuming "width".toList) _ _ _ hstep33).trans
      hN3conv
  have hd1 : occursL "height=\"".toList (S ++ ['"']) = false :=
    occursL_append_split _ _ _ (fun a => !(a == '=')) (fun a => a == '"')
      (occursL_eq_false_of_lacks (show ('"' : Char) ∈ "height=\"".toList by decide) hqS)
      (by decide) (last_not_mem heS) (head_eq_char rfl) (by decide)
  have hd2 : occursL "height=\"".toList ("px; ".toList ++ (S ++ ['"'])) = false :=
    occursL_append_split _ _ _ (fun a => a == ' ') (fun _ => true) (by decide) hd1
      (last_eq_char rfl) (fun _ _ => rfl) (by decide)
  have hd3 : occursL "height=\"".toList (D ++ ("px; ".toList ++ (S ++ ['"']))) = false := by
    refine occursL_append_split _ _ _ Char.isDigit (fun _ => true) ?_ hd2
      (last_digit hdig) (fun _ _ => rfl) (by decide)
    refine occursL_eq_false_of_lacks (show ('h' : Char) ∈ "height=\"".toList by decide) ?_
    exact not_mem_of_digits hdig (by decide)
  have hd4 : occursL "height=\"".toList
      (" style=\"width: ".toList ++ (D ++ ("px; ".toList ++ (S ++ ['"'])))) = false :=
    occursL_append_split _ _ _ (fun _ => true) Char.isDigit (by decide) hd3
      (fun _ _ => rfl) (head_digit_append _ hD hdig) (by decide)
  have hoccH4 : occursL "height=\"".toList
      (A ++ (" style=\"width: ".toList ++ (D ++ ("px; ".toList ++ (S ++ ['"']))))) =
      false :=
    occursL_append_split _ _ _ (fun _ => true) (fun a => a == ' ') hhA hd4
      (fun _ _ => rfl) (head_eq_char rfl) (by decide)
  have hfindH4 : findAttrSplit "height".toList
      (A ++ (" style=\"width: ".toList ++ (D ++ ("px; ".toList ++ (S ++ ['"']))))) =
      none :=
    findAttrSplit_none_of_not_occurs _ _ hoccH4
  have hsegN3 : ∀ c ∈ A ++ (" style=\"width: ".toList ++ (D ++ ("px; ".toList ++
      (S ++ ['"'])))), c ≠ '>' := by
    intro c hc
    rcases List.mem_append.mp hc with h | h
    · exact fun hce => hgtA (hce ▸ h)
    · rcases List.mem_append.mp h with h | h
      · exact (by decide : ∀ x ∈ " style=\"width: ".toList, x ≠ '>') c h
      · rcases List.mem_append.mp h with h | h
        · exact hDgt c h
        · rcases List.mem_append.mp h with h | h
          · exact (by decide : ∀ x ∈ "px; ".toList, x ≠ '>') c h
          · rcases List.mem_append.mp h with h | h
            · exact fun hce => hgtS (hce ▸ h)
            · exact (by decide : ∀ x ∈ ['"'], x ≠ '>') c h
  have hltTail4 : '<' ∉ "img".toList ++ ((A ++ (" style=\"width: ".toList ++
      (D ++ ("px; ".toList ++ (S ++ ['"']))))) ++ '>' :: []) := by
    intro hm
    rcases List.mem_append.mp hm with h | h
    · exact absurd h (by decide)
    · rcases List.mem_append.mp h with h | h
      · rcases List.mem_append.mp h with h | h
        · exact hltA h
        · rcases List.mem_append.mp h with h | h
          · exact absurd h (by decide)
          · rcases List.mem_append.mp h with h | h
            · exact hDlt h
            · rcases List.mem_append.mp h with h | h
              · exact absurd h (by decide)
              · rcases List.mem_append.mp h with h | h
                · exact hltS h
                · exact absurd h (by decide)
      · rcases List.mem_cons.mp h with h | h
        · exact absurd h (by decide)
        · exact absurd h (by decide)
  have hoccImg4 : occursL "<img".toList ("img".toList ++ ((A ++ (" style=\"width: ".toList ++
      (D ++ ("px; ".toList ++ (S ++ ['"']))))) ++ '>' :: [])) = false :=
    occursL_eq_false_of_lacks (show ('<' : Char) ∈ "<img".toList by decide) hltTail4
  have hoccTsp4 : occursL "<tspan".toList ("img".toList ++ ((A ++ (" style=\"width: ".toList ++
      (D ++ ("px; ".toList ++ (S ++ ['"']))))) ++ '>' :: [])) = false :=
    occursL_eq_false_of_lacks (show ('<' : Char) ∈ "<tspan".toList by decide) hltTail4
  have hstep34 : imgDropStep "height".toList ('<' :: ("img".toList ++
      ((A ++ (" style=\"width: ".toList ++ (D ++ ("px; ".toList ++ (S ++ ['"']))))) ++
        '>' :: []))) = none := by
    have h := imgDropStep_tag "height".toList
      (A ++ (" style=\"width: ".toList ++ (D ++ ("px; ".toList ++ (S ++ ['"']))))) []
      hsegN3
    simp only [hfindH4] at h
    exact h
  have hstep35 : tspanStep ('<' :: ("img".toList ++
      ((A ++ (" style=\"width: ".toList ++ (D ++ ("px; ".toList ++ (S ++ ['"']))))) ++
        '>' :: []))) = none :=
    tspanStep_none _ rfl
  have hpass34 : imgDropPassL "height".toList ('<' :: ("img".toList ++
      ((A ++ (" style=\"width: ".toList ++ (D ++ ("px; ".toList ++ (S ++ ['"']))))) ++
        '>' :: []))) =
      '<' :: ("img".toList ++ ((A ++ (" style=\"width: ".toList ++ (D ++ ("px; ".toList ++
        (S ++ ['"']))))) ++ '>' :: [])) :=
    scanL_id_head _ _ (imgDropStep_none "height".toList) '<' _ hstep34 hoccImg4
  have hpass35 : tspanPassL ('<' :: ("img".toList ++
      ((A ++ (" style=\"width: ".toList ++ (D ++ ("px; ".toList ++ (S ++ ['"']))))) ++
        '>' :: []))) =
      '<' :: ("img".toList ++ ((A ++ (" style=\"width: ".toList ++ (D ++ ("px; ".toList ++
        (S ++ ['"']))))) ++ '>' :: [])) :=
    scanL_id_head _ _ tspanStep_none '<' _ hstep35 hoccTsp4
  rw [hpass31, hpass32, hpass33, hpass34, hpass35]
  simp only [List.append_assoc, List.cons_append]
  rfl

/-- Pipeline of `modifyHtmlStructureForWechat` on a single `<img>` tag with an
existing `style` attribute followed by a `height` attribute: the height rule
is prepended to the existing declarations and the attribute is dropped. -/
theorem c5_height_style (A S D : List Char)
    (hltA : '<' ∉ A) (hgtA : '>' ∉ A)
    (hstyA : occursL "style=\"".toList A = false)
    (hwA : occursL "width=\"".toList A = false)
    (hhA : occursL "height=\"".toList A = false)
    (hltS : '<' ∉ S) (hgtS : '>' ∉ S) (hqS : '"' ∉ S) (heS : '=' ∉ S)
    (hD : D ≠ []) (hdig : ∀ c ∈ D, c.isDigit = true) :
    tspanPassL (imgDropPassL "height".toList (imgDropPassL "width".toList
      (imgStylePassL "height".toList (imgStylePassL "width".toList
        ("<img".toList ++ A ++ " style=\"".toList ++ S ++ "\" height=\"".toList ++
          D ++ "\">".toList))))) =
    "<img".toList ++ A ++ " style=\"height: ".toList ++ D ++ "px; ".toList ++ S ++
      "\">".toList := by
  have hDgt : ∀ c ∈ D, c ≠ '>' := ne_of_digits hdig (by decide)
  have hDlt : '<' ∉ D := not_mem_of_digits hdig (by decide)
  have hseg4 : ∀ c ∈ (A ++ (" style=\"".toList ++ (S ++ ['"']))) ++
      ' ' :: ("height".toList ++ "=\"".toList ++ (D ++ ['"'])), c ≠ '>' := by
    intro c hc
    rcases List.mem_append.mp hc with h | h
    · rcases List.mem_append.mp h with h | h
      · exact fun hce => hgtA (hce ▸ h)
      · rcases List.mem_append.mp h with h | h
        · exact (by decide : ∀ x ∈ " style=\"".toList, x ≠ '>') c h
        · rcases List.mem_append.mp h with h | h
          · exact fun hce => hgtS (hce ▸ h)
          · exact (by decide : ∀ x ∈ ['"'], x ≠ '>') c h
    · rcases List.mem_cons.mp h with h | h
      · subst h; decide
      · rcases List.mem_append.mp h with h | h
        · exact (by decide : ∀ x ∈ "height".toList ++ "=\"".toList, x ≠ '>') c h
        · rcases List.mem_append.mp h with h | h
          · exact hDgt c h
          · exact (by decide : ∀ x ∈ ['"'], x ≠ '>') c h
  have hltTailIn : '<' ∉ "img".toList ++ (((A ++ (" style=\"".toList ++ (S ++ ['"']))) ++
      ' ' :: ("height".toList ++ "=\"".toList ++ (D ++ ['"']))) ++ '>' :: []) := by
    intro hm
    rcases List.mem_append.mp hm with h | h
    · exact absurd h (by decide)
    · rcases List.mem_append.mp h with h | h
      · rcases List.mem_append.mp h with h | h
        · rcases List.mem_append.mp h with h | h
          · exact hltA h
          · rcases List.mem_append.mp h with h | h
            · exact absurd h (by decide)
            · rcases List.mem_append.mp h with h | h
              · exact hltS h
              · exact absurd h (by decide)
        · rcases List.mem_cons.mp h with h | h
          · exact absurd h (by decide)
          · rcases List.mem_append.mp h with h | h
            · exact absurd h (by decide)
            · rcases List.mem_append.mp h with h | h
              · exact hDlt h
              · exact absurd h (by decide)
      · rcases List.mem_cons.mp h with h | h
        · exact absurd h (by decide)
        · exact absurd h (by decide)
  have hoccImgIn : occursL "<img".toList ("img".toList ++
      (((A ++ (" style=\"".toList ++ (S ++ ['"']))) ++
        ' ' :: ("height".toList ++ "=\"".toList ++ (D ++ ['"']))) ++ '>' :: [])) = false :=
    occursL_eq_false_of_lacks (show ('<' : Char) ∈ "<img".toList by decide) hltTailIn
  have hf3 : occursL "width=\"".toList (A ++ (" style=\"".toList ++ (S ++ ['"']))) =
      false := by
    have f1 : occursL "width=\"".toList (S ++ ['"']) = false :=
      occursL_append_split _ _ _ (fun a => !(a == '=')) (fun a => a == '"')
        (occursL_eq_false_of_lacks (show ('"' : Char) ∈ "width=\"".toList by decide) hqS)
        (by decide) (last_not_mem heS) (head_eq_char rfl) (by decide)
    have f2 : occursL "width=\"".toList (" style=\"".toList ++ (S ++ ['"'])) = false :=
      occursL_append_split _ _ _ (fun a => a == '"') (fun _ => true) (by decide) f1
        (last_eq_char rfl) (fun _ _ => rfl) (by decide)
    exact occursL_append_split _ _ _ (fun _ => true) (fun a => a == ' ') hwA f2
      (fun _ _ => rfl) (head_eq_char rfl) (by decide)
  have hA1hlast : (A ++ (" style=\"".toList ++ (S ++ ['"']))).getLast? = some '"' := by
    rw [List.getLast?_append_of_ne_nil _
      (by simp : " style=\"".toList ++ (S ++ ['"']) ≠ [])]
    rw [List.getLast?_append_of_ne_nil _ (by simp : S ++ ['"'] ≠ [])]
    exact List.getLast?_concat S
  have hoccW4 : occursL "width=\"".toList
      ((A ++ (" style=\"".toList ++ (S ++ ['"']))) ++
        ' ' :: ("height".toList ++ "=\"".toList ++ (D ++ ['"']))) = false := by
    have g1 : occursL "width=\"".toList
        ("height".toList ++ "=\"".toList ++ (D ++ ['"'])) = false := by
      have g0 : occursL "width=\"".toList (D ++ ['"']) = false := by
        refine occursL_eq_false_of_lacks
          (show ('w' : Char) ∈ "width=\"".toList by decide) ?_
        intro hm
        rcases List.mem_append.mp hm with hm | hm
        · exact absurd (hdig _ hm) (by decide)
        · exact absurd hm (by decide)
      exact occursL_append_split _ _ _ (fun _ => true) Char.isDigit (by decide) g0
        (fun _ _ => rfl) (head_digit_append _ hD hdig) (by decide)
    have g2 : occursL "width=\"".toList
        ([' '] ++ ("height".toList ++ "=\"".toList ++ (D ++ ['"']))) = false :=
      occursL_append_split _ _ _ (fun a => a == ' ') (fun _ => true) (by decide) g1
        (last_eq_char rfl) (fun _ _ => rfl) (by decide)
    exact occursL_append_split _ _ _ (fun a => a == '"') (fun _ => true) hf3 g2
      (last_eq_char hA1hlast) (fun _ _ => rfl) (by decide)
  have hfindW4 : findAttrSplit "width".toList
      ((A ++ (" style=\"".toList ++ (S ++ ['"']))) ++
        ' ' :: ("height".toList ++ "=\"".toList ++ (D ++ ['"']))) = none :=
    findAttrSplit_none_of_not_occurs _ _ hoccW4
  have hstep41 : imgStyleStep "width".toList ('<' :: ("img".toList ++
      (((A ++ (" style=\"".toList ++ (S ++ ['"']))) ++
        ' ' :: ("height".toList ++ "=\"".toList ++ (D ++ ['"']))) ++ '>' :: []))) =
      none := by
    have h := imgStyleStep_tag "width".toList
      ((A ++ (" style=\"".toList ++ (S ++ ['"']))) ++
        ' ' :: ("height".toList ++ "=\"".toList ++ (D ++ ['"']))) [] hseg4
    simp only [hfindW4] at h
    exact h
  have hpass41 : imgStylePassL "width".toList ('<' :: ("img".toList ++
      (((A ++ (" style=\"".toList ++ (S ++ ['"']))) ++
        ' ' :: ("height".toList ++ "=\"".toList ++ (D ++ ['"']))) ++ '>' :: []))) =
      '<' :: ("img".toList ++ (((A ++ (" style=\"".toList ++ (S ++ ['"']))) ++
        ' ' :: ("height".toList ++ "=\"".toList ++ (D ++ ['"']))) ++ '>' :: [])) :=
    scanL_id_head _ _ (imgStyleStep_none "width".toList) '<' _ hstep41 hoccImgIn
  have hfind4 : findAttrSplit "height".toList
      ((A ++ (" style=\"".toList ++ (S ++ ['"']))) ++
        ' ' :: ("height".toList ++ "=\"".toList ++ (D ++ ['"']))) =
      some (A ++ (" style=\"".toList ++ (S ++ ['"'])), ' ', D, []) :=
    findAttrSplit_found "height".toList (A ++ (" style=\"".toList ++ (S ++ ['"']))) D ' '
      (by decide) (by decide) hD hdig
  have hasSty4 : occursL "style=\"".toList
      ((A ++ (" style=\"".toList ++ (S ++ ['"']))) ++ []) = true := by
    rw [List.append_nil, occursL_iff_infix]
    exact ⟨A ++ [' '], S ++ ['"'], by simp only [List.append_assoc, List.cons_append]; rfl⟩
  have hPocc : occursL "style=\"".toList ("<img".toList ++ (A ++ [' '])) = false := by
    have p1 : occursL "style=\"".toList (A ++ [' ']) = false :=
      occursL_append_split _ A [' '] (fun _ => true) (fun a => a == ' ') hstyA (by decide)
        (fun _ _ => rfl) (head_eq_char rfl) (by decide)
    exact occursL_append_split _ "<img".toList (A ++ [' ']) (fun a => a == 'g')
      (fun _ => true) (by decide) p1 (last_eq_char rfl) (fun _ _ => rfl) (by decide)
  have hPlast : ("<img".toList ++ (A ++ [' '])).getLast? = some ' ' := by
    rw [List.getLast?_append_of_ne_nil _ (by simp : A ++ [' '] ≠ [])]
    exact List.getLast?_concat A
  have hnjP : ∀ k, k < ("style=\"".toList).length → 0 < k →
      ¬ ("style=\"".toList).take k <:+ ("<img".toList ++ (A ++ [' '])) :=
    take_not_suffix_last _ _ ' ' hPlast (by decide)
  have hMshape4 : "<img".toList ++ (A ++ (" style=\"".toList ++ (S ++ ['"']))) ++
      ' ' :: ("height".toList ++ "=\"".toList ++ D ++ '"' :: ([] ++ ['>'])) =
      ("<img".toList ++ (A ++ [' '])) ++ ("style=\"".toList ++
        (S ++ ('"' :: (' ' :: ("height".toList ++ ("=\"".toList ++
          (D ++ ('"' :: ['>'])))))))) := by
    simp only [List.append_assoc, List.cons_append, List.nil_append]
    rfl
  have hrepl4 : replaceFirstL "style=\"".toList
      ("style=\"".toList ++ "height".toList ++ ": ".toList ++ D ++ "px; ".toList)
      ("<img".toList ++ (A ++ (" style=\"".toList ++ (S ++ ['"']))) ++
        ' ' :: ("height".toList ++ "=\"".toList ++ D ++ '"' :: ([] ++ ['>']))) =
      ("<img".toList ++ (A ++ [' '])) ++
        (("style=\"".toList ++ "height".toList ++ ": ".toList ++ D ++ "px; ".toList) ++
          (S ++ ('"' :: (' ' :: ("height".toList ++ ("=\"".toList ++
            (D ++ ('"' :: ['>'])))))))) := by
    rw [hMshape4]
    exact replaceFirstL_exact _ _ _ _ (by decide) hPocc hnjP
  have hstep42 : imgStyleStep "height".toList
      ("<img".toList ++ (((A ++ (" style=\"".toList ++ (S ++ ['"']))) ++
        ' ' :: ("height".toList ++ "=\"".toList ++ (D ++ ['"']))) ++ '>' :: [])) =
      some (("<img".toList ++ (A ++ [' '])) ++
        (("style=\"".toList ++ "height".toList ++ ": ".toList ++ D ++ "px; ".toList) ++
          (S ++ ('"' :: (' ' :: ("height".toList ++ ("=\"".toList ++
            (D ++ ('"' :: ['>'])))))))),
        []) := by
    rw [imgStyleStep_tag _ _ _ hseg4]
    simp only [hfind4]
    rw [if_pos hasSty4, hrepl4]
  have hM1conv4 : ("<img".toList ++ (A ++ [' '])) ++
      (("style=\"".toList ++ "height".toList ++ ": ".toList ++ D ++ "px; ".toList) ++
        (S ++ ('"' :: (' ' :: ("height".toList ++ ("=\"".toList ++
          (D ++ ('"' :: ['>'])))))))) =
      '<' :: ("img".toList ++ ((A ++ (" style=\"height: ".toList ++ (D ++ ("px; ".toList ++
        (S ++ ("\" height=\"".toList ++ (D ++ ['"']))))))) ++ '>' :: [])) := by
    simp only [List.append_assoc, List.cons_append]
    rfl
  have hpass42 : imgStylePassL "height".toList ('<' :: ("img".toList ++
      (((A ++ (" style=\"".toList ++ (S ++ ['"']))) ++
        ' ' :: ("height".toList ++ "=\"".toList ++ (D ++ ['"']))) ++ '>' :: []))) =
      '<' :: ("img".toList ++ ((A ++ (" style=\"height: ".toList ++ (D ++ ("px; ".toList ++
        (S ++ ("\" height=\"".toList ++ (D ++ ['"']))))))) ++ '>' :: [])) :=
    (scanL_match_all _ (imgStyleStep_consuming "height".toList) _ _ _ hstep42).trans
      hM1conv4
  have hoccW5 : occursL "width=\"".toList
      (A ++ (" style=\"height: ".toList ++ (D ++ ("px; ".toList ++
        (S ++ ("\" height=\"".toList ++ (D ++ ['"']))))))) = false := by
    have m1 : occursL "width=\"".toList (D ++ ['"']) = false := by
      refine occursL_eq_false_of_lacks (show ('w' : Char) ∈ "width=\"".toList by decide) ?_
      intro hm
      rcases List.mem_append.mp hm with hm | hm
      · exact absurd (hdig _ hm) (by decide)
      · exact absurd hm (by decide)
    have m2 : occursL "width=\"".toList ("\" height=\"".toList ++ (D ++ ['"'])) = false :=
      occursL_append_split _ _ _ (fun _ => true) Char.isDigit (by decide) m1
        (fun _ _ => rfl) (head_digit_append _ hD hdig) (by decide)
    have m3 : occursL "width=\"".toList
        (S ++ ("\" height=\"".toList ++ (D ++ ['"']))) = false :=
      occursL_append_split _ _ _ (fun a => !(a == '=')) (fun a => a == '"')
        (occursL_eq_false_of_lacks (show ('"' : Char) ∈ "width=\"".toList by decide) hqS)
        m2 (last_not_mem heS) (head_eq_char rfl) (by decide)
    have m4 : occursL "width=\"".toList
        ("px; ".toList ++ (S ++ ("\" height=\"".toList ++ (D ++ ['"'])))) = false :=
      occursL_append_split _ _ _ (fun a => a == ' ') (fun _ => true) (by decide) m3
        (last_eq_char rfl) (fun _ _ => rfl) (by decide)
    have m5 : occursL "width=\"".toList
        (D ++ ("px; ".toList ++ (S ++ ("\" height=\"".toList ++ (D ++ ['"']))))) =
        false := by
      refine occursL_append_split _ _ _ Char.isDigit (fun _ => true) ?_ m4
        (last_digit hdig) (fun _ _ => rfl) (by decide)
      refine occursL_eq_false_of_lacks (show ('w' : Char) ∈ "width=\"".toList by decide) ?_
      exact not_mem_of_digits hdig (by decide)
    have m6 : occursL "width=\"".toList
        (" style=\"height: ".toList ++ (D ++ ("px; ".toList ++
          (S ++ ("\" height=\"".toList ++ (D ++ ['"'])))))) = false :=
      occursL_append_split _ _ _ (fun _ => true) Char.isDigit (by decide) m5
        (fun _ _ => rfl) (head_digit_append _ hD hdig) (by decide)
    exact occursL_append_split _ _ _ (fun _ => true) (fun a => a == ' ') hwA m6
      (fun _ _ => rfl) (head_eq_char rfl) (by decide)
  have hfindW5 : findAttrSplit "width".toList
      (A ++ (" style=\"height: ".toList ++ (D ++ ("px; ".toList ++
        (S ++ ("\" height=\"".toList ++ (D ++ ['"']))))))) = none :=
    findAttrSplit_none_of_not_occurs _ _ hoccW5
  have hsegN5 : ∀ c ∈ A ++ (" style=\"height: ".toList ++ (D ++ ("px; ".toList ++
      (S ++ ("\" height=\"".toList ++ (D ++ ['"'])))))), c ≠ '>' := by
    intro c hc
    rcases List.mem_append.mp hc with h | h
    · exact fun hce => hgtA (hce ▸ h)
    · rcases List.mem_append.mp h with h | h
      · exact (by decide : ∀ x ∈ " style=\"height: ".toList, x ≠ '>') c h
      · rcases List.mem_append.mp h with h | h
        · exact hDgt c h
        · rcases List.mem_append.mp h with h | h
          · exact (by decide : ∀ x ∈ "px; ".toList, x ≠ '>') c h
          · rcases List.mem_append.mp h with h | h
            · exact fun hce => hgtS (hce ▸ h)
            · rcases List.mem_append.mp h with h | h
              · exact (by decide : ∀ x ∈ "\" height=\"".toList, x ≠ '>') c h
              · rcases List.mem_append.mp h with h | h
                · exact hDgt c h
                · exact (by decide : ∀ x ∈ ['"'], x ≠ '>') c h
  have hltTail5 : '<' ∉ "img".toList ++ ((A ++ (" style=\"height: ".toList ++
      (D ++ ("px; ".toList ++ (S ++ ("\" height=\"".toList ++ (D ++ ['"']))))))) ++
      '>' :: []) := by
    intro hm
    rcases List.mem_append.mp hm with h | h
    · exact absurd h (by decide)
    · rcases List.mem_append.mp h with h | h
      · rcases List.mem_append.mp h with h | h
        · exact hltA h
        · rcases List.mem_append.mp h with h | h
          · exact absurd h (by decide)
          · rcases List.mem_append.mp h with h | h
            · exact hDlt h
            · rcases List.mem_append.mp h with h | h
              · exact absurd h (by decide)
              · rcases List.mem_append.mp h with h | h
                · exact hltS h
                · rcases List.mem_append.mp h with h | h
                  · exact absurd h (by decide)
                  · rcases List.mem_append.mp h with h | h
                    · exact hDlt h
                    · exact absurd h (by decide)
      · rcases List.mem_cons.mp h with h | h
        · exact absurd h (by decide)
        · exact absurd h (by decide)
  have hoccImg5 : occursL "<img".toList ("img".toList ++
      ((A ++ (" style=\"height: ".toList ++ (D ++ ("px; ".toList ++
        (S ++ ("\" height=\"".toList ++ (D ++ ['"']))))))) ++ '>' :: [])) = false :=
    occursL_eq_false_of_lacks (show ('<' : Char) ∈ "<img".toList by decide) hltTail5
  have hstep43 : imgDropStep "width".toList ('<' :: ("img".toList ++
      ((A ++ (" style=\"height: ".toList ++ (D ++ ("px; ".toList ++
        (S ++ ("\" height=\"".toList ++ (D ++ ['"']))))))) ++ '>' :: []))) = none := by
    have h := imgDropStep_tag "width".toList
      (A ++ (" style=\"height: ".toList ++ (D ++ ("px; ".toList ++
        (S ++ ("\" height=\"".toList ++ (D ++ ['"']))))))) [] hsegN5
    simp only [hfindW5] at h
    exact h
  have hpass43 : imgDropPassL "width".toList ('<' :: ("img".toList ++
      ((A ++ (" style=\"height: ".toList ++ (D ++ ("px; ".toList ++
        (S ++ ("\" height=\"".toList ++ (D ++ ['"']))))))) ++ '>' :: []))) =
      '<' :: ("img".toList ++ ((A ++ (" style=\"height: ".toList ++ (D ++ ("px; ".toList ++
        (S ++ ("\" height=\"".toList ++ (D ++ ['"']))))))) ++ '>' :: [])) :=
    scanL_id_head _ _ (imgDropStep_none "width".toList) '<' _ hstep43 hoccImg5
  have hconvB4 : A ++ (" style=\"height: ".toList ++ (D ++ ("px; ".toList ++
      (S ++ ("\" height=\"".toList ++ (D ++ ['"'])))))) =
      (A ++ (" style=\"height: ".toList ++ (D ++ ("px; ".toList ++ (S ++ ['"']))))) ++
        ' ' :: ("height".toList ++ "=\"".toList ++ (D ++ ['"'])) := by
    simp only [List.append_assoc, List.cons_append]
    rfl
  have hsegB4 : ∀ c ∈ (A ++ (" style=\"height: ".toList ++ (D ++ ("px; ".toList ++
      (S ++ ['"']))))) ++ ' ' :: ("height".toList ++ "=\"".toList ++ (D ++ ['"'])),
      c ≠ '>' := hconvB4 ▸ hsegN5
  have hfind4B : findAttrSplit "height".toList
      ((A ++ (" style=\"height: ".toList ++ (D ++ ("px; ".toList ++ (S ++ ['"']))))) ++
        ' ' :: ("height".toList ++ "=\"".toList ++ (D ++ ['"']))) =
      some (A ++ (" style=\"height: ".toList ++ (D ++ ("px; ".toList ++ (S ++ ['"'])))),
        ' ', D, []) :=
    findAttrSplit_found "height".toList
      (A ++ (" style=\"height: ".toList ++ (D ++ ("px; ".toList ++ (S ++ ['"']))))) D ' '
      (by decide) (by decide) hD hdig
  have hstep44 : imgDropStep "height".toList
      ("<img".toList ++ (((A ++ (" style=\"height: ".toList ++ (D ++ ("px; ".toList ++
        (S ++ ['"']))))) ++ ' ' :: ("height".toList ++ "=\"".toList ++ (D ++ ['"']))) ++
        '>' :: [])) =
      some ("<img".toList ++
        (A ++ (" style=\"height: ".toList ++ (D ++ ("px; ".toList ++ (S ++ ['"']))))) ++
        [] ++ ['>'], []) := by
    rw [imgDropStep_tag _ _ _ hsegB4]
    simp only [hfind4B]
  have hN4conv : "<img".toList ++
      (A ++ (" style=\"height: ".toList ++ (D ++ ("px; ".toList ++ (S ++ ['"']))))) ++
      [] ++ ['>'] =
      '<' :: ("img".toList ++ ((A ++ (" style=\"height: ".toList ++ (D ++ ("px; ".toList ++
        (S ++ ['"']))))) ++ '>' :: [])) := by
    simp only [List.append_assoc, List.cons_append, List.append_nil]
    rfl
  have hpass44 : imgDropPassL "height".toList ('<' :: ("img".toList ++
      ((A ++ (" style=\"height: ".toList ++ (D ++ ("px; ".toList ++
        (S ++ ("\" height=\"".toList ++ (D ++ ['"']))))))) ++ '>' :: []))) =
      '<' :: ("img".toList ++ ((A ++ (" style=\"height: ".toList ++ (D ++ ("px; ".toList ++
        (S ++ ['"']))))) ++ '>' :: [])) := by
    rw [show '<' :: ("img".toList ++ ((A ++ (" style=\"height: ".toList ++ (D ++
        ("px; ".toList ++ (S ++ ("\" height=\"".toList ++ (D ++ ['"']))))))) ++ '>' :: [])) =
      '<' :: ("img".toList ++ (((A ++ (" style=\"height: ".toList ++ (D ++ ("px; ".toList ++
        (S ++ ['"']))))) ++ ' ' :: ("height".toList ++ "=\"".toList ++ (D ++ ['"']))) ++
        '>' :: [])) from by rw [hconvB4]]
    exact (scanL_match_all _ (imgDropStep_consuming "height".toList) _ _ _ hstep44).trans
      hN4conv
  have hltTail6 : '<' ∉ "img".toList ++ ((A ++ (" style=\"height: ".toList ++
      (D ++ ("px; ".toList ++ (S ++ ['"']))))) ++ '>' :: []) := by
    intro hm
    rcases List.mem_append.mp hm with h | h
    · exact absurd h (by decide)
    · rcases List.mem_append.mp h with h | h
      · rcases List.mem_append.mp h with h | h
        · exact hltA h
        · rcases List.mem_append.mp h with h | h
          · exact absurd h (by decide)
          · rcases List.mem_append.mp h with h | h
            · exact hDlt h
            · rcases List.mem_append.mp h with h | h
              · exact absurd h (by decide)
              · rcases List.mem_append.mp h with h | h
                · exact hltS h
                · exact absurd h (by decide)
      · rcases List.mem_cons.mp h with h | h
        · exact absurd h (by decide)
        · exact absurd h (by decide)
  have hoccTsp6 : occursL "<tspan".toList ("img".toList ++ ((A ++
      (" style=\"height: ".toList ++ (D ++ ("px; ".toList ++ (S ++ ['"']))))) ++
      '>' :: [])) = false :=
    occursL_eq_false_of_lacks (show ('<' : Char) ∈ "<tspan".toList by decide) hltTail6
  have hstep45 : tspanStep ('<' :: ("img".toList ++
      ((A ++ (" style=\"height: ".toList ++ (D ++ ("px; ".toList ++ (S ++ ['"']))))) ++
        '>' :: []))) = none :=
    tspanStep_none _ rfl
  have hpass45 : tspanPassL ('<' :: ("img".toList ++
      ((A ++ (" style=\"height: ".toList ++ (D ++ ("px; ".toList ++ (S ++ ['"']))))) ++
        '>' :: []))) =
      '<' :: ("img".toList ++ ((A ++ (" style=\"height: ".toList ++ (D ++ ("px; ".toList ++
        (S ++ ['"']))))) ++ '>' :: [])) :=
    scanL_id_head _ _ tspanStep_none '<' _ hstep45 hoccTsp6
  have hshapeIn : "<img".toList ++ A ++ " style=\"".toList ++ S ++ "\" height=\"".toList ++
      D ++ "\">".toList =
      '<' :: ("img".toList ++ (((A ++ (" style=\"".toList ++ (S ++ ['"']))) ++
        ' ' :: ("height".toList ++ "=\"".toList ++ (D ++ ['"']))) ++ '>' :: [])) := by
    simp only [List.append_assoc, List.cons_append]
    rfl
  rw [hshapeIn, hpass41, hpass42, hpass43, hpass44, hpass45]
  simp only [List.append_assoc, List.cons_append]
  rfl

/-- C5: after the WeChat structural fixer, an `<img>` tag carrying a
`width="N"` attribute loses the attribute and gains `width: Npx;` inside its
`style` attribute — created when absent, prepended to the preserved previous
content when present — and likewise for `height` (both its create-style and
its prepend-to-existing-style case); established here for a
well-formed tag whose other attribute text contains no `<`, `>` and no
`style="`/`width="`/`height="` token, and whose existing style value contains
no `<`, `>`, `"`, `=`. -/
theorem C5_img_size_to_style (attrs sty D : List Char)
    (h1 : '<' ∉ attrs) (h2 : '>' ∉ attrs)
    (h3 : occursL "style=\"".toList attrs = false)
    (h4 : occursL "width=\"".toList attrs = false)
    (h5 : occursL "height=\"".toList attrs = false)
    (h6 : '<' ∉ sty) (h7 : '>' ∉ sty) (h8 : '"' ∉ sty) (h9 : '=' ∉ sty)
    (hD : D ≠ []) (hdig : ∀ c ∈ D, c.isDigit = true) :
    modifyHtmlStructureForWechat
        (String.mk ("<img".toList ++ attrs ++ " width=\"".toList ++ D ++ "\">".toList)) =
      String.mk ("<img".toList ++ attrs ++ " style=\"width: ".toList ++ D ++
        "px;\">".toList) ∧
    modifyHtmlStructureForWechat
        (String.mk ("<img".toList ++ attrs ++ " height=\"".toList ++ D ++ "\">".toList)) =
      String.mk ("<img".toList ++ attrs ++ " style=\"height: ".toList ++ D ++
        "px;\">".toList) ∧
    modifyHtmlStructureForWechat
        (String.mk ("<img".toList ++ attrs ++ " style=\"".toList ++ sty ++
          "\" width=\"".toList ++ D ++ "\">".toList)) =
      String.mk ("<img".toList ++ attrs ++ " style=\"width: ".toList ++ D ++
        "px; ".toList ++ sty ++ "\">".toList) ∧
    modifyHtmlStructureForWechat
        (String.mk ("<img".toList ++ attrs ++ " style=\"".toList ++ sty ++
          "\" height=\"".toList ++ D ++ "\">".toList)) =
      String.mk ("<img".toList ++ attrs ++ " style=\"height: ".toList ++ D ++
        "px; ".toList ++ sty ++ "\">".toList) := by
  refine ⟨?_, ?_, ?_, ?_⟩
  · exact congrArg String.mk (c5_width_nostyle attrs D h1 h2 h3 h4 h5 hD hdig)
  · exact congrArg String.mk (c5_height_nostyle attrs D h1 h2 h3 h4 h5 hD hdig)
  · exact congrArg String.mk
      (c5_width_style attrs sty D h1 h2 h3 h4 h5 h6 h7 h8 h9 hD hdig)
  · exact congrArg String.mk
      (c5_height_style attrs sty D h1 h2 h3 h4 h5 h6 h7 h8 h9 hD hdig)

/-- Witness for `C5_img_size_to_style` at a concrete tag: `src="a.png"`
attribute, style value `border: 1px;`, size `120`. -/
theorem C5_img_size_to_style_witness :
    modifyHtmlStructureForWechat
        (String.mk ("<img".toList ++ " src=\"a.png\"".toList ++ " width=\"".toList ++
          "120".toList ++ "\">".toList)) =
      String.mk ("<img".toList ++ " src=\"a.png\"".toList ++ " style=\"width: ".toList ++
        "120".toList ++ "px;\">".toList) ∧
    modifyHtmlStructureForWechat
        (String.mk ("<img".toList ++ " src=\"a.png\"".toList ++ " height=\"".toList ++
          "120".toList ++ "\">".toList)) =
      String.mk ("<img".toList ++ " src=\"a.png\"".toList ++ " style=\"height: ".toList ++
        "120".toList ++ "px;\">".toList) ∧
    modifyHtmlStructureForWechat
        (String.mk ("<img".toList ++ " src=\"a.png\"".toList ++ " style=\"".toList ++
          "border: 1px;".toList ++ "\" width=\"".toList ++ "120".toList ++ "\">".toList)) =
      String.mk ("<img".toList ++ " src=\"a.png\"".toList ++ " style=\"width: ".toList ++
        "120".toList ++ "px; ".toList ++ "border: 1px;".toList ++ "\">".toList) ∧
    modifyHtmlStructureForWechat
        (String.mk ("<img".toList ++ " src=\"a.png\"".toList ++ " style=\"".toList ++
          "border: 1px;".toList ++ "\" height=\"".toList ++ "120".toList ++ "\">".toList)) =
      String.mk ("<img".toList ++ " src=\"a.png\"".toList ++ " style=\"height: ".toList ++
        "120".toList ++ "px; ".toList ++ "border: 1px;".toList ++ "\">".toList) :=
  C5_img_size_to_style " src=\"a.png\"".toList "border: 1px;".toList "120".toList
    (by decide) (by decide) (by decide) (by decide) (by decide) (by decide) (by decide)
    (by decide) (by decide) (by decide) (by decide)

/-- C5 counterexample to the unrestricted claim: in
`<img sty width="5"le="">` the concatenation of the regex groups around the
matched `width` attribute spells `style="`, so the `hasStyle` probe fires, the
in-match replacement finds no real `style="` to widen, and the attribute is
then dropped: the width information is lost entirely, and the surviving tag
`<img style="">` carries no `width: 5px;`. -/
theorem C5_junction_artifact :
    modifyHtmlStructureForWechat "<img sty width=\"5\"le=\"\">" = "<img style=\"\">" ∧
    occursS "width: 5px;" (modifyHtmlStructureForWechat "<img sty width=\"5\"le=\"\">") =
      false :=
  ⟨by decide, by decide⟩


/-- Structured action of a global literal replace: when the pattern does not
occur in `U` and no tail of `U` starts it, the scan copies `U`, consumes the
canonical occurrence, and continues on `V`. -/
theorem replaceAllL_exact (pat repl U V : List Char) (hpat : pat ≠ [])
    (hU : occursL pat U = false)
    (hnj : ∀ k, k < pat.length → 0 < k → ¬ pat.take k <:+ U) :
    replaceAllL pat repl (U ++ (pat ++ V)) = U ++ (repl ++ replaceAllL pat repl V) := by
  induction U with
  | nil =>
    rw [List.nil_append, List.nil_append]
    obtain ⟨q, qs, hq⟩ := List.exists_cons_of_ne_nil hpat
    show scanL (replaceStep pat repl) (pat ++ V) = _
    rw [hq, List.cons_append, scanL_cons _ (replaceStep_consuming _ _)]
    have hstep : replaceStep (q :: qs) repl (q :: (qs ++ V)) = some (repl, V) := by
      simp only [replaceStep]
      rw [if_pos ⟨List.cons_ne_nil q qs, List.isPrefixOf_iff_prefix.mpr
        (by rw [← List.cons_append]; exact List.prefix_append _ _)⟩]
      rw [← List.cons_append, List.drop_left]
    simp only [hstep]
    rfl
  | cons b U' ih =>
    have hU' : occursL pat U' = false := by
      simp only [occursL, Bool.or_eq_false_iff] at hU
      exact hU.2
    have hnj' : ∀ k, k < pat.length → 0 < k → ¬ pat.take k <:+ U' :=
      fun k hk hk0 hs => hnj k hk hk0 (hs.trans (List.suffix_cons b U'))
    have hcond : ¬(pat ≠ [] ∧ pat.isPrefixOf (b :: (U' ++ (pat ++ V))) = true) := by
      rintro ⟨-, hq⟩
      have hpre : pat <+: (b :: U') ++ (pat ++ V) := by
        rw [List.cons_append]
        exact List.isPrefixOf_iff_prefix.mp hq
      rcases le_or_lt pat.length (b :: U').length with hle | hlt
      · have hpX : pat <+: b :: U' :=
          List.prefix_of_prefix_length_le hpre (List.prefix_append _ _) hle
        have hocc : occursL pat (b :: U') = true :=
          isPrefixOf_occursL (List.isPrefixOf_iff_prefix.mpr hpX)
        rw [hU] at hocc
        exact Bool.noConfusion hocc
      · have hXp : (b :: U') <+: pat :=
          List.prefix_of_prefix_length_le (List.prefix_append _ _) hpre (le_of_lt hlt)
        have htake : pat.take (b :: U').length = b :: U' :=
          (List.prefix_iff_eq_take.mp hXp).symm
        exact hnj (b :: U').length hlt (by simp) (by rw [htake])
    have hstep : replaceStep pat repl (b :: (U' ++ (pat ++ V))) = none := by
      simp only [replaceStep]
      rw [if_neg hcond]
    show scanL (replaceStep pat repl) ((b :: U') ++ (pat ++ V)) = _
    rw [List.cons_append, scanL_cons _ (replaceStep_consuming _ _)]
    simp only [hstep]
    show b :: replaceAllL pat repl (U' ++ (pat ++ V)) = _
    rw [ih hU' hnj', List.cons_append]

theorem not_mem_interE {c : Char} {mid : List Char} (hmid : c ∉ mid) :
    ∀ segs : List (List Char), (∀ s ∈ segs, c ∉ s) → c ∉ interE mid segs := by
  intro segs
  induction segs with
  | nil =>
    intro _ hm
    simp [interE] at hm
  | cons s rest ih =>
    intro hseg hm
    cases rest with
    | nil => exact hseg s (List.mem_cons_self s []) (by simpa [interE] using hm)
    | cons s2 rest' =>
      rw [show interE mid (s :: s2 :: rest') = s ++ (mid ++ interE mid (s2 :: rest'))
        from rfl] at hm
      rcases List.mem_append.mp hm with h | h
      · exact hseg s (List.mem_cons_self _ _) h
      · rcases List.mem_append.mp h with h | h
        · exact hmid h
        · exact ih (fun t ht => hseg t (List.mem_cons_of_mem s ht)) h

theorem interE_glue (M Z s2 : List Char) (rest : List (List Char)) :
    Z ++ interE M (s2 :: rest) = interE M ((Z ++ s2) :: rest) := by
  cases rest with
  | nil => rfl
  | cons r2 rr =>
    show Z ++ (s2 ++ (M ++ interE M (r2 :: rr))) =
      (Z ++ s2) ++ (M ++ interE M (r2 :: rr))
    rw [List.append_assoc]

/-- A global literal replace on a carrier whose payload wraps the pattern as
`W ++ pat ++ Z` rewrites every payload copy, provided the pattern's first
character appears in no segment and not in `W` or `Z`. -/
theorem interE_wrap_replace (p0 : Char) (p' r W Z : List Char)
    (hW : p0 ∉ W) (hZ : p0 ∉ Z) :
    ∀ (rest : List (List Char)) (s : List Char), p0 ∉ s → (∀ t ∈ rest, p0 ∉ t) →
    replaceAllL (p0 :: p') r (interE (W ++ ((p0 :: p') ++ Z)) (s :: rest)) =
      interE (W ++ (r ++ Z)) (s :: rest) := by
  intro rest
  induction rest with
  | nil =>
    intro s hs _
    show replaceAllL (p0 :: p') r s = s
    refine replaceAllL_of_not_occurs _ _ _ ?_
    exact occursL_eq_false_of_lacks (List.mem_cons_self p0 p') hs
  | cons s2 rest' ih =>
    intro s hs hrest
    have hs2 : p0 ∉ Z ++ s2 := by
      intro hm
      rcases List.mem_append.mp hm with h | h
      · exact hZ h
      · exact hrest s2 (List.mem_cons_self _ _) h
    have hUlacks : occursL (p0 :: p') (s ++ W) = false := by
      refine occursL_eq_false_of_lacks (List.mem_cons_self p0 p') ?_
      intro hm
      rcases List.mem_append.mp hm with h | h
      · exact hs h
      · exact hW h
    have hnjU : ∀ k, k < (p0 :: p').length → 0 < k →
        ¬ (p0 :: p').take k <:+ (s ++ W) := by
      intro k _ hk0 hsfx
      have hp0 : p0 ∈ (p0 :: p').take k := by
        cases k with
        | zero => omega
        | succ k' =>
          rw [List.take_succ_cons]
          exact List.mem_cons_self _ _
      have : p0 ∈ s ++ W := hsfx.subset hp0
      rcases List.mem_append.mp this with h | h
      · exact hs h
      · exact hW h
    have hshape : interE (W ++ ((p0 :: p') ++ Z)) (s :: s2 :: rest') =
        (s ++ W) ++ ((p0 :: p') ++ (Z ++ interE (W ++ ((p0 :: p') ++ Z)) (s2 :: rest'))) := by
      show s ++ ((W ++ ((p0 :: p') ++ Z)) ++ interE (W ++ ((p0 :: p') ++ Z)) (s2 :: rest')) =
        _
      simp only [List.append_assoc]
    rw [hshape, replaceAllL_exact _ _ _ _ (List.cons_ne_nil p0 p') hUlacks hnjU]
    rw [interE_glue, ih (Z ++ s2) hs2 (fun t ht => hrest t (List.mem_cons_of_mem s2 ht))]
    rw [← interE_glue]
    show _ = s ++ ((W ++ (r ++ Z)) ++ interE (W ++ (r ++ Z)) (s2 :: rest'))
    simp only [List.append_assoc]

/-- C7 (counterexample to the unrestricted claim): an occurrence of
`hsl(var(--foreground))` inside a `:root` block is first resolved and then
deleted together with the block by the `:root` strip, so it does not map to a
`#3f3f3f` in the output — the output here is empty. -/
theorem C7_root_block_deleted :
    replaceWechatVariables ":root \x7bhsl(var(--foreground))\x7d" StyleOptions.empty =
      "" ∧
    occursS "hsl(var(--foreground))" ":root \x7bhsl(var(--foreground))\x7d" = true :=
  ⟨by decide, by decide⟩

theorem foldReplace_nil : ∀ prs : List (List Char × List Char), foldReplace prs [] = []
  | [] => rfl
  | p :: ps => by
    show List.foldl _ (replaceAllL p.1 p.2 []) ps = []
    rw [show replaceAllL p.1 p.2 [] = [] from rfl]
    exact foldReplace_nil ps

/-- C7 (amended): for every style options value and every carrier text built
from context segments containing none of the characters `m`, `q`, `v`, `h`,
`:`, `c` (so the context cannot spell or complete any other substitution
pattern, a `:root` block or a `calc(` expression) with one occurrence of
`hsl(var(--foreground))` between consecutive segments, the resolver maps every
occurrence to `#3f3f3f`, and it does so through the exact intermediate
`hsl(0 0% 25%)`: the first six substitutions rewrite the carrier to the same
text with every occurrence replaced by `hsl(0 0% 25%)` (first conjunct), which
the eighth pass then maps to `#3f3f3f` (second conjunct). -/
theorem C7_hsl_two_step_contexts (o : StyleOptions) (segs : List (List Char))
    (hseg : ∀ s ∈ segs, ∀ c ∈ s, c ∉ "mqvh:c".toList) :
    foldReplace ((wechatPairs o.pc.toList o.fs.toList o.ffWechat.toList).take 6)
        (interE "hsl(var(--foreground))".toList segs) =
      interE "hsl(0 0% 25%)".toList segs ∧
    replaceWechatVariables (String.mk (interE "hsl(var(--foreground))".toList segs)) o =
      String.mk (interE "#3f3f3f".toList segs) := by
  cases segs with
  | nil =>
    constructor
    · show foldReplace ((wechatPairs o.pc.toList o.fs.toList o.ffWechat.toList).take 6)
        [] = ([] : List Char)
      exact foldReplace_nil _
    · show replaceWechatVariables (String.mk []) o = String.mk []
      unfold replaceWechatVariables
      rw [show (String.mk ([] : List Char)).toList = [] from rfl, foldReplace_nil]
      rw [show rootStripL [] = [] from rfl]
      rw [show calcPassL o.fs.toList [] = [] from rfl]
  | cons s rest =>
    have hchar : ∀ c : Char, c ∈ "mqvh:c".toList → ∀ t ∈ s :: rest, c ∉ t :=
      fun c hc t ht hmem => hseg t ht c hmem hc
    have hms : 'm' ∉ s := hchar 'm' (by decide) s (List.mem_cons_self _ _)
    have hvs : 'v' ∉ s := hchar 'v' (by decide) s (List.mem_cons_self _ _)
    have hhs : 'h' ∉ s := hchar 'h' (by decide) s (List.mem_cons_self _ _)
    have hvrest : ∀ t ∈ rest, 'v' ∉ t :=
      fun t ht => hchar 'v' (by decide) t (List.mem_cons_of_mem s ht)
    have hhrest : ∀ t ∈ rest, 'h' ∉ t :=
      fun t ht => hchar 'h' (by decide) t (List.mem_cons_of_mem s ht)
    have hT0m : 'm' ∉ interE "hsl(var(--foreground))".toList (s :: rest) :=
      not_mem_interE (by decide) _ (hchar 'm' (by decide))
    have hT0q : 'q' ∉ interE "hsl(var(--foreground))".toList (s :: rest) :=
      not_mem_interE (by decide) _ (hchar 'q' (by decide))
    have hT6v : 'v' ∉ interE "hsl(0 0% 25%)".toList (s :: rest) :=
      not_mem_interE (by decide) _ (hchar 'v' (by decide))
    have hT8colon : ':' ∉ interE "#3f3f3f".toList (s :: rest) :=
      not_mem_interE (by decide) _ (hchar ':' (by decide))
    have hT8c : 'c' ∉ interE "#3f3f3f".toList (s :: rest) :=
      not_mem_interE (by decide) _ (hchar 'c' (by decide))
    have e1 : replaceAllL "var(--md-primary-color)".toList o.pc.toList
        (interE "hsl(var(--foreground))".toList (s :: rest)) =
        interE "hsl(var(--foreground))".toList (s :: rest) :=
      replaceAllL_of_not_occurs _ _ _ (occursL_eq_false_of_lacks
        (show ('m' : Char) ∈ "var(--md-primary-color)".toList by decide) hT0m)
    have e2 : replaceAllL "var(--md-font-size)".toList o.fs.toList
        (interE "hsl(var(--foreground))".toList (s :: rest)) =
        interE "hsl(var(--foreground))".toList (s :: rest) :=
      replaceAllL_of_not_occurs _ _ _ (occursL_eq_false_of_lacks
        (show ('m' : Char) ∈ "var(--md-font-size)".toList by decide) hT0m)
    have e3 : replaceAllL "var(--md-font-family)".toList o.ffWechat.toList
        (interE "hsl(var(--foreground))".toList (s :: rest)) =
        interE "hsl(var(--foreground))".toList (s :: rest) :=
      replaceAllL_of_not_occurs _ _ _ (occursL_eq_false_of_lacks
        (show ('m' : Char) ∈ "var(--md-font-family)".toList by decide) hT0m)
    have e4 : replaceAllL "var(--md-line-height)".toList "1.75".toList
        (interE "hsl(var(--foreground))".toList (s :: rest)) =
        interE "hsl(var(--foreground))".toList (s :: rest) :=
      replaceAllL_of_not_occurs _ _ _ (occursL_eq_false_of_lacks
        (show ('m' : Char) ∈ "var(--md-line-height)".toList by decide) hT0m)
    have e5 : replaceAllL "var(--blockquote-background)".toList "#f7f7f7".toList
        (interE "hsl(var(--foreground))".toList (s :: rest)) =
        interE "hsl(var(--foreground))".toList (s :: rest) :=
      replaceAllL_of_not_occurs _ _ _ (occursL_eq_false_of_lacks
        (show ('q' : Char) ∈ "var(--blockquote-background)".toList by decide) hT0q)
    have e6 : replaceAllL "var(--foreground)".toList "0 0% 25%".toList
        (interE "hsl(var(--foreground))".toList (s :: rest)) =
        interE "hsl(0 0% 25%)".toList (s :: rest) := by
      have e6' := interE_wrap_replace 'v' "ar(--foreground)".toList "0 0% 25%".toList
        "hsl(".toList [')'] (by decide) (by decide) rest s hvs hvrest
      have h1 : "hsl(".toList ++ (('v' :: "ar(--foreground)".toList) ++ [')']) =
          "hsl(var(--foreground))".toList := by decide
      have h2 : "hsl(".toList ++ ("0 0% 25%".toList ++ [')']) =
          "hsl(0 0% 25%)".toList := by decide
      rw [h1, h2] at e6'
      exact e6'
    have e7 : replaceAllL "hsl(var(--foreground))".toList "#3f3f3f".toList
        (interE "hsl(0 0% 25%)".toList (s :: rest)) =
        interE "hsl(0 0% 25%)".toList (s :: rest) :=
      replaceAllL_of_not_occurs _ _ _ (occursL_eq_false_of_lacks
        (show ('v' : Char) ∈ "hsl(var(--foreground))".toList by decide) hT6v)
    have e8 : replaceAllL "hsl(0 0% 25%)".toList "#3f3f3f".toList
        (interE "hsl(0 0% 25%)".toList (s :: rest)) =
        interE "#3f3f3f".toList (s :: rest) := by
      have e8' := interE_wrap_replace 'h' "sl(0 0% 25%)".toList "#3f3f3f".toList
        [] [] (by simp) (by simp) rest s hhs hhrest
      have h1 : ([] : List Char) ++ (('h' :: "sl(0 0% 25%)".toList) ++ []) =
          "hsl(0 0% 25%)".toList := by decide
      have h2 : ([] : List Char) ++ ("#3f3f3f".toList ++ []) = "#3f3f3f".toList := by
        decide
      rw [h1, h2] at e8'
      exact e8'
    have e9 : rootStripL (interE "#3f3f3f".toList (s :: rest)) =
        interE "#3f3f3f".toList (s :: rest) :=
      rootStripL_id _ (occursL_eq_false_of_lacks
        (show (':' : Char) ∈ ":root".toList by decide) hT8colon)
    have e10 : calcPassL o.fs.toList (interE "#3f3f3f".toList (s :: rest)) =
        interE "#3f3f3f".toList (s :: rest) :=
      calcPassL_id _ _ (occursL_eq_false_of_lacks
        (show ('c' : Char) ∈ calcLit by decide) hT8c)
    constructor
    · simp only [wechatPairs, List.take, foldReplace, List.foldl]
      rw [e1, e2, e3, e4, e5, e6]
    · have main : calcPassL o.fs.toList (rootStripL
          (foldReplace (wechatPairs o.pc.toList o.fs.toList o.ffWechat.toList)
            (interE "hsl(var(--foreground))".toList (s :: rest)))) =
          interE "#3f3f3f".toList (s :: rest) := by
        simp only [wechatPairs, foldReplace, List.foldl]
        rw [e1, e2, e3, e4, e5, e6, e7, e8, e9, e10]
      exact congrArg String.mk main

/-- Witness for `C7_hsl_two_step_contexts`: segments `A ` and ` B` around one
occurrence, default style options. -/
theorem C7_hsl_two_step_contexts_witness :
    foldReplace ((wechatPairs StyleOptions.empty.pc.toList StyleOptions.empty.fs.toList
        StyleOptions.empty.ffWechat.toList).take 6)
        (interE "hsl(var(--foreground))".toList ["A ".toList, " B".toList]) =
      interE "hsl(0 0% 25%)".toList ["A ".toList, " B".toList] ∧
    replaceWechatVariables
        (String.mk (interE "hsl(var(--foreground))".toList ["A ".toList, " B".toList]))
        StyleOptions.empty =
      String.mk (interE "#3f3f3f".toList ["A ".toList, " B".toList]) :=
  C7_hsl_two_step_contexts StyleOptions.empty ["A ".toList, " B".toList] (by decide)
